import Mathlib

/-!
# Polling loops of the Azure training samples

A shallow embedding of the receive loops and send loops of the Service Bus,
Storage Queue and Event Hub samples, of deleteFile of the Blob Storage sample,
of HelloWorldHandler of the Azure Functions sample and of deleteSecret of the
Key Vault sample, together with the properties that the specification states
about them.

The SDK clients are the environment.  An execution is determined by the answers
the environment gives: the result of the n-th receive call, the result of the
n-th acknowledge call, and the instant at which the context is cancelled.  The
instant is measured on a logical clock that ticks once per observable action of
the loop, so the clock value is the length of the trace recorded so far.
-/

set_option autoImplicit false

/-! ## Go runtime model -/

/-- Go error values.  The constructor deadlineExceeded is the sentinel
context.DeadlineExceeded, canceled is context.Canceled, other stands for any
other leaf error, and wrapped msg inner is the value built by
fmt.Errorf with the verb percent-w around inner. -/
inductive GoError where
  | deadlineExceeded : GoError
  | canceled : GoError
  | other (code : Nat) : GoError
  | wrapped (msg : String) (inner : GoError) : GoError
  deriving DecidableEq, Repr

namespace fmt

/-- The call fmt.Errorf(msg + ": %w", err). -/
def Errorf (msg : String) (err : GoError) : GoError :=
  GoError.wrapped msg err

end fmt

namespace errors

/-- The function errors.Unwrap. -/
def Unwrap : GoError → Option GoError
  | GoError.wrapped _ inner => some inner
  | _ => none

/-- The function errors.Is: walk the Unwrap chain of err and compare every
element with target. -/
def Is : GoError → GoError → Bool
  | GoError.wrapped msg inner, target =>
      decide (GoError.wrapped msg inner = target) || Is inner target
  | err, target => decide (err = target)

end errors

/-- Control outcome of one pass through the body of a Go for-loop: fall through
to the next iteration, or execute a return statement.  As the result of a
fuel-bounded run, next means that the loop is still running. -/
inductive Ctl (σ ρ : Type) where
  | next (s : σ) : Ctl σ ρ
  | ret (s : σ) (r : ρ) : Ctl σ ρ
  deriving DecidableEq, Repr

namespace Ctl

variable {σ ρ : Type}

/-- The state carried by an outcome. -/
def state : Ctl σ ρ → σ
  | next s => s
  | ret s _ => s

/-- Whether the outcome is a return. -/
def returned : Ctl σ ρ → Bool
  | next _ => false
  | ret _ _ => true

end Ctl

/-- The Go statement for with no condition, run for at most fuel iterations. -/
def forLoop {σ ρ : Type} (body : σ → Ctl σ ρ) : Nat → σ → Ctl σ ρ
  | 0, s => Ctl.next s
  | fuel + 1, s =>
      match body s with
      | Ctl.next s1 => forLoop body fuel s1
      | Ctl.ret s1 r => Ctl.ret s1 r

/-! ## Environment and traces -/

/-- Observable actions of a receive loop.  The action ack m is the acknowledge
call issued for m (CompleteMessage, DeleteMessage or UpdateCheckpoint), whether
or not the call succeeds; process m is the log line written for m. -/
inductive Event (Msg : Type) where
  | logStart : Event Msg
  | receive : Event Msg
  | process (m : Msg) : Event Msg
  | ack (m : Msg) : Event Msg
  | sleep : Event Msg
  | logError (msg : String) (err : GoError) : Event Msg
  | close : Event Msg
  deriving DecidableEq, Repr

/-- The pair returned by a receive call: the messages and the error. -/
structure RecvResult (Msg : Type) where
  messages : List Msg
  err : Option GoError
  deriving DecidableEq, Repr

/-- The environment of a loop. -/
structure World (Msg : Type) where
  /-- Clock value from which ctx.Done() is closed; none when never cancelled. -/
  cancelAt : Option Nat
  /-- Result of the n-th receive call. -/
  receive : Nat → RecvResult Msg
  /-- Result of the n-th acknowledge call; none is success. -/
  ack : Nat → Option GoError

/-- Program state of a loop: the trace so far and the call counters. -/
structure LoopState (Msg : Type) where
  trace : List (Event Msg)
  recvCalls : Nat
  ackCalls : Nat
  deriving DecidableEq, Repr

namespace World

variable {Msg : Type}

/-- Whether ctx.Done() is closed at clock value t. -/
def cancelled (w : World Msg) (t : Nat) : Bool :=
  match w.cancelAt with
  | none => false
  | some c => decide (c ≤ t)

end World

namespace LoopState

variable {Msg : Type}

/-- The logical clock. -/
def clock (st : LoopState Msg) : Nat := st.trace.length

/-- Record one action. -/
def emit (st : LoopState Msg) (e : Event Msg) : LoopState Msg :=
  { st with trace := st.trace ++ [e] }

/-- Record a receive call. -/
def recv (st : LoopState Msg) : LoopState Msg :=
  { st with trace := st.trace ++ [Event.receive], recvCalls := st.recvCalls + 1 }

/-- Record an acknowledge call for m. -/
def acked (st : LoopState Msg) (m : Msg) : LoopState Msg :=
  { st with trace := st.trace ++ [Event.ack m], ackCalls := st.ackCalls + 1 }

end LoopState

/-- The messages of the acknowledge calls of a trace, in order. -/
def ackedMessages {Msg : Type} : List (Event Msg) → List Msg
  | [] => []
  | Event.ack m :: rest => m :: ackedMessages rest
  | _ :: rest => ackedMessages rest

/-- The messages of the process actions of a trace, in order. -/
def processedMessages {Msg : Type} : List (Event Msg) → List Msg
  | [] => []
  | Event.process m :: rest => m :: processedMessages rest
  | _ :: rest => processedMessages rest

/-- Number of receive calls in a trace. -/
def receiveCount {Msg : Type} : List (Event Msg) → Nat
  | [] => 0
  | Event.receive :: rest => receiveCount rest + 1
  | _ :: rest => receiveCount rest

/-- Number of sleeps in a trace. -/
def sleepCount {Msg : Type} : List (Event Msg) → Nat
  | [] => 0
  | Event.sleep :: rest => sleepCount rest + 1
  | _ :: rest => sleepCount rest

/-! ## Service Bus: lp10-m1-u6-service-bus/app/main.go -/

namespace ServiceBus

variable {Msg : Type}

/-- The range loop over the received messages: log the message, then
CompleteMessage; a failed completion returns the wrapped error. -/
def completeMessages (w : World Msg) :
    List Msg → LoopState Msg → LoopState Msg × Option GoError
  | [], st => (st, none)
  | message :: rest, st =>
      let st1 := st.emit (Event.process message)
      match w.ack st1.ackCalls with
      | some err => (st1.acked message, some (fmt.Errorf "complete message" err))
      | none => completeMessages w rest (st1.acked message)

/-- One pass through the body of the for-loop of runReceiver: the select on
ctx.Done(), the call of ReceiveMessages, the error test with the comparison
err == context.DeadlineExceeded, and the range loop.  The 30 second deadline of
receiveCtx belongs to the environment: a receive call that runs into it answers
with the timeout error. -/
def loopBody (w : World Msg) (st : LoopState Msg) :
    Ctl (LoopState Msg) (Option GoError) :=
  if w.cancelled st.clock then
    Ctl.ret st none
  else
    let res := w.receive st.recvCalls
    let st1 := st.recv
    match res.err with
    | some err =>
        if err = GoError.deadlineExceeded then
          Ctl.next st1
        else
          Ctl.ret st1 (some (fmt.Errorf "receive messages" err))
    | none =>
        match completeMessages w res.messages st1 with
        | (st2, some err) => Ctl.ret st2 (some err)
        | (st2, none) => Ctl.next st2

/-- State at the moment the for-loop is entered. -/
def entryState : LoopState Msg :=
  { trace := [Event.logStart], recvCalls := 0, ackCalls := 0 }

/-- The function runReceiver.  The argument newReceiver is the error result of
client.NewReceiverForQueue; the deferred receiver.Close runs on return. -/
def runReceiver (w : World Msg) (newReceiver : Option GoError) (fuel : Nat) :
    Ctl (LoopState Msg) (Option GoError) :=
  match newReceiver with
  | some err =>
      Ctl.ret { trace := [], recvCalls := 0, ackCalls := 0 }
        (some (fmt.Errorf "new receiver" err))
  | none =>
      match forLoop (loopBody w) fuel entryState with
      | Ctl.ret st r => Ctl.ret (st.emit Event.close) r
      | Ctl.next st => Ctl.next st

end ServiceBus

/-! ## Storage Queue: lp10-m1-u9-storage-queue/app/main.go -/

namespace StorageQueue

variable {Msg : Type}

/-- The range loop over dequeueResponse.Messages: log the message, then
DeleteMessage; a failed deletion returns the wrapped error. -/
def deleteMessages (w : World Msg) :
    List Msg → LoopState Msg → LoopState Msg × Option GoError
  | [], st => (st, none)
  | message :: rest, st =>
      let st1 := st.emit (Event.process message)
      match w.ack st1.ackCalls with
      | some err => (st1.acked message, some (fmt.Errorf "delete message" err))
      | none => deleteMessages w rest (st1.acked message)

/-- One pass through the body of the for-loop of runReceiver: the select on
ctx.Done(), the call of DequeueMessages, the error test with errors.Is, the
test for an empty response, and the range loop.  Both idle branches call
time.Sleep(pollInterval). -/
def loopBody (w : World Msg) (st : LoopState Msg) :
    Ctl (LoopState Msg) (Option GoError) :=
  if w.cancelled st.clock then
    Ctl.ret st none
  else
    let res := w.receive st.recvCalls
    let st1 := st.recv
    match res.err with
    | some err =>
        if errors.Is err GoError.deadlineExceeded then
          Ctl.next (st1.emit Event.sleep)
        else
          Ctl.ret st1 (some (fmt.Errorf "dequeue messages" err))
    | none =>
        if res.messages.length = 0 then
          Ctl.next (st1.emit Event.sleep)
        else
          match deleteMessages w res.messages st1 with
          | (st2, some err) => Ctl.ret st2 (some err)
          | (st2, none) => Ctl.next st2

/-- State at the moment the for-loop is entered. -/
def entryState : LoopState Msg :=
  { trace := [Event.logStart], recvCalls := 0, ackCalls := 0 }

/-- The function runReceiver. -/
def runReceiver (w : World Msg) (fuel : Nat) :
    Ctl (LoopState Msg) (Option GoError) :=
  forLoop (loopBody w) fuel entryState

end StorageQueue

/-! ## Event Hub: lp9-m2-u7-event-hub/app/main.go -/

namespace EventHub

variable {Ev : Type}

/-- The range loop that logs every event of a batch. -/
def logEvents : List Ev → LoopState Ev → LoopState Ev
  | [], st => st
  | event :: rest, st => logEvents rest (st.emit (Event.process event))

/-- The tail of the loop body after the receive-error test: skip an empty
batch, otherwise log every event and checkpoint the last one; a checkpoint
error is only logged. -/
def checkpointBatch (w : World Ev) (events : List Ev) (st : LoopState Ev) :
    Ctl (LoopState Ev) Unit :=
  if h : events.length = 0 then
    Ctl.next st
  else
    let st2 := logEvents events st
    let lastEvent := events.getLast (fun hnil => h (by rw [hnil]; rfl))
    match w.ack st2.ackCalls with
    | some err =>
        Ctl.next ((st2.acked lastEvent).emit (Event.logError "checkpoint error" err))
    | none => Ctl.next (st2.acked lastEvent)

/-- One pass through the body of the for-loop of the goroutine that
runProcessor starts for every partition client.  The body contains no return
statement and no break.  The test ctx.Err() == nil is read on the clock right
after the receive call. -/
def partitionLoopBody (w : World Ev) (st : LoopState Ev) :
    Ctl (LoopState Ev) Unit :=
  let res := w.receive st.recvCalls
  let st1 := st.recv
  match res.err, w.cancelled st1.clock with
  | some err, false => Ctl.next (st1.emit (Event.logError "receive error" err))
  | _, _ => checkpointBatch w res.messages st1

/-- The per-partition goroutine, for at most fuel iterations; the deferred
pc.Close runs when the loop returns. -/
def partitionLoop (w : World Ev) (fuel : Nat) (st : LoopState Ev) :
    Ctl (LoopState Ev) Unit :=
  match forLoop (partitionLoopBody w) fuel st with
  | Ctl.ret s r => Ctl.ret (s.emit Event.close) r
  | Ctl.next s => Ctl.next s

end EventHub

/-! ## Scripted worlds -/

/-- A world given by a finite script of receive results followed by final. -/
def scriptWorld {Msg : Type} (cancelAt : Option Nat) (script : List (RecvResult Msg))
    (final : RecvResult Msg) (ack : Nat → Option GoError) : World Msg :=
  { cancelAt := cancelAt
    receive := fun n => (script.get? n).getD final
    ack := ack }

/-! ## The common shape of the two queue receivers -/

/-- The points in which the two runReceiver loops differ. -/
structure LoopCfg where
  timeout : GoError → Bool
  sleepOnTimeout : Bool
  sleepOnEmpty : Bool
  recvWrap : String
  ackWrap : String

namespace Pattern

variable {Msg : Type}

/-- The log and acknowledge actions of a list of messages. -/
def handled (msgs : List Msg) : List (Event Msg) :=
  msgs.flatMap (fun m => [Event.process m, Event.ack m])

/-- The range loop over a batch, with the wrap text as a parameter. -/
def ackAll (wrap : String) (w : World Msg) :
    List Msg → LoopState Msg → LoopState Msg × Option GoError
  | [], st => (st, none)
  | message :: rest, st =>
      let st1 := st.emit (Event.process message)
      match w.ack st1.ackCalls with
      | some err => (st1.acked message, some (fmt.Errorf wrap err))
      | none => ackAll wrap w rest (st1.acked message)

/-- The loop body, with the differences as parameters. -/
def body (cfg : LoopCfg) (w : World Msg) (st : LoopState Msg) :
    Ctl (LoopState Msg) (Option GoError) :=
  if w.cancelled st.clock then
    Ctl.ret st none
  else
    let res := w.receive st.recvCalls
    let st1 := st.recv
    match res.err with
    | some err =>
        if cfg.timeout err then
          Ctl.next (if cfg.sleepOnTimeout then st1.emit Event.sleep else st1)
        else
          Ctl.ret st1 (some (fmt.Errorf cfg.recvWrap err))
    | none =>
        if cfg.sleepOnEmpty && decide (res.messages.length = 0) then
          Ctl.next (st1.emit Event.sleep)
        else
          match ackAll cfg.ackWrap w res.messages st1 with
          | (st2, some err) => Ctl.ret st2 (some err)
          | (st2, none) => Ctl.next st2

/-- The actions of one iteration that neither returns nor fails. -/
def iterEvents (cfg : LoopCfg) (res : RecvResult Msg) : List (Event Msg) :=
  match res.err with
  | some _ => if cfg.sleepOnTimeout then [Event.receive, Event.sleep] else [Event.receive]
  | none =>
      if cfg.sleepOnEmpty && decide (res.messages.length = 0) then
        [Event.receive, Event.sleep]
      else
        Event.receive :: handled res.messages

/-- The number of acknowledge calls of such an iteration. -/
def iterAcks (res : RecvResult Msg) : Nat :=
  match res.err with
  | some _ => 0
  | none => res.messages.length

end Pattern

/-- The Service Bus instance. -/
def ServiceBus.cfg : LoopCfg :=
  { timeout := fun err => decide (err = GoError.deadlineExceeded)
    sleepOnTimeout := false
    sleepOnEmpty := false
    recvWrap := "receive messages"
    ackWrap := "complete message" }

/-- The Storage Queue instance. -/
def StorageQueue.cfg : LoopCfg :=
  { timeout := fun err => errors.Is err GoError.deadlineExceeded
    sleepOnTimeout := true
    sleepOnEmpty := true
    recvWrap := "dequeue messages"
    ackWrap := "delete message" }

/-- The batches delivered by a list of receive results, concatenated. -/
def delivered {Msg : Type} (rs : List (RecvResult Msg)) : List Msg :=
  rs.flatMap (fun r => match r.err with
    | none => r.messages
    | some _ => [])

/-- The world in which the context is never cancelled. -/
def World.uncancelled {Msg : Type} (w : World Msg) : World Msg :=
  { w with cancelAt := none }

namespace Pattern

variable {Msg : Type}

/-- The actions of the first n iterations after base receive calls, when none
of them returns. -/
def prefixEvents (cfg : LoopCfg) (w : World Msg) (base n : Nat) : List (Event Msg) :=
  (List.range n).flatMap (fun i => iterEvents cfg (w.receive (base + i)))

/-- The number of acknowledge calls of these iterations. -/
def prefixAcks (w : World Msg) (base n : Nat) : Nat :=
  ((List.range n).map (fun i => iterAcks (w.receive (base + i)))).sum

/-- The state n such iterations after st. -/
def after (cfg : LoopCfg) (w : World Msg) (st : LoopState Msg) (n : Nat) : LoopState Msg :=
  { trace := st.trace ++ prefixEvents cfg w st.recvCalls n
    recvCalls := st.recvCalls + n
    ackCalls := st.ackCalls + prefixAcks w st.recvCalls n }

/-- A receive result that the loop does not treat as fatal. -/
def benign (cfg : LoopCfg) (res : RecvResult Msg) : Prop :=
  ∀ e, res.err = some e → cfg.timeout e = true

end Pattern

/-- Clock value at the i-th loop-top check of Service Bus runReceiver, counted
from zero, in the execution that ignores cancellation. -/
def ServiceBus.loopTopClock {Msg : Type} (w : World Msg) (i : Nat) : Nat :=
  (forLoop (ServiceBus.loopBody w.uncancelled) i ServiceBus.entryState).state.clock

/-- Clock value at the i-th loop-top check of Storage Queue runReceiver, counted
from zero, in the execution that ignores cancellation. -/
def StorageQueue.loopTopClock {Msg : Type} (w : World Msg) (i : Nat) : Nat :=
  (forLoop (StorageQueue.loopBody w.uncancelled) i StorageQueue.entryState).state.clock

/-- A receive result that is a timeout or an empty batch, as Storage Queue
runReceiver classifies it. -/
def StorageQueue.idle {Msg : Type} (res : RecvResult Msg) : Bool :=
  match res.err with
  | some err => errors.Is err GoError.deadlineExceeded
  | none => decide (res.messages.length = 0)

/-- A receive result that is a timeout or an empty batch, as Service Bus
runReceiver classifies it. -/
def ServiceBus.idle {Msg : Type} (res : RecvResult Msg) : Bool :=
  match res.err with
  | some err => decide (err = GoError.deadlineExceeded)
  | none => decide (res.messages.length = 0)

/-- State in which an iteration returns when, after the batch prefix pre has
been handled, the acknowledgement of m fails. -/
def Pattern.ackFailState {Msg : Type} (st : LoopState Msg) (pre : List Msg) (m : Msg) :
    LoopState Msg :=
  { trace := st.trace ++ Event.receive :: Pattern.handled pre ++ [Event.process m, Event.ack m]
    recvCalls := st.recvCalls + 1
    ackCalls := st.ackCalls + pre.length + 1 }

/-- The trace after is the trace before followed by one receive call and then,
for each of the first j messages of the batch in batch order, the log line of
the message immediately followed by its acknowledge call. -/
def Pattern.AckOrder {Msg : Type} (before : List (Event Msg)) (msgs : List Msg) (j : Nat)
    (after : List (Event Msg)) : Prop :=
  after = before ++ Event.receive :: Pattern.handled (msgs.take j) ∧
  ackedMessages after = ackedMessages before ++ msgs.take j ∧
  ∀ i m, i < j → msgs[i]? = some m →
    after[before.length + 1 + 2 * i]? = some (Event.process m) ∧
    after[before.length + 2 + 2 * i]? = some (Event.ack m)

/-- Whether an iteration with this receive result sleeps. -/
def Pattern.sleeps {Msg : Type} (cfg : LoopCfg) (res : RecvResult Msg) : Bool :=
  match res.err with
  | some err => cfg.timeout err && cfg.sleepOnTimeout
  | none => cfg.sleepOnEmpty && decide (res.messages.length = 0)

/-! ## Sample worlds -/

/-- Two batches, a timeout and an empty poll, then a fatal receive error. -/
def sampleHardWorld : World Nat :=
  scriptWorld none
    [⟨[1, 2], none⟩, ⟨[], some GoError.deadlineExceeded⟩, ⟨[], none⟩, ⟨[3], none⟩]
    ⟨[], some (GoError.other 7)⟩ (fun _ => none)

/-- A batch of three messages whose second acknowledgement fails. -/
def sampleAckFailWorld : World Nat :=
  scriptWorld none [⟨[1, 2, 3], none⟩] ⟨[], none⟩
    (fun k => if k = 1 then some (GoError.other 9) else none)

/-- A world whose context is cancelled before the loop is entered. -/
def sampleCancelledWorld : World Nat :=
  scriptWorld (some 0) [⟨[1, 2], none⟩] ⟨[5], none⟩ (fun _ => none)

/-- The scenario of the specification for Service Bus: a batch of two, an
empty poll, a batch of one, then cancellation.  Clock value 10 is the instant
of the fourth loop-top check of Service Bus runReceiver. -/
def sampleScenarioWorld : World Nat :=
  scriptWorld (some 10) [⟨[1, 2], none⟩, ⟨[], none⟩, ⟨[3], none⟩] ⟨[4], none⟩ (fun _ => none)

/-- The scenario of the specification for Storage Queue, which sleeps once
after the empty poll: clock value 11 is the instant of the fourth loop-top
check of Storage Queue runReceiver. -/
def sampleScenarioQueueWorld : World Nat :=
  scriptWorld (some 11) [⟨[1, 2], none⟩, ⟨[], none⟩, ⟨[3], none⟩] ⟨[4], none⟩ (fun _ => none)

/-- Cancellation arrives while a batch of two is in progress, before the first
acknowledge call is issued, and every acknowledge call fails with
context.Canceled. -/
def sampleMidBatchFailWorld : World Nat :=
  scriptWorld (some 3) [⟨[1, 2], none⟩] ⟨[], none⟩ (fun _ => some GoError.canceled)

/-- Cancellation arrives at clock value 5, while a batch of three is in
progress: the acknowledge call for the first message has been issued before it
and succeeds, every acknowledge call issued from then on fails with
context.Canceled. -/
def sampleMidBatchCanceledWorld : World Nat :=
  scriptWorld (some 5) [⟨[1, 2, 3], none⟩] ⟨[], none⟩
    (fun k => if k = 0 then none else some GoError.canceled)

/-- The first poll times out. -/
def sampleTimeoutWorld : World Nat :=
  scriptWorld none [⟨[], some GoError.deadlineExceeded⟩] ⟨[], none⟩ (fun _ => none)

/-- Every poll returns an empty batch without error. -/
def sampleEmptyWorld : World Nat :=
  scriptWorld none [] ⟨[], none⟩ (fun _ => none)

/-- Every receive fails with a fatal error, every checkpoint fails too. -/
def sampleFailingHubWorld : World Nat :=
  scriptWorld none [⟨[], some (GoError.other 1)⟩, ⟨[4, 5], none⟩] ⟨[], some (GoError.other 2)⟩
    (fun _ => some (GoError.other 3))

/-- The context is cancelled from the start and every receive call of the
partition client fails at once with context.Canceled. -/
def sampleCancelledHubWorld : World Nat :=
  scriptWorld (some 0) [] ⟨[], some GoError.canceled⟩ (fun _ => none)

/-- The first receive call fails with context.DeadlineExceeded wrapped inside
another error. -/
def sampleWrappedTimeoutWorld : World Nat :=
  scriptWorld none [⟨[], some (GoError.wrapped "amqp receive" GoError.deadlineExceeded)⟩]
    ⟨[], none⟩ (fun _ => none)

/-! ## Contexts of the calls of the two queue receivers -/

/-- Go contexts, as far as deadlines go: context.Background(), a child made by
context.WithCancel, and a child made by context.WithTimeout. -/
inductive Context where
  | background : Context
  | withCancel (parent : Context) : Context
  | withTimeout (parent : Context) (seconds : Nat) : Context
  deriving DecidableEq, Repr

/-- Whether ctx.Deadline() reports a deadline: some ancestor was made by
context.WithTimeout. -/
def Context.hasDeadline : Context → Bool
  | Context.background => false
  | Context.withCancel parent => parent.hasDeadline
  | Context.withTimeout _ _ => true

/-- The context that main of both queue samples passes to runReceiver:
context.WithCancel(context.Background()). -/
def mainContext : Context :=
  Context.withCancel Context.background

/-- Observable actions of a queue receiver, each SDK call together with the
context that the source passes to it. -/
inductive CallEvent (Msg : Type) where
  | logStart : CallEvent Msg
  | receive (ctx : Context) : CallEvent Msg
  | process (m : Msg) : CallEvent Msg
  | ack (ctx : Context) (m : Msg) : CallEvent Msg
  | sleep : CallEvent Msg
  | close (ctx : Context) : CallEvent Msg
  deriving DecidableEq, Repr

/-- The action without its context. -/
def CallEvent.erase {Msg : Type} : CallEvent Msg → Event Msg
  | CallEvent.logStart => Event.logStart
  | CallEvent.receive _ => Event.receive
  | CallEvent.process m => Event.process m
  | CallEvent.ack _ m => Event.ack m
  | CallEvent.sleep => Event.sleep
  | CallEvent.close _ => Event.close

/-- Program state of a receiver whose trace records the contexts. -/
structure CallState (Msg : Type) where
  trace : List (CallEvent Msg)
  recvCalls : Nat
  ackCalls : Nat
  deriving DecidableEq, Repr

/-- The state without the contexts. -/
def CallState.erase {Msg : Type} (st : CallState Msg) : LoopState Msg :=
  { trace := st.trace.map CallEvent.erase, recvCalls := st.recvCalls, ackCalls := st.ackCalls }

/-- Apply a function to the state of an outcome. -/
def Ctl.mapState {σ τ ρ : Type} (f : σ → τ) : Ctl σ ρ → Ctl τ ρ
  | Ctl.next s => Ctl.next (f s)
  | Ctl.ret s r => Ctl.ret (f s) r

namespace ServiceBus

variable {Msg : Type}

/-- The range loop of runReceiver with the context of every call:
CompleteMessage is called with ctx, the context of the caller. -/
def completeMessagesCalls (ctx : Context) (w : World Msg) :
    List Msg → CallState Msg → CallState Msg × Option GoError
  | [], st => (st, none)
  | message :: rest, st =>
      let st1 : CallState Msg := { st with trace := st.trace ++ [CallEvent.process message] }
      let st2 : CallState Msg :=
        { st1 with trace := st1.trace ++ [CallEvent.ack ctx message], ackCalls := st1.ackCalls + 1 }
      match w.ack st1.ackCalls with
      | some err => (st2, some (fmt.Errorf "complete message" err))
      | none => completeMessagesCalls ctx w rest st2

/-- The body of the for-loop of runReceiver with the context of every call:
receiveCtx is made by context.WithTimeout(ctx, 30 seconds) and passed to
ReceiveMessages. -/
def loopBodyCalls (ctx : Context) (w : World Msg) (st : CallState Msg) :
    Ctl (CallState Msg) (Option GoError) :=
  if w.cancelled st.trace.length then
    Ctl.ret st none
  else
    let receiveCtx := Context.withTimeout ctx 30
    let res := w.receive st.recvCalls
    let st1 : CallState Msg :=
      { st with trace := st.trace ++ [CallEvent.receive receiveCtx],
                recvCalls := st.recvCalls + 1 }
    match res.err with
    | some err =>
        if err = GoError.deadlineExceeded then
          Ctl.next st1
        else
          Ctl.ret st1 (some (fmt.Errorf "receive messages" err))
    | none =>
        match completeMessagesCalls ctx w res.messages st1 with
        | (st2, some err) => Ctl.ret st2 (some err)
        | (st2, none) => Ctl.next st2

/-- The function runReceiver, called with the context ctx, with the context of
every call; the deferred receiver.Close gets ctx. -/
def runReceiverCalls (ctx : Context) (w : World Msg) (newReceiver : Option GoError)
    (fuel : Nat) : Ctl (CallState Msg) (Option GoError) :=
  match newReceiver with
  | some err =>
      Ctl.ret { trace := [], recvCalls := 0, ackCalls := 0 }
        (some (fmt.Errorf "new receiver" err))
  | none =>
      match forLoop (loopBodyCalls ctx w) fuel
          { trace := [CallEvent.logStart], recvCalls := 0, ackCalls := 0 } with
      | Ctl.ret st r => Ctl.ret { st with trace := st.trace ++ [CallEvent.close ctx] } r
      | Ctl.next st => Ctl.next st

end ServiceBus

namespace StorageQueue

variable {Msg : Type}

/-- The range loop of runReceiver with the context of every call:
DeleteMessage is called with ctx, the context of the caller. -/
def deleteMessagesCalls (ctx : Context) (w : World Msg) :
    List Msg → CallState Msg → CallState Msg × Option GoError
  | [], st => (st, none)
  | message :: rest, st =>
      let st1 : CallState Msg := { st with trace := st.trace ++ [CallEvent.process message] }
      let st2 : CallState Msg :=
        { st1 with trace := st1.trace ++ [CallEvent.ack ctx message], ackCalls := st1.ackCalls + 1 }
      match w.ack st1.ackCalls with
      | some err => (st2, some (fmt.Errorf "delete message" err))
      | none => deleteMessagesCalls ctx w rest st2

/-- The body of the for-loop of runReceiver with the context of every call:
receiveCtx is made by context.WithTimeout(ctx, 30 seconds) and passed to
DequeueMessages. -/
def loopBodyCalls (ctx : Context) (w : World Msg) (st : CallState Msg) :
    Ctl (CallState Msg) (Option GoError) :=
  if w.cancelled st.trace.length then
    Ctl.ret st none
  else
    let receiveCtx := Context.withTimeout ctx 30
    let res := w.receive st.recvCalls
    let st1 : CallState Msg :=
      { st with trace := st.trace ++ [CallEvent.receive receiveCtx],
                recvCalls := st.recvCalls + 1 }
    match res.err with
    | some err =>
        if errors.Is err GoError.deadlineExceeded then
          Ctl.next { st1 with trace := st1.trace ++ [CallEvent.sleep] }
        else
          Ctl.ret st1 (some (fmt.Errorf "dequeue messages" err))
    | none =>
        if res.messages.length = 0 then
          Ctl.next { st1 with trace := st1.trace ++ [CallEvent.sleep] }
        else
          match deleteMessagesCalls ctx w res.messages st1 with
          | (st2, some err) => Ctl.ret st2 (some err)
          | (st2, none) => Ctl.next st2

/-- The function runReceiver, called with the context ctx, with the context of
every call. -/
def runReceiverCalls (ctx : Context) (w : World Msg) (fuel : Nat) :
    Ctl (CallState Msg) (Option GoError) :=
  forLoop (loopBodyCalls ctx w) fuel
    { trace := [CallEvent.logStart], recvCalls := 0, ackCalls := 0 }

end StorageQueue

/-- What the source fixes about the context of a call made by runReceiver
under ctx: a receive call gets the 30 second child of ctx, an acknowledge call
gets ctx itself. -/
def CallEvent.scoped {Msg : Type} (ctx : Context) (ev : CallEvent Msg) : Prop :=
  (∀ c, ev = CallEvent.receive c → c = Context.withTimeout ctx 30 ∧ c.hasDeadline = true) ∧
  (∀ c m, ev = CallEvent.ack c m → c = ctx ∧ c.hasDeadline = ctx.hasDeadline)

/-! ## The send loops -/

/-- The payload built by one iteration of a send loop: the JSON text with the
fields counter and ts, the second taken from time.Now(). -/
structure Payload where
  counter : Nat
  ts : String
  deriving DecidableEq, Repr

/-- Observable actions of a send loop.  The action send p is the call of
SendMessage, EnqueueMessage or SendEventDataBatch with payload p, whether or not
it succeeds; newBatch and addEvent are the calls of NewEventDataBatch and
AddEventData; wait is the select on ctx.Done() and time.After(interval). -/
inductive SendEvent where
  | logStart : SendEvent
  | newBatch : SendEvent
  | addEvent (p : Payload) : SendEvent
  | send (p : Payload) : SendEvent
  | logSent (n : Nat) : SendEvent
  | logDone (n : Nat) : SendEvent
  | wait : SendEvent
  | close : SendEvent
  deriving DecidableEq, Repr

/-- The environment of a send loop.  Every call is made at most once per
iteration and an iteration that goes on has raised sent by one, so the number
of a call is the value of sent at the top of its iteration. -/
structure SendWorld where
  /-- The timestamp that time.Now() yields in iteration n. -/
  now : Nat → String
  /-- Result of the n-th NewEventDataBatch call; none is success. -/
  newBatch : Nat → Option GoError
  /-- Result of the n-th AddEventData call; none is success. -/
  addEvent : Nat → Option GoError
  /-- Result of the n-th send call; none is success. -/
  send : Nat → Option GoError
  /-- Whether the n-th select takes the branch of ctx.Done(). -/
  waitDone : Nat → Bool

/-- Program state of a send loop: the trace and the variable sent. -/
structure SendState where
  trace : List SendEvent
  sent : Nat
  deriving DecidableEq, Repr

/-- Record one action. -/
def SendState.emit (st : SendState) (e : SendEvent) : SendState :=
  { st with trace := st.trace ++ [e] }

/-- The payloads of the send calls of a trace, in order. -/
def sentPayloads : List SendEvent → List Payload
  | [] => []
  | SendEvent.send p :: rest => p :: sentPayloads rest
  | _ :: rest => sentPayloads rest

namespace ServiceBus

/-- One pass through the body of the for-loop of runSender: the count test,
the payload, SendMessage, the increment of sent, the log line and the select. -/
def sendLoopBody (w : SendWorld) (count : Int) (st : SendState) :
    Ctl SendState (Option GoError) :=
  if 0 < count ∧ count ≤ (st.sent : Int) then
    Ctl.ret (st.emit (SendEvent.logDone st.sent)) none
  else
    let message : Payload := { counter := st.sent, ts := w.now st.sent }
    match w.send st.sent with
    | some err =>
        Ctl.ret (st.emit (SendEvent.send message)) (some (fmt.Errorf "send message" err))
    | none =>
        let st1 : SendState :=
          { trace := st.trace ++ [SendEvent.send message, SendEvent.logSent (st.sent + 1)]
            sent := st.sent + 1 }
        if w.waitDone st.sent then
          Ctl.ret (st1.emit SendEvent.wait) none
        else
          Ctl.next (st1.emit SendEvent.wait)

/-- The function runSender.  The argument newSender is the error result of
client.NewSender; the deferred sender.Close runs on return. -/
def runSender (w : SendWorld) (newSender : Option GoError) (count : Int) (fuel : Nat) :
    Ctl SendState (Option GoError) :=
  match newSender with
  | some err => Ctl.ret { trace := [], sent := 0 } (some (fmt.Errorf "new sender" err))
  | none =>
      match forLoop (sendLoopBody w count) fuel { trace := [SendEvent.logStart], sent := 0 } with
      | Ctl.ret st r => Ctl.ret (st.emit SendEvent.close) r
      | Ctl.next st => Ctl.next st

end ServiceBus

namespace StorageQueue

/-- One pass through the body of the for-loop of runSender: the count test,
the payload, EnqueueMessage, the increment of sent, the log line and the
select. -/
def sendLoopBody (w : SendWorld) (count : Int) (st : SendState) :
    Ctl SendState (Option GoError) :=
  if 0 < count ∧ count ≤ (st.sent : Int) then
    Ctl.ret (st.emit (SendEvent.logDone st.sent)) none
  else
    let body : Payload := { counter := st.sent, ts := w.now st.sent }
    match w.send st.sent with
    | some err =>
        Ctl.ret (st.emit (SendEvent.send body)) (some (fmt.Errorf "enqueue message" err))
    | none =>
        let st1 : SendState :=
          { trace := st.trace ++ [SendEvent.send body, SendEvent.logSent (st.sent + 1)]
            sent := st.sent + 1 }
        if w.waitDone st.sent then
          Ctl.ret (st1.emit SendEvent.wait) none
        else
          Ctl.next (st1.emit SendEvent.wait)

/-- The function runSender. -/
def runSender (w : SendWorld) (count : Int) (fuel : Nat) :
    Ctl SendState (Option GoError) :=
  forLoop (sendLoopBody w count) fuel { trace := [SendEvent.logStart], sent := 0 }

end StorageQueue

namespace EventHub

/-- One pass through the body of the for-loop of runSender: the count test,
NewEventDataBatch, the payload, AddEventData, SendEventDataBatch, the
increment of sent, the log line and the select. -/
def sendLoopBody (w : SendWorld) (count : Int) (st : SendState) :
    Ctl SendState (Option GoError) :=
  if 0 < count ∧ count ≤ (st.sent : Int) then
    Ctl.ret (st.emit (SendEvent.logDone st.sent)) none
  else
    match w.newBatch st.sent with
    | some err => Ctl.ret (st.emit SendEvent.newBatch) (some (fmt.Errorf "new batch" err))
    | none =>
        let payload : Payload := { counter := st.sent, ts := w.now st.sent }
        match w.addEvent st.sent with
        | some err =>
            Ctl.ret { st with trace := st.trace ++ [SendEvent.newBatch, SendEvent.addEvent payload] }
              (some (fmt.Errorf "add event" err))
        | none =>
            match w.send st.sent with
            | some err =>
                Ctl.ret
                  { st with trace := st.trace ++
                      [SendEvent.newBatch, SendEvent.addEvent payload, SendEvent.send payload] }
                  (some (fmt.Errorf "send batch" err))
            | none =>
                let st1 : SendState :=
                  { trace := st.trace ++
                      [SendEvent.newBatch, SendEvent.addEvent payload, SendEvent.send payload,
                        SendEvent.logSent (st.sent + 1)]
                    sent := st.sent + 1 }
                if w.waitDone st.sent then
                  Ctl.ret (st1.emit SendEvent.wait) none
                else
                  Ctl.next (st1.emit SendEvent.wait)

/-- The function runSender.  The argument newProducer is the error result of
azeventhubs.NewProducerClient; the deferred producerClient.Close runs on
return. -/
def runSender (w : SendWorld) (newProducer : Option GoError) (count : Int) (fuel : Nat) :
    Ctl SendState (Option GoError) :=
  match newProducer with
  | some err => Ctl.ret { trace := [], sent := 0 } (some (fmt.Errorf "new producer" err))
  | none =>
      match forLoop (sendLoopBody w count) fuel { trace := [SendEvent.logStart], sent := 0 } with
      | Ctl.ret st r => Ctl.ret (st.emit SendEvent.close) r
      | Ctl.next st => Ctl.next st

end EventHub

/-! ## The common shape of the three send loops -/

/-- The points in which the three runSender loops differ. -/
structure SenderCfg where
  batched : Bool
  sendWrap : String

namespace Sender

/-- The payload of iteration k. -/
def payload (w : SendWorld) (k : Nat) : Payload :=
  { counter := k, ts := w.now k }

/-- The actions before the send call of iteration k. -/
def prepEvents (cfg : SenderCfg) (w : SendWorld) (k : Nat) : List SendEvent :=
  if cfg.batched then [SendEvent.newBatch, SendEvent.addEvent (payload w k)] else []

/-- Whether the calls before the send call of iteration k succeed. -/
def prepOk (cfg : SenderCfg) (w : SendWorld) (k : Nat) : Prop :=
  cfg.batched = true → w.newBatch k = none ∧ w.addEvent k = none

/-- The loop body, with the differences as parameters. -/
def body (cfg : SenderCfg) (w : SendWorld) (count : Int) (st : SendState) :
    Ctl SendState (Option GoError) :=
  if 0 < count ∧ count ≤ (st.sent : Int) then
    Ctl.ret (st.emit (SendEvent.logDone st.sent)) none
  else
    match cfg.batched, w.newBatch st.sent, w.addEvent st.sent with
    | true, some err, _ =>
        Ctl.ret (st.emit SendEvent.newBatch) (some (fmt.Errorf "new batch" err))
    | true, none, some err =>
        Ctl.ret { st with trace := st.trace ++ prepEvents cfg w st.sent }
          (some (fmt.Errorf "add event" err))
    | _, _, _ =>
        match w.send st.sent with
        | some err =>
            Ctl.ret
              { st with trace := st.trace ++ prepEvents cfg w st.sent ++
                  [SendEvent.send (payload w st.sent)] }
              (some (fmt.Errorf cfg.sendWrap err))
        | none =>
            let st1 : SendState :=
              { trace := st.trace ++ prepEvents cfg w st.sent ++
                  [SendEvent.send (payload w st.sent), SendEvent.logSent (st.sent + 1),
                    SendEvent.wait]
                sent := st.sent + 1 }
            if w.waitDone st.sent then Ctl.ret st1 none else Ctl.next st1

/-- The actions of iteration k when it goes on. -/
def iterEvents (cfg : SenderCfg) (w : SendWorld) (k : Nat) : List SendEvent :=
  prepEvents cfg w k ++
    [SendEvent.send (payload w k), SendEvent.logSent (k + 1), SendEvent.wait]

/-- The state n such iterations after st. -/
def after (cfg : SenderCfg) (w : SendWorld) (st : SendState) (n : Nat) : SendState :=
  { trace := st.trace ++ (List.range n).flatMap (fun i => iterEvents cfg w (st.sent + i))
    sent := st.sent + n }

end Sender

/-- The state in which the loop returns when, after k - 1 successful
iterations from the entry state, the k-th send call fails. -/
def Sender.failState (cfg : SenderCfg) (w : SendWorld) (k : Nat) : SendState :=
  { trace := (Sender.after cfg w { trace := [SendEvent.logStart], sent := 0 } (k - 1)).trace ++
      Sender.prepEvents cfg w (k - 1) ++ [SendEvent.send (Sender.payload w (k - 1))],
    sent := k - 1 }

/-- The Service Bus send loop as an instance. -/
def ServiceBus.senderCfg : SenderCfg :=
  { batched := false, sendWrap := "send message" }

/-- The Storage Queue send loop as an instance. -/
def StorageQueue.senderCfg : SenderCfg :=
  { batched := false, sendWrap := "enqueue message" }

/-- The Event Hub send loop as an instance. -/
def EventHub.senderCfg : SenderCfg :=
  { batched := true, sendWrap := "send batch" }

/-- The state in which every send loop is entered. -/
def sendEntryState : SendState :=
  { trace := [SendEvent.logStart], sent := 0 }

/-- A send world in which every call succeeds and no wait is cut short. -/
def sampleSendWorld : SendWorld :=
  { now := fun n => if n = 0 then "t0" else if n = 1 then "t1" else "t2"
    newBatch := fun _ => none
    addEvent := fun _ => none
    send := fun _ => none
    waitDone := fun _ => false }

/-- A send world in which the second NewEventDataBatch call fails while every
send call succeeds. -/
def sampleBatchFailWorld : SendWorld :=
  { sampleSendWorld with newBatch := fun n => if n = 1 then some (GoError.other 4) else none }

/-- A send world in which the second send call fails. -/
def sampleSendFailWorld : SendWorld :=
  { sampleSendWorld with send := fun n => if n = 1 then some (GoError.other 5) else none }

/-! ## Blob Storage: lp3-m3-u4-blob-storage/app/main.go -/

/-- An entry of a blob listing: the fields Name and VersionID of a BlobItem,
both pointers in Go. -/
structure BlobItem where
  Name : Option String
  VersionID : Option String
  deriving DecidableEq, Repr

/-- The answer of one pager.NextPage call: the items of the page and the
error. -/
structure PageResult where
  items : List BlobItem
  err : Option GoError
  deriving DecidableEq, Repr

/-- A call of client.DeleteBlob: the container, the blob name, and the version
that the request addresses.  The call takes the container and the name only,
and the options that deleteFile passes are empty or nil, so deleteFile leaves
the version unset. -/
structure DeleteRequest where
  containerName : String
  blobName : String
  versionID : Option String
  deriving DecidableEq, Repr

/-- The range loop over the items of one page.  The result is the variable
found, the delete calls made so far, and the error when the loop returns. -/
def deleteItems (deleteBlob : Nat → Option GoError) (containerName blobName : String) :
    List BlobItem → Bool → List DeleteRequest → (Bool × List DeleteRequest) × Option GoError
  | [], found, calls => ((found, calls), none)
  | item :: rest, found, calls =>
      match item.Name with
      | none => deleteItems deleteBlob containerName blobName rest found calls
      | some name =>
          if name ≠ blobName then
            deleteItems deleteBlob containerName blobName rest found calls
          else
            match item.VersionID with
            | none => deleteItems deleteBlob containerName blobName rest true calls
            | some version =>
                if version ≠ "" then
                  let request : DeleteRequest :=
                    { containerName := containerName, blobName := blobName, versionID := none }
                  match deleteBlob calls.length with
                  | some err =>
                      ((true, calls ++ [request]),
                        some (fmt.Errorf ("delete version " ++ version ++ " of " ++ blobName) err))
                  | none =>
                      deleteItems deleteBlob containerName blobName rest true (calls ++ [request])
                else
                  deleteItems deleteBlob containerName blobName rest true calls

/-- The loop over the pages of the pager, followed by the deletion of the base
blob. -/
def deletePages (deleteBlob : Nat → Option GoError) (containerName blobName : String) :
    List PageResult → Bool → List DeleteRequest → List DeleteRequest × Option GoError
  | [], found, calls =>
      if found = false then
        (calls, none)
      else
        let request : DeleteRequest :=
          { containerName := containerName, blobName := blobName, versionID := none }
        match deleteBlob calls.length with
        | some err => (calls ++ [request], some (fmt.Errorf ("delete base blob " ++ blobName) err))
        | none => (calls ++ [request], none)
  | page :: rest, found, calls =>
      match page.err with
      | some err => (calls, some (fmt.Errorf "list blobs (with versions)" err))
      | none =>
          match deleteItems deleteBlob containerName blobName page.items found calls with
          | ((_, calls1), some err) => (calls1, some err)
          | ((found1, calls1), none) =>
              deletePages deleteBlob containerName blobName rest found1 calls1

/-- The function deleteFile.  The pager is given by the answers of its
NextPage calls, deleteBlob by the result of the n-th DeleteBlob call. -/
def deleteFile (pages : List PageResult) (deleteBlob : Nat → Option GoError)
    (containerName blobName : String) : List DeleteRequest × Option GoError :=
  deletePages deleteBlob containerName blobName pages false []

/-- The listing without the entries whose name is not blobName. -/
def keepNamed (blobName : String) (pages : List PageResult) : List PageResult :=
  pages.map (fun page =>
    { page with items := page.items.filter (fun item => decide (item.Name = some blobName)) })

/-- A listing with two versions of a.txt. -/
def sampleVersionPages : List PageResult :=
  [⟨[⟨some "a.txt", some "v1"⟩, ⟨some "a.txt", some "v2"⟩], none⟩]

/-- A listing in which no entry is named a.txt: a longer name, an entry
without name, another blob. -/
def sampleOtherPages : List PageResult :=
  [⟨[⟨some "a.txt.bak", some "v1"⟩, ⟨none, some "v2"⟩], none⟩, ⟨[⟨some "b.txt", none⟩], none⟩]

/-! ## Azure Functions handler: m2-u6-azure-functions/function/handler.go -/

/-- A decoded JSON value, as far as the type assertion to string can tell:
a string, or a value of another kind. -/
inductive JsonValue where
  | null : JsonValue
  | bool (b : Bool) : JsonValue
  | number (n : Int) : JsonValue
  | str (s : String) : JsonValue
  | composite : JsonValue
  deriving DecidableEq, Repr

/-- The request as the handler reads it: the first value of the query
parameter name (empty when absent), and the result of io.ReadAll on the
body. -/
structure Request where
  queryName : String
  body : String
  readErr : Option GoError

/-- The struct HelloWorldResponse. -/
structure HelloWorldResponse where
  Message : String
  deriving DecidableEq, Repr

/-- What is written to the response: a plain text, or the JSON encoding of a
HelloWorldResponse, the object with the single field message. -/
inductive ResponseBody where
  | text (s : String) : ResponseBody
  | json (r : HelloWorldResponse) : ResponseBody
  deriving DecidableEq, Repr

/-- The response: status code, the headers set, and the body. -/
structure Response where
  status : Nat
  headers : List (String × String)
  body : ResponseBody
  deriving DecidableEq, Repr

/-- The function HelloWorldHandler.  The argument unmarshal is json.Unmarshal
into a map from string to interface: none when it reports an error, otherwise
the lookup function of the decoded map. -/
def HelloWorldHandler (unmarshal : String → Option (String → Option JsonValue))
    (r : Request) : Response :=
  match r.readErr with
  | some _ =>
      { status := 400
        headers := [("Content-Type", "text/plain; charset=utf-8"),
          ("X-Content-Type-Options", "nosniff")]
        body := ResponseBody.text "Error reading request body\n" }
  | none =>
      let name := r.queryName
      let name :=
        if name = "" then
          if r.body.length > 0 then
            match unmarshal r.body with
            | some data =>
                match data "name" with
                | some (JsonValue.str n) => n
                | _ => name
            | none => name
          else name
        else name
      let name := if name = "" then "World" else name
      { status := 200
        headers := [("Content-Type", "application/json")]
        body := ResponseBody.json
          { Message := "Hello, " ++ name ++ "! Welcome to Azure Functions with Go!" } }

/-- The greeted name in the words of the specification: the query parameter
when it is not empty; otherwise the top-level field name of the body when the
body parses as a JSON object and the field is a non-empty string; otherwise
World. -/
def specGreetedName (unmarshal : String → Option (String → Option JsonValue))
    (r : Request) : String :=
  if r.queryName ≠ "" then
    r.queryName
  else
    match unmarshal r.body with
    | some data =>
        match data "name" with
        | some (JsonValue.str n) => if n ≠ "" then n else "World"
        | _ => "World"
    | none => "World"

/-- A stand-in for json.Unmarshal on three bodies: an object whose name is the
string Ada, an object whose name is a number, and anything else, which is an
error. -/
def sampleUnmarshal (body : String) : Option (String → Option JsonValue) :=
  if body = "ada" then
    some (fun key => if key = "name" then some (JsonValue.str "Ada") else none)
  else if body = "num" then
    some (fun key => if key = "name" then some (JsonValue.number 7) else none)
  else none

/-! ## Key Vault: lp7-m1-u5-vault/app/main.go -/

/-- Observable actions of deleteSecret. -/
inductive VaultEvent where
  | deleteSecret : VaultEvent
  | purge : VaultEvent
  | sleep : VaultEvent
  | print : VaultEvent
  deriving DecidableEq, Repr

/-- The loop for i := 0; i < 3; i++ of deleteSecret, started at i.  The result
is the trace and, when the loop executes its return statement, the error
returned; none means that the loop was left by break or by its condition. -/
def purgeLoop (purge : Nat → Option GoError) :
    Nat → Nat → List VaultEvent → List VaultEvent × Option GoError
  | 0, _, trace => (trace, none)
  | fuel + 1, i, trace =>
      if i < 3 then
        match purge i with
        | none => (trace ++ [VaultEvent.purge], none)
        | some err =>
            if i < 2 then
              purgeLoop purge fuel (i + 1) (trace ++ [VaultEvent.purge, VaultEvent.sleep])
            else
              (trace ++ [VaultEvent.purge], some err)
      else
        (trace, none)

/-- The function deleteSecret.  The argument delete is the error result of
DeleteSecret and purge i that of the PurgeDeletedSecret call of iteration i. -/
def deleteSecret (delete : Option GoError) (purge : Nat → Option GoError) :
    List VaultEvent × Option GoError :=
  match delete with
  | some err => ([VaultEvent.deleteSecret], some err)
  | none =>
      match purgeLoop purge 4 0 [VaultEvent.deleteSecret] with
      | (trace, some err) => (trace, some err)
      | (trace, none) => (trace ++ [VaultEvent.print], none)

/-- Number of PurgeDeletedSecret calls in a trace. -/
def purgeCount : List VaultEvent → Nat
  | [] => 0
  | VaultEvent.purge :: rest => purgeCount rest + 1
  | _ :: rest => purgeCount rest

/-! ## Basic facts -/

section Basic

variable {Msg : Type}

theorem sb_completeMessages_eq (w : World Msg) (msgs : List Msg) (st : LoopState Msg) :
    ServiceBus.completeMessages w msgs st = Pattern.ackAll "complete message" w msgs st := by
  induction msgs generalizing st with
  | nil => rfl
  | cons m rest ih =>
    simp only [ServiceBus.completeMessages, Pattern.ackAll]
    cases w.ack (st.emit (Event.process m)).ackCalls with
    | none => exact ih _
    | some e => rfl

theorem sq_deleteMessages_eq (w : World Msg) (msgs : List Msg) (st : LoopState Msg) :
    StorageQueue.deleteMessages w msgs st = Pattern.ackAll "delete message" w msgs st := by
  induction msgs generalizing st with
  | nil => rfl
  | cons m rest ih =>
    simp only [StorageQueue.deleteMessages, Pattern.ackAll]
    cases w.ack (st.emit (Event.process m)).ackCalls with
    | none => exact ih _
    | some e => rfl

theorem sb_loopBody_eq (w : World Msg) (st : LoopState Msg) :
    ServiceBus.loopBody w st = Pattern.body ServiceBus.cfg w st := by
  unfold ServiceBus.loopBody Pattern.body
  simp only [sb_completeMessages_eq, ServiceBus.cfg, Bool.false_and, Bool.false_eq_true,
    if_false, decide_eq_true_eq]

theorem sq_loopBody_eq (w : World Msg) (st : LoopState Msg) :
    StorageQueue.loopBody w st = Pattern.body StorageQueue.cfg w st := by
  unfold StorageQueue.loopBody Pattern.body
  simp only [sq_deleteMessages_eq, StorageQueue.cfg, Bool.true_and, if_true,
    decide_eq_true_eq]

/-! ### The for-loop -/

theorem forLoop_add {σ ρ : Type} (body : σ → Ctl σ ρ) (k j : Nat) (s s1 : σ)
    (h : forLoop body k s = Ctl.next s1) :
    forLoop body (k + j) s = forLoop body j s1 := by
  induction k generalizing s with
  | zero =>
    simp only [forLoop, Ctl.next.injEq] at h
    subst h
    simp
  | succ k ih =>
    rw [Nat.add_right_comm]
    simp only [forLoop] at h ⊢
    cases hb : body s with
    | next s2 =>
      rw [hb] at h
      exact ih s2 h
    | ret s2 r =>
      rw [hb] at h
      cases h

theorem forLoop_ret_mono {σ ρ : Type} (body : σ → Ctl σ ρ) (k fuel : Nat) (s s1 : σ) (r : ρ)
    (h : forLoop body k s = Ctl.ret s1 r) (hk : k ≤ fuel) :
    forLoop body fuel s = Ctl.ret s1 r := by
  induction k generalizing s fuel with
  | zero => simp [forLoop] at h
  | succ k ih =>
    obtain ⟨f, rfl⟩ : ∃ f, fuel = f + 1 := ⟨fuel - 1, by omega⟩
    simp only [forLoop] at h ⊢
    cases hb : body s with
    | next s2 =>
      rw [hb] at h
      exact ih f s2 h (by omega)
    | ret s2 r2 =>
      rw [hb] at h
      exact h

theorem forLoop_next_then_ret {σ ρ : Type} (body : σ → Ctl σ ρ) (k fuel : Nat) (s s1 s2 : σ)
    (r : ρ) (h : forLoop body k s = Ctl.next s1) (hb : body s1 = Ctl.ret s2 r)
    (hk : k + 1 ≤ fuel) :
    forLoop body fuel s = Ctl.ret s2 r := by
  apply forLoop_ret_mono body (k + 1) fuel s s2 r _ hk
  rw [forLoop_add body k 1 s s1 h]
  simp [forLoop, hb]

theorem forLoop_next_then_next {σ ρ : Type} (body : σ → Ctl σ ρ) (k : Nat) (s s1 s2 : σ)
    (h : forLoop body k s = Ctl.next s1) (hb : body s1 = Ctl.next s2) :
    forLoop body (k + 1) s = Ctl.next s2 := by
  rw [forLoop_add body k 1 s s1 h]
  simp [forLoop, hb]

/-! ### Trace observers -/

theorem ackedMessages_append (a b : List (Event Msg)) :
    ackedMessages (a ++ b) = ackedMessages a ++ ackedMessages b := by
  induction a with
  | nil => rfl
  | cons e rest ih => cases e <;> simp [ackedMessages, ih]

theorem processedMessages_append (a b : List (Event Msg)) :
    processedMessages (a ++ b) = processedMessages a ++ processedMessages b := by
  induction a with
  | nil => rfl
  | cons e rest ih => cases e <;> simp [processedMessages, ih]

theorem receiveCount_append (a b : List (Event Msg)) :
    receiveCount (a ++ b) = receiveCount a + receiveCount b := by
  induction a with
  | nil => simp [receiveCount]
  | cons e rest ih => cases e <;> simp [receiveCount, ih, Nat.add_right_comm]

theorem sleepCount_append (a b : List (Event Msg)) :
    sleepCount (a ++ b) = sleepCount a + sleepCount b := by
  induction a with
  | nil => simp [sleepCount]
  | cons e rest ih => cases e <;> simp [sleepCount, ih, Nat.add_right_comm]

theorem Pattern.handled_nil : Pattern.handled ([] : List Msg) = [] := rfl

theorem Pattern.handled_cons (m : Msg) (rest : List Msg) :
    Pattern.handled (m :: rest) = Event.process m :: Event.ack m :: Pattern.handled rest := rfl

theorem Pattern.length_handled (msgs : List Msg) :
    (Pattern.handled msgs).length = 2 * msgs.length := by
  induction msgs with
  | nil => rfl
  | cons m rest ih => simp [Pattern.handled_cons, ih]; omega

theorem ackedMessages_handled (msgs : List Msg) :
    ackedMessages (Pattern.handled msgs) = msgs := by
  induction msgs with
  | nil => rfl
  | cons m rest ih =>
    rw [Pattern.handled_cons]
    simp only [ackedMessages, ih]

theorem processedMessages_handled (msgs : List Msg) :
    processedMessages (Pattern.handled msgs) = msgs := by
  induction msgs with
  | nil => rfl
  | cons m rest ih =>
    rw [Pattern.handled_cons]
    simp only [processedMessages, ih]

theorem receiveCount_handled (msgs : List Msg) :
    receiveCount (Pattern.handled msgs) = 0 := by
  induction msgs with
  | nil => rfl
  | cons m rest ih =>
    rw [Pattern.handled_cons]
    simp only [receiveCount, ih]

theorem sleepCount_handled (msgs : List Msg) :
    sleepCount (Pattern.handled msgs) = 0 := by
  induction msgs with
  | nil => rfl
  | cons m rest ih =>
    rw [Pattern.handled_cons]
    simp only [sleepCount, ih]

/-! ### The range loop over a batch -/

/-- When the acknowledgements of a whole batch succeed, the range loop logs and
acknowledges every message in turn and reports no error. -/
theorem Pattern.ackAll_ok (wrap : String) (w : World Msg) (msgs : List Msg) (st : LoopState Msg)
    (hack : ∀ j, j < msgs.length → w.ack (st.ackCalls + j) = none) :
    Pattern.ackAll wrap w msgs st =
      ({ trace := st.trace ++ Pattern.handled msgs, recvCalls := st.recvCalls,
         ackCalls := st.ackCalls + msgs.length }, none) := by
  induction msgs generalizing st with
  | nil => simp [Pattern.ackAll, Pattern.handled_nil]
  | cons m rest ih =>
    have h0 : w.ack st.ackCalls = none := by simpa using hack 0 (by simp)
    simp only [Pattern.ackAll, LoopState.emit, LoopState.acked, h0]
    rw [ih]
    · simp [Pattern.handled_cons]; omega
    · intro j hj
      have := hack (j + 1) (by simpa using hj)
      simpa [Nat.add_assoc, Nat.add_comm 1 j] using this

/-- When the acknowledgement of the message after pre fails, the range loop
stops right after that attempt. -/
theorem Pattern.ackAll_fail (wrap : String) (w : World Msg) (pre : List Msg) (m : Msg)
    (post : List Msg) (st : LoopState Msg) (e : GoError)
    (hack : ∀ j, j < pre.length → w.ack (st.ackCalls + j) = none)
    (hfail : w.ack (st.ackCalls + pre.length) = some e) :
    Pattern.ackAll wrap w (pre ++ m :: post) st =
      ({ trace := st.trace ++ Pattern.handled pre ++ [Event.process m, Event.ack m],
         recvCalls := st.recvCalls, ackCalls := st.ackCalls + pre.length + 1 },
       some (fmt.Errorf wrap e)) := by
  induction pre generalizing st with
  | nil =>
    have h0 : w.ack st.ackCalls = some e := by simpa using hfail
    simp [Pattern.ackAll, LoopState.emit, LoopState.acked, h0, Pattern.handled_nil]
  | cons a rest ih =>
    have h0 : w.ack st.ackCalls = none := by simpa using hack 0 (by simp)
    show Pattern.ackAll wrap w (a :: (rest ++ m :: post)) st = _
    simp only [Pattern.ackAll, LoopState.emit, LoopState.acked, h0]
    rw [ih]
    · simp [Pattern.handled_cons]; omega
    · intro j hj
      have := hack (j + 1) (by simpa using hj)
      simpa [Nat.add_assoc, Nat.add_comm 1 j] using this
    · simpa [Nat.add_assoc, Nat.add_comm 1] using hfail

/-- Whatever the acknowledgements answer, the range loop logs and acknowledges
a prefix of the batch, message by message, and reports no error only when the
prefix is the whole batch. -/
theorem Pattern.ackAll_shape (wrap : String) (w : World Msg) (msgs : List Msg)
    (st : LoopState Msg) :
    ∃ j, j ≤ msgs.length ∧ (msgs ≠ [] → 1 ≤ j) ∧
      (Pattern.ackAll wrap w msgs st).1.trace = st.trace ++ Pattern.handled (msgs.take j) ∧
      (Pattern.ackAll wrap w msgs st).1.recvCalls = st.recvCalls ∧
      ((Pattern.ackAll wrap w msgs st).2 = none → j = msgs.length) := by
  induction msgs generalizing st with
  | nil => exact ⟨0, by simp [Pattern.ackAll, Pattern.handled_nil]⟩
  | cons m rest ih =>
    cases h0 : w.ack st.ackCalls with
    | some e =>
      refine ⟨1, by simp, by simp, ?_, ?_, ?_⟩ <;>
        simp [Pattern.ackAll, LoopState.emit, LoopState.acked, h0, Pattern.handled_cons,
          Pattern.handled_nil]
    | none =>
      obtain ⟨j, hj, _, htr, hrc, hnone⟩ :=
        ih ((st.emit (Event.process m)).acked m)
      refine ⟨j + 1, by simpa using hj, by simp, ?_, ?_, ?_⟩
      · simp only [Pattern.ackAll, LoopState.emit, h0] at htr ⊢
        rw [htr]
        simp [LoopState.acked, Pattern.handled_cons]
      · simp only [Pattern.ackAll, LoopState.emit, h0] at hrc ⊢
        rw [hrc]
        simp [LoopState.acked]
      · intro hn
        simp only [Pattern.ackAll, LoopState.emit, h0] at hnone hn
        simpa using hnone hn

/-! ### One iteration -/

theorem Pattern.body_cancelled (cfg : LoopCfg) (w : World Msg) (st : LoopState Msg)
    (hc : w.cancelled st.clock = true) :
    Pattern.body cfg w st = Ctl.ret st none := by
  simp [Pattern.body, hc]

theorem Pattern.body_benign (cfg : LoopCfg) (w : World Msg) (st : LoopState Msg)
    (hc : w.cancelled st.clock = false)
    (hben : Pattern.benign cfg (w.receive st.recvCalls))
    (hack : ∀ j, j < Pattern.iterAcks (w.receive st.recvCalls) →
      w.ack (st.ackCalls + j) = none) :
    Pattern.body cfg w st =
      Ctl.next { trace := st.trace ++ Pattern.iterEvents cfg (w.receive st.recvCalls)
                 recvCalls := st.recvCalls + 1
                 ackCalls := st.ackCalls + Pattern.iterAcks (w.receive st.recvCalls) } := by
  unfold Pattern.body Pattern.iterEvents
  unfold Pattern.iterAcks at hack ⊢
  simp only [hc, Bool.false_eq_true, if_false]
  cases herr : (w.receive st.recvCalls).err with
  | some e =>
    have ht : cfg.timeout e = true := hben e herr
    cases hs : cfg.sleepOnTimeout <;>
      simp [ht, LoopState.recv, LoopState.emit]
  | none =>
    rw [herr] at hack
    by_cases hem : (cfg.sleepOnEmpty && decide ((w.receive st.recvCalls).messages.length = 0)) = true
    · have hlen : (w.receive st.recvCalls).messages.length = 0 := by
        simp only [Bool.and_eq_true, decide_eq_true_eq] at hem
        exact hem.2
      rw [if_pos hem, if_pos hem]
      simp [LoopState.recv, LoopState.emit, hlen]
    · simp only [hem, if_false]
      rw [Pattern.ackAll_ok cfg.ackWrap w _ st.recv (by simpa [LoopState.recv] using hack)]
      simp [LoopState.recv]

theorem Pattern.body_hard (cfg : LoopCfg) (w : World Msg) (st : LoopState Msg) (e : GoError)
    (hc : w.cancelled st.clock = false)
    (herr : (w.receive st.recvCalls).err = some e) (ht : cfg.timeout e = false) :
    Pattern.body cfg w st = Ctl.ret st.recv (some (fmt.Errorf cfg.recvWrap e)) := by
  simp [Pattern.body, hc, herr, ht]

theorem Pattern.body_ack_fail (cfg : LoopCfg) (w : World Msg) (st : LoopState Msg)
    (pre : List Msg) (m : Msg) (post : List Msg) (e : GoError)
    (hc : w.cancelled st.clock = false)
    (herr : (w.receive st.recvCalls).err = none)
    (hmsgs : (w.receive st.recvCalls).messages = pre ++ m :: post)
    (hack : ∀ j, j < pre.length → w.ack (st.ackCalls + j) = none)
    (hfail : w.ack (st.ackCalls + pre.length) = some e) :
    Pattern.body cfg w st =
      Ctl.ret { trace := st.trace ++ Event.receive :: Pattern.handled pre ++
                  [Event.process m, Event.ack m]
                recvCalls := st.recvCalls + 1
                ackCalls := st.ackCalls + pre.length + 1 }
        (some (fmt.Errorf cfg.ackWrap e)) := by
  unfold Pattern.body
  simp only [hc, Bool.false_eq_true, if_false, herr, hmsgs]
  have hne : ¬ (cfg.sleepOnEmpty && decide ((pre ++ m :: post).length = 0)) = true := by
    simp
  simp only [hne, if_false]
  rw [Pattern.ackAll_fail cfg.ackWrap w pre m post st.recv e
    (by simpa [LoopState.recv] using hack) (by simpa [LoopState.recv] using hfail)]
  simp [LoopState.recv]

theorem Pattern.body_batch_shape (cfg : LoopCfg) (w : World Msg) (st : LoopState Msg)
    (hc : w.cancelled st.clock = false)
    (herr : (w.receive st.recvCalls).err = none)
    (hne : (w.receive st.recvCalls).messages ≠ []) :
    ∃ j, 1 ≤ j ∧ j ≤ (w.receive st.recvCalls).messages.length ∧
      (Pattern.body cfg w st).state.trace =
        st.trace ++ Event.receive :: Pattern.handled ((w.receive st.recvCalls).messages.take j) ∧
      ((Pattern.body cfg w st).returned = false →
        j = (w.receive st.recvCalls).messages.length) := by
  obtain ⟨j, hj, h1, htr, _, hnone⟩ :=
    Pattern.ackAll_shape cfg.ackWrap w (w.receive st.recvCalls).messages st.recv
  refine ⟨j, h1 hne, hj, ?_, ?_⟩
  · unfold Pattern.body
    simp only [hc, Bool.false_eq_true, if_false, herr]
    have hlen : ¬ (cfg.sleepOnEmpty &&
        decide ((w.receive st.recvCalls).messages.length = 0)) = true := by
      simp [hne]
    simp only [hlen, if_false]
    cases hr : Pattern.ackAll cfg.ackWrap w (w.receive st.recvCalls).messages st.recv with
    | mk st2 r =>
      rw [hr] at htr
      cases r <;> simpa [Ctl.state, LoopState.recv] using htr
  · unfold Pattern.body
    simp only [hc, Bool.false_eq_true, if_false, herr]
    have hlen : ¬ (cfg.sleepOnEmpty &&
        decide ((w.receive st.recvCalls).messages.length = 0)) = true := by
      simp [hne]
    simp only [hlen, if_false]
    cases hr : Pattern.ackAll cfg.ackWrap w (w.receive st.recvCalls).messages st.recv with
    | mk st2 r =>
      rw [hr] at hnone
      cases r with
      | none => intro _; exact hnone rfl
      | some e => simp [Ctl.returned]

/-! ### A run of iterations that do not return -/

theorem Pattern.prefixEvents_succ (cfg : LoopCfg) (w : World Msg) (base n : Nat) :
    Pattern.prefixEvents cfg w base (n + 1) =
      Pattern.prefixEvents cfg w base n ++ Pattern.iterEvents cfg (w.receive (base + n)) := by
  simp [Pattern.prefixEvents, List.range_succ]

theorem Pattern.prefixAcks_succ (w : World Msg) (base n : Nat) :
    Pattern.prefixAcks w base (n + 1) =
      Pattern.prefixAcks w base n + Pattern.iterAcks (w.receive (base + n)) := by
  simp [Pattern.prefixAcks, List.range_succ]

theorem Pattern.after_zero (cfg : LoopCfg) (w : World Msg) (st : LoopState Msg) :
    Pattern.after cfg w st 0 = st := by
  simp [Pattern.after, Pattern.prefixEvents, Pattern.prefixAcks]

theorem Pattern.after_uncancelled (cfg : LoopCfg) (w : World Msg) (st : LoopState Msg) (n : Nat) :
    Pattern.after cfg w.uncancelled st n = Pattern.after cfg w st n := rfl

theorem Pattern.run_benign (cfg : LoopCfg) (w : World Msg) (st : LoopState Msg) (n : Nat)
    (hack : ∀ k, w.ack k = none)
    (hben : ∀ i, i < n → Pattern.benign cfg (w.receive (st.recvCalls + i)))
    (hc : ∀ i, i < n → w.cancelled (Pattern.after cfg w st i).clock = false) :
    forLoop (Pattern.body cfg w) n st = Ctl.next (Pattern.after cfg w st n) := by
  induction n with
  | zero => simp [forLoop, Pattern.after_zero]
  | succ n ih =>
    have hprev := ih (fun i hi => hben i (by omega)) (fun i hi => hc i (by omega))
    apply forLoop_next_then_next _ n st _ _ hprev
    rw [Pattern.body_benign cfg w _ (hc n (by omega)) (hben n (by omega))
      (fun j _ => hack _)]
    simp [Pattern.after, Pattern.prefixEvents_succ, Pattern.prefixAcks_succ, Nat.add_assoc]

theorem cancelled_of_cancelAt_none (w : World Msg) (h : w.cancelAt = none) (t : Nat) :
    w.cancelled t = false := by
  simp [World.cancelled, h]

/-! ### Observers of a run -/

theorem ackedMessages_iterEvents (cfg : LoopCfg) (res : RecvResult Msg) :
    ackedMessages (Pattern.iterEvents cfg res) =
      (match res.err with
        | none => res.messages
        | some _ => []) := by
  unfold Pattern.iterEvents
  cases res.err with
  | some e => cases cfg.sleepOnTimeout <;> simp [ackedMessages]
  | none =>
    by_cases hem : (cfg.sleepOnEmpty && decide (res.messages.length = 0)) = true
    · have hlen : res.messages = [] := by
        simp only [Bool.and_eq_true, decide_eq_true_eq] at hem
        exact List.length_eq_zero.mp hem.2
      rw [if_pos hem]
      simp [ackedMessages, hlen]
    · simp only [hem, if_false, ackedMessages, ackedMessages_handled]

theorem receiveCount_iterEvents (cfg : LoopCfg) (res : RecvResult Msg) :
    receiveCount (Pattern.iterEvents cfg res) = 1 := by
  unfold Pattern.iterEvents
  cases res.err with
  | some e => cases cfg.sleepOnTimeout <;> simp [receiveCount]
  | none =>
    by_cases hem : (cfg.sleepOnEmpty && decide (res.messages.length = 0)) = true
    · rw [if_pos hem]
      simp [receiveCount]
    · simp only [hem, if_false, receiveCount, receiveCount_handled]

theorem ackedMessages_prefixEvents (cfg : LoopCfg) (w : World Msg) (base n : Nat) :
    ackedMessages (Pattern.prefixEvents cfg w base n) =
      delivered ((List.range n).map (fun i => w.receive (base + i))) := by
  induction n with
  | zero => simp [Pattern.prefixEvents, ackedMessages, delivered]
  | succ n ih =>
    rw [Pattern.prefixEvents_succ, ackedMessages_append, ih, ackedMessages_iterEvents]
    simp [delivered, List.range_succ]

theorem receiveCount_prefixEvents (cfg : LoopCfg) (w : World Msg) (base n : Nat) :
    receiveCount (Pattern.prefixEvents cfg w base n) = n := by
  induction n with
  | zero => simp [Pattern.prefixEvents, receiveCount]
  | succ n ih =>
    rw [Pattern.prefixEvents_succ, receiveCount_append, ih, receiveCount_iterEvents]

end Basic

/-! ## The receivers as instances of the common shape -/

section Instances

variable {Msg : Type}

theorem sb_runReceiver_eq (w : World Msg) (fuel : Nat) :
    ServiceBus.runReceiver w none fuel =
      (match forLoop (Pattern.body ServiceBus.cfg w) fuel ServiceBus.entryState with
        | Ctl.ret st r => Ctl.ret (st.emit Event.close) r
        | Ctl.next st => Ctl.next st) := by
  have h : ServiceBus.loopBody w = Pattern.body ServiceBus.cfg w :=
    funext (sb_loopBody_eq w)
  simp only [ServiceBus.runReceiver, h]

theorem sq_runReceiver_eq (w : World Msg) (fuel : Nat) :
    StorageQueue.runReceiver w fuel =
      forLoop (Pattern.body StorageQueue.cfg w) fuel StorageQueue.entryState := by
  have h : StorageQueue.loopBody w = Pattern.body StorageQueue.cfg w :=
    funext (sq_loopBody_eq w)
  simp only [StorageQueue.runReceiver, h]

theorem sb_benign_of (res : RecvResult Msg)
    (h : res.err = none ∨ res.err = some GoError.deadlineExceeded) :
    Pattern.benign ServiceBus.cfg res := by
  intro e he
  rcases h with h | h
  · rw [h] at he; cases he
  · rw [h] at he
    cases he
    simp [ServiceBus.cfg]

theorem sq_benign_of (res : RecvResult Msg)
    (h : res.err = none ∨ res.err = some GoError.deadlineExceeded) :
    Pattern.benign StorageQueue.cfg res := by
  intro e he
  rcases h with h | h
  · rw [h] at he; cases he
  · rw [h] at he
    cases he
    simp [StorageQueue.cfg, errors.Is]

theorem sb_hard_of (e : GoError) (h : errors.Is e GoError.deadlineExceeded = false) :
    ServiceBus.cfg.timeout e = false := by
  cases e <;> simp_all [ServiceBus.cfg, errors.Is]

/-- A run of n iterations that do not return, followed by a fatal receive
error. -/
theorem Pattern.run_hard (cfg : LoopCfg) (w : World Msg) (st : LoopState Msg) (n fuel : Nat)
    (e : GoError)
    (hcancel : w.cancelAt = none) (hack : ∀ k, w.ack k = none)
    (hben : ∀ i, i < n → Pattern.benign cfg (w.receive (st.recvCalls + i)))
    (herr : (w.receive (st.recvCalls + n)).err = some e) (ht : cfg.timeout e = false)
    (hfuel : n + 1 ≤ fuel) :
    forLoop (Pattern.body cfg w) fuel st =
      Ctl.ret (Pattern.after cfg w st n).recv (some (fmt.Errorf cfg.recvWrap e)) := by
  have hrun := Pattern.run_benign cfg w st n hack hben
    (fun i _ => cancelled_of_cancelAt_none w hcancel _)
  exact forLoop_next_then_ret _ n fuel st _ _ _ hrun
    (Pattern.body_hard cfg w _ e (cancelled_of_cancelAt_none w hcancel _) herr ht) hfuel

end Instances

/-! ## Claims -/

/-- C1. With the context never cancelled and every acknowledgement succeeding,
if the first n receive results are each a batch (possibly empty) or the timeout
context.DeadlineExceeded and the next receive fails with an error that is not a
timeout, then both Service Bus runReceiver and Storage Queue runReceiver
return, for every fuel above n, the receive error wrapped by fmt.Errorf; the
acknowledged messages are exactly the delivered batches in order, each message
once, and exactly n + 1 receive calls have been made. -/
theorem runReceiver_hard_receive_error {Msg : Type} (w : World Msg) (n : Nat) (e : GoError)
    (hcancel : w.cancelAt = none) (hack : ∀ k, w.ack k = none)
    (hpolls : ∀ i, i < n →
      (w.receive i).err = none ∨ (w.receive i).err = some GoError.deadlineExceeded)
    (herr : (w.receive n).err = some e)
    (hhard : errors.Is e GoError.deadlineExceeded = false) :
    (∃ st : LoopState Msg,
      (∀ fuel, n + 1 ≤ fuel → ServiceBus.runReceiver w none fuel =
        Ctl.ret st (some (fmt.Errorf "receive messages" e))) ∧
      errors.Unwrap (fmt.Errorf "receive messages" e) = some e ∧
      ackedMessages st.trace = delivered ((List.range n).map w.receive) ∧
      receiveCount st.trace = n + 1 ∧ st.recvCalls = n + 1) ∧
    (∃ st : LoopState Msg,
      (∀ fuel, n + 1 ≤ fuel → StorageQueue.runReceiver w fuel =
        Ctl.ret st (some (fmt.Errorf "dequeue messages" e))) ∧
      errors.Unwrap (fmt.Errorf "dequeue messages" e) = some e ∧
      ackedMessages st.trace = delivered ((List.range n).map w.receive) ∧
      receiveCount st.trace = n + 1 ∧ st.recvCalls = n + 1) := by
  constructor
  · refine ⟨((Pattern.after ServiceBus.cfg w ServiceBus.entryState n).recv).emit Event.close,
      ?_, rfl, ?_, ?_, ?_⟩
    · intro fuel hfuel
      rw [sb_runReceiver_eq,
        Pattern.run_hard ServiceBus.cfg w ServiceBus.entryState n fuel e hcancel hack
          (fun i hi => sb_benign_of _ (by simpa [ServiceBus.entryState] using hpolls i hi))
          (by simpa [ServiceBus.entryState] using herr) (sb_hard_of e hhard) hfuel]
      rfl
    · simp [LoopState.emit, LoopState.recv, Pattern.after, ServiceBus.entryState,
        ackedMessages_append, ackedMessages_prefixEvents, ackedMessages]
    · simp [LoopState.emit, LoopState.recv, Pattern.after, ServiceBus.entryState,
        receiveCount_append, receiveCount_prefixEvents, receiveCount]
    · simp [LoopState.emit, LoopState.recv, Pattern.after, ServiceBus.entryState]
  · refine ⟨(Pattern.after StorageQueue.cfg w StorageQueue.entryState n).recv,
      ?_, rfl, ?_, ?_, ?_⟩
    · intro fuel hfuel
      rw [sq_runReceiver_eq,
        Pattern.run_hard StorageQueue.cfg w StorageQueue.entryState n fuel e hcancel hack
          (fun i hi => sq_benign_of _
            (by simpa [StorageQueue.entryState] using hpolls i hi))
          (by simpa [StorageQueue.entryState] using herr) hhard hfuel]
      rfl
    · simp [LoopState.recv, Pattern.after, StorageQueue.entryState,
        ackedMessages_append, ackedMessages_prefixEvents, ackedMessages]
    · simp [LoopState.recv, Pattern.after, StorageQueue.entryState,
        receiveCount_append, receiveCount_prefixEvents, receiveCount]
    · simp [LoopState.recv, Pattern.after, StorageQueue.entryState]

/-- Witness for C1 on the sample execution with four benign polls. -/
theorem runReceiver_hard_receive_error_witness :
    (∃ st : LoopState Nat,
      (∀ fuel, 4 + 1 ≤ fuel → ServiceBus.runReceiver sampleHardWorld none fuel =
        Ctl.ret st (some (fmt.Errorf "receive messages" (GoError.other 7)))) ∧
      errors.Unwrap (fmt.Errorf "receive messages" (GoError.other 7)) = some (GoError.other 7) ∧
      ackedMessages st.trace = delivered ((List.range 4).map sampleHardWorld.receive) ∧
      receiveCount st.trace = 4 + 1 ∧ st.recvCalls = 4 + 1) ∧
    (∃ st : LoopState Nat,
      (∀ fuel, 4 + 1 ≤ fuel → StorageQueue.runReceiver sampleHardWorld fuel =
        Ctl.ret st (some (fmt.Errorf "dequeue messages" (GoError.other 7)))) ∧
      errors.Unwrap (fmt.Errorf "dequeue messages" (GoError.other 7)) = some (GoError.other 7) ∧
      ackedMessages st.trace = delivered ((List.range 4).map sampleHardWorld.receive) ∧
      receiveCount st.trace = 4 + 1 ∧ st.recvCalls = 4 + 1) :=
  runReceiver_hard_receive_error sampleHardWorld 4 (GoError.other 7) rfl (fun _ => rfl)
    (by decide) rfl rfl

section ClaimSupport

variable {Msg : Type}

theorem Pattern.handled_getElem (xs : List Msg) (i : Nat) (m : Msg) (h : xs[i]? = some m) :
    (Pattern.handled xs)[2 * i]? = some (Event.process m) ∧
    (Pattern.handled xs)[2 * i + 1]? = some (Event.ack m) := by
  induction xs generalizing i with
  | nil => simp at h
  | cons x rest ih =>
    rw [Pattern.handled_cons]
    cases i with
    | zero =>
      simp only [List.getElem?_cons_zero, Option.some.injEq] at h
      subst h
      simp
    | succ i =>
      simp only [List.getElem?_cons_succ] at h
      obtain ⟨h1, h2⟩ := ih i h
      have e1 : 2 * (i + 1) = (2 * i + 1) + 1 := by omega
      rw [e1]
      simp only [List.getElem?_cons_succ]
      exact ⟨h1, h2⟩

theorem Pattern.ackOrder_of_trace (before : List (Event Msg)) (msgs : List Msg) (j : Nat)
    (after : List (Event Msg))
    (h : after = before ++ Event.receive :: Pattern.handled (msgs.take j)) :
    Pattern.AckOrder before msgs j after := by
  refine ⟨h, ?_, ?_⟩
  · rw [h, ackedMessages_append]
    simp [ackedMessages, ackedMessages_handled]
  · intro i m hi hm
    have htake : (msgs.take j)[i]? = some m := by
      rw [List.getElem?_take_of_lt hi]
      exact hm
    obtain ⟨h1, h2⟩ := Pattern.handled_getElem (msgs.take j) i m htake
    subst h
    constructor
    · rw [List.getElem?_append_right (by omega)]
      have e : before.length + 1 + 2 * i - before.length = (2 * i) + 1 := by omega
      rw [e, List.getElem?_cons_succ]
      exact h1
    · rw [List.getElem?_append_right (by omega)]
      have e : before.length + 2 + 2 * i - before.length = (2 * i + 1) + 1 := by omega
      rw [e, List.getElem?_cons_succ]
      exact h2

end ClaimSupport

/-- C2. Take any iteration of Service Bus runReceiver or Storage Queue
runReceiver that starts in state st with the context not cancelled and
receives the batch pre ++ m :: post. If the acknowledgements of pre succeed
and the acknowledgement of m fails with e, the iteration returns the wrapped
error in the state whose trace is the old trace, the receive call, the log
line and acknowledge call of every message of pre, and one log line and one
acknowledge call for m. Nothing of post is logged or acknowledged, no second
receive call is made, and runReceiver returns that error for every fuel that
reaches the iteration. -/
theorem runReceiver_ack_failure {Msg : Type} (w : World Msg) (st : LoopState Msg)
    (pre : List Msg) (m : Msg) (post : List Msg) (e : GoError)
    (hc : w.cancelled st.clock = false)
    (herr : (w.receive st.recvCalls).err = none)
    (hmsgs : (w.receive st.recvCalls).messages = pre ++ m :: post)
    (hack : ∀ j, j < pre.length → w.ack (st.ackCalls + j) = none)
    (hfail : w.ack (st.ackCalls + pre.length) = some e) :
    (ServiceBus.loopBody w st =
        Ctl.ret (Pattern.ackFailState st pre m) (some (fmt.Errorf "complete message" e)) ∧
      ∀ k fuel, forLoop (ServiceBus.loopBody w) k ServiceBus.entryState = Ctl.next st →
        k + 1 ≤ fuel →
        ServiceBus.runReceiver w none fuel =
          Ctl.ret ((Pattern.ackFailState st pre m).emit Event.close)
            (some (fmt.Errorf "complete message" e))) ∧
    (StorageQueue.loopBody w st =
        Ctl.ret (Pattern.ackFailState st pre m) (some (fmt.Errorf "delete message" e)) ∧
      ∀ k fuel, forLoop (StorageQueue.loopBody w) k StorageQueue.entryState = Ctl.next st →
        k + 1 ≤ fuel →
        StorageQueue.runReceiver w fuel =
          Ctl.ret (Pattern.ackFailState st pre m) (some (fmt.Errorf "delete message" e))) ∧
    errors.Unwrap (fmt.Errorf "complete message" e) = some e ∧
    errors.Unwrap (fmt.Errorf "delete message" e) = some e ∧
    processedMessages (Pattern.ackFailState st pre m).trace =
      processedMessages st.trace ++ pre ++ [m] ∧
    ackedMessages (Pattern.ackFailState st pre m).trace =
      ackedMessages st.trace ++ pre ++ [m] ∧
    receiveCount (Pattern.ackFailState st pre m).trace = receiveCount st.trace + 1 := by
  have hsb : ServiceBus.loopBody w st =
      Ctl.ret (Pattern.ackFailState st pre m) (some (fmt.Errorf "complete message" e)) := by
    rw [sb_loopBody_eq]
    exact Pattern.body_ack_fail ServiceBus.cfg w st pre m post e hc herr hmsgs hack hfail
  have hsq : StorageQueue.loopBody w st =
      Ctl.ret (Pattern.ackFailState st pre m) (some (fmt.Errorf "delete message" e)) := by
    rw [sq_loopBody_eq]
    exact Pattern.body_ack_fail StorageQueue.cfg w st pre m post e hc herr hmsgs hack hfail
  refine ⟨⟨hsb, ?_⟩, ⟨hsq, ?_⟩, rfl, rfl, ?_, ?_, ?_⟩
  · intro k fuel hreach hfuel
    simp only [ServiceBus.runReceiver]
    rw [forLoop_next_then_ret _ k fuel _ st _ _ hreach hsb hfuel]
  · intro k fuel hreach hfuel
    simp only [StorageQueue.runReceiver]
    rw [forLoop_next_then_ret _ k fuel _ st _ _ hreach hsq hfuel]
  · simp [Pattern.ackFailState, processedMessages_append, processedMessages,
      processedMessages_handled]
  · simp [Pattern.ackFailState, ackedMessages_append, ackedMessages, ackedMessages_handled]
  · simp [Pattern.ackFailState, receiveCount_append, receiveCount, receiveCount_handled]

/-- Witness for C2: a batch of three whose second acknowledgement fails. -/
theorem runReceiver_ack_failure_witness :
    ServiceBus.runReceiver sampleAckFailWorld none 1 =
      Ctl.ret ⟨[Event.logStart, Event.receive, Event.process 1, Event.ack 1, Event.process 2,
        Event.ack 2, Event.close], 1, 2⟩ (some (fmt.Errorf "complete message" (GoError.other 9))) ∧
    StorageQueue.runReceiver sampleAckFailWorld 1 =
      Ctl.ret ⟨[Event.logStart, Event.receive, Event.process 1, Event.ack 1, Event.process 2,
        Event.ack 2], 1, 2⟩ (some (fmt.Errorf "delete message" (GoError.other 9))) :=
  ⟨(runReceiver_ack_failure sampleAckFailWorld ServiceBus.entryState [1] 2 [3] (GoError.other 9)
      rfl rfl rfl (by decide) rfl).1.2 0 1 rfl (Nat.le_refl 1),
   (runReceiver_ack_failure sampleAckFailWorld StorageQueue.entryState [1] 2 [3] (GoError.other 9)
      rfl rfl rfl (by decide) rfl).2.1.2 0 1 rfl (Nat.le_refl 1)⟩

/-- C3. In any iteration of Service Bus runReceiver or Storage Queue
runReceiver that receives a non-empty batch, the actions after the receive
call are, for a non-empty prefix of the batch in batch order, the log line of a
message immediately followed by the acknowledge call for that same message; the
prefix is the whole batch unless the iteration returns. So acknowledge calls
follow the batch order and the call for a message comes right after the log
line of that message. -/
theorem runReceiver_ack_order {Msg : Type} (w : World Msg) (st : LoopState Msg)
    (hc : w.cancelled st.clock = false)
    (herr : (w.receive st.recvCalls).err = none)
    (hne : (w.receive st.recvCalls).messages ≠ []) :
    (∃ j, 1 ≤ j ∧ j ≤ (w.receive st.recvCalls).messages.length ∧
      Pattern.AckOrder st.trace (w.receive st.recvCalls).messages j
        (ServiceBus.loopBody w st).state.trace ∧
      ((ServiceBus.loopBody w st).returned = false →
        j = (w.receive st.recvCalls).messages.length)) ∧
    (∃ j, 1 ≤ j ∧ j ≤ (w.receive st.recvCalls).messages.length ∧
      Pattern.AckOrder st.trace (w.receive st.recvCalls).messages j
        (StorageQueue.loopBody w st).state.trace ∧
      ((StorageQueue.loopBody w st).returned = false →
        j = (w.receive st.recvCalls).messages.length)) := by
  constructor
  · obtain ⟨j, h1, h2, htr, hret⟩ := Pattern.body_batch_shape ServiceBus.cfg w st hc herr hne
    rw [← sb_loopBody_eq] at htr hret
    exact ⟨j, h1, h2, Pattern.ackOrder_of_trace _ _ _ _ htr, hret⟩
  · obtain ⟨j, h1, h2, htr, hret⟩ := Pattern.body_batch_shape StorageQueue.cfg w st hc herr hne
    rw [← sq_loopBody_eq] at htr hret
    exact ⟨j, h1, h2, Pattern.ackOrder_of_trace _ _ _ _ htr, hret⟩

/-- Witness for C3 on the batch of three whose second acknowledgement fails. -/
theorem runReceiver_ack_order_witness :
    (∃ j, 1 ≤ j ∧ j ≤ (sampleAckFailWorld.receive 0).messages.length ∧
      Pattern.AckOrder [Event.logStart] (sampleAckFailWorld.receive 0).messages j
        (ServiceBus.loopBody sampleAckFailWorld ServiceBus.entryState).state.trace ∧
      ((ServiceBus.loopBody sampleAckFailWorld ServiceBus.entryState).returned = false →
        j = (sampleAckFailWorld.receive 0).messages.length)) ∧
    (∃ j, 1 ≤ j ∧ j ≤ (sampleAckFailWorld.receive 0).messages.length ∧
      Pattern.AckOrder [Event.logStart] (sampleAckFailWorld.receive 0).messages j
        (StorageQueue.loopBody sampleAckFailWorld ServiceBus.entryState).state.trace ∧
      ((StorageQueue.loopBody sampleAckFailWorld ServiceBus.entryState).returned = false →
        j = (sampleAckFailWorld.receive 0).messages.length)) :=
  runReceiver_ack_order sampleAckFailWorld ServiceBus.entryState rfl rfl (by decide)

/-- C4. If the context is already cancelled when the loop of Service Bus
runReceiver or Storage Queue runReceiver is entered, then for every positive
fuel and whatever the message source would answer, runReceiver returns nil
having made no receive call and no acknowledge call. -/
theorem runReceiver_cancelled_at_entry {Msg : Type} (w : World Msg) (fuel : Nat)
    (hfuel : 1 ≤ fuel)
    (hsb : w.cancelled (ServiceBus.entryState : LoopState Msg).clock = true)
    (hsq : w.cancelled (StorageQueue.entryState : LoopState Msg).clock = true) :
    ServiceBus.runReceiver w none fuel =
      Ctl.ret ⟨[Event.logStart, Event.close], 0, 0⟩ none ∧
    StorageQueue.runReceiver w fuel = Ctl.ret ⟨[Event.logStart], 0, 0⟩ none := by
  obtain ⟨f, rfl⟩ : ∃ f, fuel = f + 1 := ⟨fuel - 1, by omega⟩
  constructor
  · simp only [ServiceBus.runReceiver, forLoop, ServiceBus.loopBody, hsb, if_true]
    rfl
  · simp only [StorageQueue.runReceiver, forLoop, StorageQueue.loopBody, hsq, if_true]
    rfl

/-- Witness for C4: the context is cancelled from the start. -/
theorem runReceiver_cancelled_at_entry_witness :
    ServiceBus.runReceiver sampleCancelledWorld none 3 =
      Ctl.ret ⟨[Event.logStart, Event.close], 0, 0⟩ none ∧
    StorageQueue.runReceiver sampleCancelledWorld 3 = Ctl.ret ⟨[Event.logStart], 0, 0⟩ none :=
  runReceiver_cancelled_at_entry sampleCancelledWorld 3 (by decide) rfl rfl

section CancelSupport

variable {Msg : Type}

theorem cancelled_false_of_lt (w : World Msg) (c t : Nat) (h : w.cancelAt = some c)
    (ht : t < c) : w.cancelled t = false := by
  simp [World.cancelled, h, ht]

theorem cancelled_true_of_le (w : World Msg) (c t : Nat) (h : w.cancelAt = some c)
    (ht : c ≤ t) : w.cancelled t = true := by
  simp [World.cancelled, h, ht]

/-- The execution that ignores cancellation runs through any benign prefix. -/
theorem Pattern.run_uncancelled (cfg : LoopCfg) (w : World Msg) (st : LoopState Msg) (n : Nat)
    (hack : ∀ k, w.ack k = none)
    (hben : ∀ i, i < n → Pattern.benign cfg (w.receive (st.recvCalls + i))) :
    forLoop (Pattern.body cfg w.uncancelled) n st = Ctl.next (Pattern.after cfg w st n) := by
  have h := Pattern.run_benign cfg w.uncancelled st n hack hben
    (fun i _ => cancelled_of_cancelAt_none w.uncancelled rfl _)
  rw [Pattern.after_uncancelled] at h
  exact h

/-- A benign prefix of n iterations, after which the loop-top check sees the
cancelled context. -/
theorem Pattern.run_then_cancel (cfg : LoopCfg) (w : World Msg) (st : LoopState Msg)
    (n c fuel : Nat)
    (hcancel : w.cancelAt = some c) (hack : ∀ k, w.ack k = none)
    (hben : ∀ i, i < n → Pattern.benign cfg (w.receive (st.recvCalls + i)))
    (hnot : ∀ i, i < n → (forLoop (Pattern.body cfg w.uncancelled) i st).state.clock < c)
    (hset : c ≤ (forLoop (Pattern.body cfg w.uncancelled) n st).state.clock)
    (hfuel : n + 1 ≤ fuel) :
    forLoop (Pattern.body cfg w) fuel st = Ctl.ret (Pattern.after cfg w st n) none := by
  have hun : ∀ i, i ≤ n →
      forLoop (Pattern.body cfg w.uncancelled) i st = Ctl.next (Pattern.after cfg w st i) :=
    fun i hi => Pattern.run_uncancelled cfg w st i hack (fun j hj => hben j (by omega))
  have hc : ∀ i, i < n → w.cancelled (Pattern.after cfg w st i).clock = false := by
    intro i hi
    have h := hnot i hi
    rw [hun i (by omega)] at h
    exact cancelled_false_of_lt w c _ hcancel h
  have hrun := Pattern.run_benign cfg w st n hack hben hc
  have hlast : w.cancelled (Pattern.after cfg w st n).clock = true := by
    rw [hun n (Nat.le_refl n)] at hset
    exact cancelled_true_of_le w c _ hcancel hset
  exact forLoop_next_then_ret _ n fuel st _ _ _ hrun (Pattern.body_cancelled cfg w _ hlast) hfuel

theorem sb_loopTopClock_eq (w : World Msg) (i : Nat) :
    ServiceBus.loopTopClock w i =
      (forLoop (Pattern.body ServiceBus.cfg w.uncancelled) i ServiceBus.entryState).state.clock := by
  have h : ServiceBus.loopBody w.uncancelled = Pattern.body ServiceBus.cfg w.uncancelled :=
    funext (sb_loopBody_eq w.uncancelled)
  simp only [ServiceBus.loopTopClock, h]

theorem sq_loopTopClock_eq (w : World Msg) (i : Nat) :
    StorageQueue.loopTopClock w i =
      (forLoop (Pattern.body StorageQueue.cfg w.uncancelled) i
        StorageQueue.entryState).state.clock := by
  have h : StorageQueue.loopBody w.uncancelled = Pattern.body StorageQueue.cfg w.uncancelled :=
    funext (sq_loopBody_eq w.uncancelled)
  simp only [StorageQueue.loopTopClock, h]

end CancelSupport

/-- C5. Let the first n receive results each be a batch (possibly empty) or the
timeout context.DeadlineExceeded, with every acknowledgement succeeding, and let
the context be cancelled at clock value c. If c lies after the first n
loop-top checks and not after the next one, then Service Bus runReceiver and
Storage Queue runReceiver return nil at that next check, for every fuel above
n, after exactly n receive calls, and the acknowledged messages are the
delivered batches concatenated in order. -/
theorem runReceiver_cancel_after_batches {Msg : Type} (w : World Msg) (n c : Nat)
    (hcancel : w.cancelAt = some c) (hack : ∀ k, w.ack k = none)
    (hpolls : ∀ i, i < n →
      (w.receive i).err = none ∨ (w.receive i).err = some GoError.deadlineExceeded) :
    ((∀ i, i < n → ServiceBus.loopTopClock w i < c) → c ≤ ServiceBus.loopTopClock w n →
      ∃ st : LoopState Msg,
        (∀ fuel, n + 1 ≤ fuel → ServiceBus.runReceiver w none fuel = Ctl.ret st none) ∧
        ackedMessages st.trace = delivered ((List.range n).map w.receive) ∧
        receiveCount st.trace = n) ∧
    ((∀ i, i < n → StorageQueue.loopTopClock w i < c) → c ≤ StorageQueue.loopTopClock w n →
      ∃ st : LoopState Msg,
        (∀ fuel, n + 1 ≤ fuel → StorageQueue.runReceiver w fuel = Ctl.ret st none) ∧
        ackedMessages st.trace = delivered ((List.range n).map w.receive) ∧
        receiveCount st.trace = n) := by
  constructor
  · intro hnot hset
    refine ⟨(Pattern.after ServiceBus.cfg w ServiceBus.entryState n).emit Event.close,
      ?_, ?_, ?_⟩
    · intro fuel hfuel
      rw [sb_runReceiver_eq,
        Pattern.run_then_cancel ServiceBus.cfg w ServiceBus.entryState n c fuel hcancel hack
          (fun i hi => sb_benign_of _ (by simpa [ServiceBus.entryState] using hpolls i hi))
          (fun i hi => by rw [← sb_loopTopClock_eq]; exact hnot i hi)
          (by rw [← sb_loopTopClock_eq]; exact hset) hfuel]
    · simp [LoopState.emit, Pattern.after, ServiceBus.entryState,
        ackedMessages_append, ackedMessages_prefixEvents, ackedMessages]
    · simp [LoopState.emit, Pattern.after, ServiceBus.entryState,
        receiveCount_append, receiveCount_prefixEvents, receiveCount]
  · intro hnot hset
    refine ⟨Pattern.after StorageQueue.cfg w StorageQueue.entryState n, ?_, ?_, ?_⟩
    · intro fuel hfuel
      rw [sq_runReceiver_eq,
        Pattern.run_then_cancel StorageQueue.cfg w StorageQueue.entryState n c fuel hcancel hack
          (fun i hi => sq_benign_of _
            (by simpa [StorageQueue.entryState] using hpolls i hi))
          (fun i hi => by rw [← sq_loopTopClock_eq]; exact hnot i hi)
          (by rw [← sq_loopTopClock_eq]; exact hset) hfuel]
    · simp [Pattern.after, StorageQueue.entryState,
        ackedMessages_append, ackedMessages_prefixEvents, ackedMessages]
    · simp [Pattern.after, StorageQueue.entryState,
        receiveCount_append, receiveCount_prefixEvents, receiveCount]

/-- Witness for C5: the scenario of the specification, a batch of two, an empty
poll and a batch of one, with cancellation at the instant of the next loop-top
check, which is clock value 10 for Service Bus and 11 for Storage Queue. -/
theorem runReceiver_cancel_after_batches_witness :
    delivered ((List.range 3).map sampleScenarioWorld.receive) = [1, 2, 3] ∧
    ServiceBus.loopTopClock sampleScenarioWorld 3 = 10 ∧
    StorageQueue.loopTopClock sampleScenarioQueueWorld 3 = 11 ∧
    (∃ st : LoopState Nat,
      (∀ fuel, 3 + 1 ≤ fuel → ServiceBus.runReceiver sampleScenarioWorld none fuel =
        Ctl.ret st none) ∧
      ackedMessages st.trace = delivered ((List.range 3).map sampleScenarioWorld.receive) ∧
      receiveCount st.trace = 3) ∧
    (∃ st : LoopState Nat,
      (∀ fuel, 3 + 1 ≤ fuel → StorageQueue.runReceiver sampleScenarioQueueWorld fuel =
        Ctl.ret st none) ∧
      ackedMessages st.trace =
        delivered ((List.range 3).map sampleScenarioQueueWorld.receive) ∧
      receiveCount st.trace = 3) :=
  ⟨by decide, by decide, by decide,
   (runReceiver_cancel_after_batches sampleScenarioWorld 3 10 rfl (fun _ => rfl)
      (by decide)).1 (by decide) (by decide),
   (runReceiver_cancel_after_batches sampleScenarioQueueWorld 3 11 rfl (fun _ => rfl)
      (by decide)).2 (by decide) (by decide)⟩

section MidBatchSupport

variable {Msg : Type}

/-- In a batch either every acknowledgement succeeds or there is a first one
that fails. -/
theorem first_failed_ack (f : Nat → Option GoError) (msgs : List Msg) :
    (∀ i, i < msgs.length → f i = none) ∨
    ∃ pre m post e, msgs = pre ++ m :: post ∧ (∀ j, j < pre.length → f j = none) ∧
      f pre.length = some e := by
  induction msgs generalizing f with
  | nil => exact Or.inl (fun i hi => absurd hi (by simp))
  | cons a rest ih =>
    cases h0 : f 0 with
    | some e => exact Or.inr ⟨[], a, rest, e, rfl, fun j hj => absurd hj (by simp), h0⟩
    | none =>
      rcases ih (fun i => f (i + 1)) with hall | ⟨pre, m, post, e, hsplit, hpre, hfail⟩
      · refine Or.inl (fun i hi => ?_)
        cases i with
        | zero => exact h0
        | succ i => exact hall i (by simpa using hi)
      · refine Or.inr ⟨a :: pre, m, post, e, by rw [hsplit]; rfl, fun j hj => ?_, hfail⟩
        cases j with
        | zero => exact h0
        | succ j => exact hpre j (by simpa using hj)

/-- In the state in which an iteration returns on a failed acknowledgement, the
failed acknowledge call is the action at position clock + 2 + 2 * |pre|: this
is the clock value at which the call is issued. -/
theorem Pattern.ackFailState_ack_position (st : LoopState Msg) (pre : List Msg) (m : Msg) :
    (Pattern.ackFailState st pre m).trace[st.clock + 2 + 2 * pre.length]? =
      some (Event.ack m) := by
  have hlen : (st.trace ++ Event.receive :: Pattern.handled pre).length =
      st.clock + 1 + 2 * pre.length := by
    simp [LoopState.clock, Pattern.length_handled]
    omega
  have htrace : (Pattern.ackFailState st pre m).trace =
      (st.trace ++ Event.receive :: Pattern.handled pre) ++
        [Event.process m, Event.ack m] := by
    simp [Pattern.ackFailState]
  rw [htrace, List.getElem?_append_right (by rw [hlen]; omega), hlen]
  have e : st.clock + 2 + 2 * pre.length - (st.clock + 1 + 2 * pre.length) = 1 := by omega
  rw [e]
  rfl

end MidBatchSupport

/-- Counterexample to C6 as stated. The context is cancelled at clock value 3,
after the receive call has returned the batch of two and before the first
acknowledgement; the acknowledgement issued under the cancelled context fails.
Both loops return that error, never nil, and the second message of the batch
is neither logged nor acknowledged. -/
theorem runReceiver_cancel_mid_batch_counterexample :
    sampleMidBatchFailWorld.cancelAt = some 3 ∧
    (sampleMidBatchFailWorld.receive 0).messages = [1, 2] ∧
    ServiceBus.runReceiver sampleMidBatchFailWorld none 2 =
      Ctl.ret ⟨[Event.logStart, Event.receive, Event.process 1, Event.ack 1, Event.close], 1, 1⟩
        (some (fmt.Errorf "complete message" GoError.canceled)) ∧
    StorageQueue.runReceiver sampleMidBatchFailWorld 2 =
      Ctl.ret ⟨[Event.logStart, Event.receive, Event.process 1, Event.ack 1], 1, 1⟩
        (some (fmt.Errorf "delete message" GoError.canceled)) := by
  decide

/-- C6, amended. Take an iteration of Service Bus runReceiver or Storage Queue
runReceiver that starts in state st and receives the batch msgs, and let the
context be cancelled at a clock value after the receive call was issued and not
after the last acknowledge call of the batch is issued. The loop does not look
at the context inside the batch and issues every acknowledge call under it;
the call for message i of the batch is issued at clock value clock + 2 + 2 i.
If an acknowledge call issued under the cancelled context fails, as the SDK
calls do, then the batch is not finished: there is a first message m whose
acknowledgement fails, at the latest the first one issued after the
cancellation; the messages before m are logged and acknowledged, m is logged
once and its acknowledgement attempted once, the messages after m are neither
logged nor acknowledged, and the loop returns that failure wrapped, never
nil. -/
theorem runReceiver_cancel_mid_batch {Msg : Type} (w : World Msg) (st : LoopState Msg)
    (msgs : List Msg) (c : Nat)
    (hcancel : w.cancelAt = some c)
    (hafter : st.clock < c) (hbefore : c ≤ st.clock + 2 * msgs.length)
    (herr : (w.receive st.recvCalls).err = none)
    (hmsgs : (w.receive st.recvCalls).messages = msgs)
    (hctx : ∀ i, i < msgs.length → w.cancelled (st.clock + 2 + 2 * i) = true →
      w.ack (st.ackCalls + i) ≠ none) :
    ∃ pre m post e, msgs = pre ++ m :: post ∧
      (∀ j, j < pre.length → w.ack (st.ackCalls + j) = none) ∧
      w.ack (st.ackCalls + pre.length) = some e ∧
      (∀ i, i < msgs.length → w.cancelled (st.clock + 2 + 2 * i) = true → pre.length ≤ i) ∧
      (ServiceBus.loopBody w st =
          Ctl.ret (Pattern.ackFailState st pre m) (some (fmt.Errorf "complete message" e)) ∧
        ∀ k fuel, forLoop (ServiceBus.loopBody w) k ServiceBus.entryState = Ctl.next st →
          k + 1 ≤ fuel →
          ServiceBus.runReceiver w none fuel =
            Ctl.ret ((Pattern.ackFailState st pre m).emit Event.close)
              (some (fmt.Errorf "complete message" e))) ∧
      (StorageQueue.loopBody w st =
          Ctl.ret (Pattern.ackFailState st pre m) (some (fmt.Errorf "delete message" e)) ∧
        ∀ k fuel, forLoop (StorageQueue.loopBody w) k StorageQueue.entryState = Ctl.next st →
          k + 1 ≤ fuel →
          StorageQueue.runReceiver w fuel =
            Ctl.ret (Pattern.ackFailState st pre m) (some (fmt.Errorf "delete message" e))) ∧
      (Pattern.ackFailState st pre m).trace[st.clock + 2 + 2 * pre.length]? =
        some (Event.ack m) ∧
      processedMessages (Pattern.ackFailState st pre m).trace =
        processedMessages st.trace ++ pre ++ [m] ∧
      ackedMessages (Pattern.ackFailState st pre m).trace =
        ackedMessages st.trace ++ pre ++ [m] := by
  have hc : w.cancelled st.clock = false := cancelled_false_of_lt w c _ hcancel hafter
  have hpos : 0 < msgs.length := by omega
  have hlast : w.ack (st.ackCalls + (msgs.length - 1)) ≠ none :=
    hctx (msgs.length - 1) (by omega)
      (cancelled_true_of_le w c _ hcancel (by omega))
  rcases first_failed_ack (fun i => w.ack (st.ackCalls + i)) msgs with
    hall | ⟨pre, m, post, e, hsplit, hpre, hfail⟩
  · exact absurd (hall (msgs.length - 1) (by omega)) hlast
  · have hmsgs2 : (w.receive st.recvCalls).messages = pre ++ m :: post := by
      rw [hmsgs, hsplit]
    have hsb : ServiceBus.loopBody w st =
        Ctl.ret (Pattern.ackFailState st pre m) (some (fmt.Errorf "complete message" e)) := by
      rw [sb_loopBody_eq]
      exact Pattern.body_ack_fail ServiceBus.cfg w st pre m post e hc herr hmsgs2 hpre hfail
    have hsq : StorageQueue.loopBody w st =
        Ctl.ret (Pattern.ackFailState st pre m) (some (fmt.Errorf "delete message" e)) := by
      rw [sq_loopBody_eq]
      exact Pattern.body_ack_fail StorageQueue.cfg w st pre m post e hc herr hmsgs2 hpre hfail
    refine ⟨pre, m, post, e, hsplit, hpre, hfail, ?_, ⟨hsb, ?_⟩, ⟨hsq, ?_⟩,
      Pattern.ackFailState_ack_position st pre m, ?_, ?_⟩
    · intro i hi hci
      by_contra hlt
      exact hctx i hi hci (hpre i (by omega))
    · intro k fuel hreach hfuel
      simp only [ServiceBus.runReceiver]
      rw [forLoop_next_then_ret _ k fuel _ st _ _ hreach hsb hfuel]
    · intro k fuel hreach hfuel
      simp only [StorageQueue.runReceiver]
      rw [forLoop_next_then_ret _ k fuel _ st _ _ hreach hsq hfuel]
    · simp [Pattern.ackFailState, processedMessages_append, processedMessages,
        processedMessages_handled]
    · simp [Pattern.ackFailState, ackedMessages_append, ackedMessages, ackedMessages_handled]

/-- Witness for the amended C6: cancellation at clock value 5 inside a batch of
three. The acknowledge call for the first message was issued at clock value 3
and succeeded; the call for the second message is issued at clock value 5,
under the cancelled context, and fails with context.Canceled. Both loops
return that failure and the third message is neither logged nor
acknowledged. -/
theorem runReceiver_cancel_mid_batch_witness :
    (∃ pre m post e, [1, 2, 3] = pre ++ m :: post ∧
      ServiceBus.runReceiver sampleMidBatchCanceledWorld none 1 =
        Ctl.ret ((Pattern.ackFailState ServiceBus.entryState pre m).emit Event.close)
          (some (fmt.Errorf "complete message" e)) ∧
      StorageQueue.runReceiver sampleMidBatchCanceledWorld 1 =
        Ctl.ret (Pattern.ackFailState StorageQueue.entryState pre m)
          (some (fmt.Errorf "delete message" e))) ∧
    ServiceBus.runReceiver sampleMidBatchCanceledWorld none 1 =
      Ctl.ret ⟨[Event.logStart, Event.receive, Event.process 1, Event.ack 1, Event.process 2,
        Event.ack 2, Event.close], 1, 2⟩ (some (fmt.Errorf "complete message" GoError.canceled)) ∧
    StorageQueue.runReceiver sampleMidBatchCanceledWorld 1 =
      Ctl.ret ⟨[Event.logStart, Event.receive, Event.process 1, Event.ack 1, Event.process 2,
        Event.ack 2], 1, 2⟩ (some (fmt.Errorf "delete message" GoError.canceled)) := by
  obtain ⟨pre, m, post, e, hsplit, _, _, _, hsb, hsq, _⟩ :=
    runReceiver_cancel_mid_batch sampleMidBatchCanceledWorld ServiceBus.entryState [1, 2, 3] 5
      rfl (by decide) (by decide) rfl rfl (by decide)
  exact ⟨⟨pre, m, post, e, hsplit, hsb.2 0 1 rfl (Nat.le_refl 1),
    hsq.2 0 1 rfl (Nat.le_refl 1)⟩, by decide, by decide⟩

section SleepSupport

variable {Msg : Type}

/-- The actions that one iteration appends, with the number of sleeps among
them. -/
theorem Pattern.body_delta (cfg : LoopCfg) (w : World Msg) (st : LoopState Msg) :
    ∃ delta, (Pattern.body cfg w st).state.trace = st.trace ++ delta ∧
      sleepCount delta =
        (if w.cancelled st.clock = false ∧
            Pattern.sleeps cfg (w.receive st.recvCalls) = true then 1 else 0) ∧
      ((Pattern.body cfg w st).returned = true → sleepCount delta = 0) := by
  cases hc : w.cancelled st.clock with
  | true =>
    refine ⟨[], ?_, ?_, ?_⟩
    · simp [Pattern.body_cancelled cfg w st hc, Ctl.state]
    · simp [sleepCount]
    · intro _; rfl
  | false =>
    unfold Pattern.body Pattern.sleeps
    simp only [hc, Bool.false_eq_true, if_false, true_and]
    cases herr : (w.receive st.recvCalls).err with
    | some e =>
      cases ht : cfg.timeout e with
      | false =>
        refine ⟨[Event.receive], ?_, ?_, ?_⟩ <;>
          simp [ht, Ctl.state, LoopState.recv, sleepCount]
      | true =>
        cases hs : cfg.sleepOnTimeout with
        | false =>
          refine ⟨[Event.receive], ?_, ?_, ?_⟩ <;>
            simp [ht, hs, Ctl.state, LoopState.recv, sleepCount]
        | true =>
          refine ⟨[Event.receive, Event.sleep], ?_, ?_, ?_⟩ <;>
            simp [ht, hs, Ctl.state, Ctl.returned, LoopState.recv, LoopState.emit, sleepCount]
    | none =>
      by_cases hem : (cfg.sleepOnEmpty &&
          decide ((w.receive st.recvCalls).messages.length = 0)) = true
      · refine ⟨[Event.receive, Event.sleep], ?_, ?_, ?_⟩
        · simp [if_pos hem, Ctl.state, LoopState.recv, LoopState.emit]
        · simp [if_pos hem, sleepCount]
        · simp [if_pos hem, Ctl.returned]
      · obtain ⟨j, _, _, htr, _, _⟩ :=
          Pattern.ackAll_shape cfg.ackWrap w (w.receive st.recvCalls).messages st.recv
        refine ⟨Event.receive :: Pattern.handled ((w.receive st.recvCalls).messages.take j),
          ?_, ?_, ?_⟩
        · simp only [if_neg hem]
          cases hr : Pattern.ackAll cfg.ackWrap w (w.receive st.recvCalls).messages st.recv with
          | mk st2 r =>
            rw [hr] at htr
            cases r <;> simpa [Ctl.state, LoopState.recv] using htr
        · simp [if_neg hem, sleepCount, sleepCount_handled]
        · intro _
          simp [sleepCount, sleepCount_handled]

theorem sb_sleeps_eq (res : RecvResult Msg) :
    Pattern.sleeps ServiceBus.cfg res = false := by
  unfold Pattern.sleeps
  cases res.err <;> simp [ServiceBus.cfg]

theorem sq_sleeps_eq (res : RecvResult Msg) :
    Pattern.sleeps StorageQueue.cfg res = StorageQueue.idle res := by
  unfold Pattern.sleeps StorageQueue.idle
  cases res.err <;> simp [StorageQueue.cfg]

theorem forLoop_invariant {σ ρ : Type} (body : σ → Ctl σ ρ) (P : σ → Prop)
    (hstep : ∀ s, P s → P (body s).state) (fuel : Nat) (s : σ) (h : P s) :
    P (forLoop body fuel s).state := by
  induction fuel generalizing s with
  | zero => simpa [forLoop, Ctl.state] using h
  | succ fuel ih =>
    simp only [forLoop]
    have hs := hstep s h
    cases hb : body s with
    | next s1 =>
      rw [hb] at hs
      exact ih s1 hs
    | ret s1 r =>
      rw [hb] at hs
      exact hs

end SleepSupport

/-- C7. In every iteration of Service Bus runReceiver, from any state, the
actions appended to the trace contain no sleep, and no execution of it sleeps
at all. In every iteration of Storage Queue runReceiver the appended actions
contain exactly one sleep when the context is not cancelled and the receive
result is a timeout or an empty batch, and no sleep otherwise; in particular
none after a non-empty batch and none in an iteration that returns, be it on a
receive error that is not a timeout or on an acknowledgement error. -/
theorem runReceiver_sleep_only_when_idle {Msg : Type} (w : World Msg) (st : LoopState Msg) :
    (∃ delta, (ServiceBus.loopBody w st).state.trace = st.trace ++ delta ∧
      sleepCount delta = 0) ∧
    (∀ newReceiver fuel, sleepCount (ServiceBus.runReceiver w newReceiver fuel).state.trace = 0) ∧
    (∃ delta, (StorageQueue.loopBody w st).state.trace = st.trace ++ delta ∧
      sleepCount delta =
        (if w.cancelled st.clock = false ∧
            StorageQueue.idle (w.receive st.recvCalls) = true then 1 else 0) ∧
      ((StorageQueue.loopBody w st).returned = true → sleepCount delta = 0)) := by
  have hsb : ∀ s : LoopState Msg, ∃ delta,
      (ServiceBus.loopBody w s).state.trace = s.trace ++ delta ∧ sleepCount delta = 0 := by
    intro s
    obtain ⟨delta, h1, h2, _⟩ := Pattern.body_delta ServiceBus.cfg w s
    rw [← sb_loopBody_eq] at h1
    refine ⟨delta, h1, ?_⟩
    rw [h2, sb_sleeps_eq]
    simp
  refine ⟨hsb st, ?_, ?_⟩
  · intro newReceiver fuel
    cases newReceiver with
    | some err => simp [ServiceBus.runReceiver, Ctl.state, sleepCount]
    | none =>
      have hinv := forLoop_invariant (ServiceBus.loopBody w)
        (fun s : LoopState Msg => sleepCount s.trace = 0)
        (fun s hs => by
          obtain ⟨delta, h1, h2⟩ := hsb s
          rw [h1, sleepCount_append, hs, h2])
        fuel ServiceBus.entryState (by simp [ServiceBus.entryState, sleepCount])
      simp only [ServiceBus.runReceiver]
      cases hr : forLoop (ServiceBus.loopBody w) fuel ServiceBus.entryState with
      | next s =>
        rw [hr] at hinv
        simpa [Ctl.state] using hinv
      | ret s r =>
        rw [hr] at hinv
        simp only [Ctl.state] at hinv ⊢
        simp [LoopState.emit, sleepCount_append, hinv, sleepCount]
  · obtain ⟨delta, h1, h2, h3⟩ := Pattern.body_delta StorageQueue.cfg w st
    rw [← sq_loopBody_eq] at h1 h3
    rw [sq_sleeps_eq] at h2
    exact ⟨delta, h1, h2, h3⟩

/-- Counterexample to C8 as stated: when the first receive call of Storage
Queue runReceiver fails with context.DeadlineExceeded, the iteration sleeps
before it goes on to the next one. -/
theorem runReceiver_timeout_counterexample :
    (sampleTimeoutWorld.receive 0).err = some GoError.deadlineExceeded ∧
    StorageQueue.runReceiver sampleTimeoutWorld 1 =
      Ctl.next ⟨[Event.logStart, Event.receive, Event.sleep], 1, 0⟩ := by
  decide

/-- C8, amended. When a receive call fails with the timeout error and the
context is not cancelled, neither loop returns an error. Service Bus
runReceiver, which recognises the value context.DeadlineExceeded itself, goes
on to the next iteration right after the receive call, with no sleep. Storage
Queue runReceiver, which recognises the timeout through errors.Is, sleeps once
for the poll interval and then goes on to the next iteration. -/
theorem runReceiver_timeout_continues {Msg : Type} (w : World Msg) (st : LoopState Msg)
    (e : GoError)
    (hc : w.cancelled st.clock = false)
    (herr : (w.receive st.recvCalls).err = some e) :
    (e = GoError.deadlineExceeded → ServiceBus.loopBody w st = Ctl.next st.recv) ∧
    (errors.Is e GoError.deadlineExceeded = true →
      StorageQueue.loopBody w st = Ctl.next (st.recv.emit Event.sleep)) := by
  constructor
  · intro he
    simp [ServiceBus.loopBody, hc, herr, he]
  · intro he
    simp [StorageQueue.loopBody, hc, herr, he]

/-- Witness for the amended C8: the first poll times out. -/
theorem runReceiver_timeout_continues_witness :
    ServiceBus.loopBody sampleTimeoutWorld ServiceBus.entryState =
      Ctl.next ⟨[Event.logStart, Event.receive], 1, 0⟩ ∧
    StorageQueue.loopBody sampleTimeoutWorld StorageQueue.entryState =
      Ctl.next ⟨[Event.logStart, Event.receive, Event.sleep], 1, 0⟩ :=
  ⟨(runReceiver_timeout_continues sampleTimeoutWorld ServiceBus.entryState
      GoError.deadlineExceeded rfl rfl).1 rfl,
   (runReceiver_timeout_continues sampleTimeoutWorld StorageQueue.entryState
      GoError.deadlineExceeded rfl rfl).2 rfl⟩

section IdleSupport

variable {Msg : Type}

theorem Pattern.ackAll_ackCalls_le (wrap : String) (w : World Msg) (msgs : List Msg)
    (st : LoopState Msg) :
    st.ackCalls ≤ (Pattern.ackAll wrap w msgs st).1.ackCalls := by
  induction msgs generalizing st with
  | nil => simp [Pattern.ackAll]
  | cons m rest ih =>
    simp only [Pattern.ackAll, LoopState.emit]
    cases h0 : w.ack st.ackCalls with
    | some e => simp [LoopState.acked]
    | none =>
      have h := ih (LoopState.acked { st with trace := st.trace ++ [Event.process m] } m)
      simp only [LoopState.acked] at h ⊢
      omega

theorem Pattern.ackAll_ackCalls_lt (wrap : String) (w : World Msg) (msgs : List Msg)
    (st : LoopState Msg) (hne : msgs ≠ []) :
    st.ackCalls < (Pattern.ackAll wrap w msgs st).1.ackCalls := by
  cases msgs with
  | nil => exact absurd rfl hne
  | cons m rest =>
    simp only [Pattern.ackAll, LoopState.emit]
    cases h0 : w.ack st.ackCalls with
    | some e => simp [LoopState.acked]
    | none =>
      have h := Pattern.ackAll_ackCalls_le wrap w rest
        (LoopState.acked { st with trace := st.trace ++ [Event.process m] } m)
      simp only [LoopState.acked] at h ⊢
      omega

/-- An iteration that goes on without any acknowledge call had a receive
result that the loop takes for a timeout, or an empty batch. -/
theorem Pattern.body_next_no_ack (cfg : LoopCfg) (w : World Msg) (st st1 : LoopState Msg)
    (hnext : Pattern.body cfg w st = Ctl.next st1) (hacks : st1.ackCalls = st.ackCalls) :
    (∃ e, (w.receive st.recvCalls).err = some e ∧ cfg.timeout e = true) ∨
    ((w.receive st.recvCalls).err = none ∧ (w.receive st.recvCalls).messages.length = 0) := by
  cases hc : w.cancelled st.clock with
  | true =>
    rw [Pattern.body_cancelled cfg w st hc] at hnext
    cases hnext
  | false =>
    cases herr : (w.receive st.recvCalls).err with
    | some e =>
      cases ht : cfg.timeout e with
      | true => exact Or.inl ⟨e, rfl, ht⟩
      | false =>
        rw [Pattern.body_hard cfg w st e hc herr ht] at hnext
        cases hnext
    | none =>
      refine Or.inr ⟨rfl, ?_⟩
      by_contra hlen
      have hne : (w.receive st.recvCalls).messages ≠ [] := by
        intro h
        exact hlen (by simp [h])
      have hlt := Pattern.ackAll_ackCalls_lt cfg.ackWrap w _ st.recv hne
      have hcond : ¬ (cfg.sleepOnEmpty &&
          decide ((w.receive st.recvCalls).messages.length = 0)) = true := by
        simp [hlen]
      unfold Pattern.body at hnext
      simp only [hc, Bool.false_eq_true, if_false, herr, if_neg hcond] at hnext
      cases hr : Pattern.ackAll cfg.ackWrap w (w.receive st.recvCalls).messages st.recv with
      | mk st2 r =>
        rw [hr] at hnext hlt
        cases r with
        | some e => cases hnext
        | none =>
          simp only [Ctl.next.injEq] at hnext
          subst hnext
          simp only [LoopState.recv] at hlt
          omega

end IdleSupport

/-- Counterexample to C9 as stated: when every receive call of Service Bus
runReceiver returns an empty batch without error, the loop issues its receive
calls back to back, with no sleep in between. -/
theorem runReceiver_idle_wait_counterexample :
    sampleEmptyWorld.receive 0 = ⟨[], none⟩ ∧ sampleEmptyWorld.receive 1 = ⟨[], none⟩ ∧
    ServiceBus.runReceiver sampleEmptyWorld none 2 =
      Ctl.next ⟨[Event.logStart, Event.receive, Event.receive], 2, 0⟩ := by
  decide

/-- C9, amended. With the context not cancelled, an iteration of Storage Queue
runReceiver whose receive result is a timeout or an empty batch makes the
receive call, sleeps once for the poll interval and goes on, so that a sleep
lies between this receive call and the next. An iteration of Service Bus
runReceiver whose receive result is the timeout context.DeadlineExceeded or an
empty batch makes the receive call and goes on at once, with no sleep; the only
wait is the one inside the receive call. In both loops an iteration that goes
on without an acknowledge call is of this kind. -/
theorem runReceiver_idle_iteration {Msg : Type} (w : World Msg) (st : LoopState Msg)
    (hc : w.cancelled st.clock = false) :
    (StorageQueue.idle (w.receive st.recvCalls) = true →
      StorageQueue.loopBody w st =
        Ctl.next ⟨st.trace ++ [Event.receive, Event.sleep], st.recvCalls + 1, st.ackCalls⟩) ∧
    (ServiceBus.idle (w.receive st.recvCalls) = true →
      ServiceBus.loopBody w st =
        Ctl.next ⟨st.trace ++ [Event.receive], st.recvCalls + 1, st.ackCalls⟩) ∧
    (∀ st1, StorageQueue.loopBody w st = Ctl.next st1 → st1.ackCalls = st.ackCalls →
      StorageQueue.idle (w.receive st.recvCalls) = true) ∧
    (∀ st1, ServiceBus.loopBody w st = Ctl.next st1 → st1.ackCalls = st.ackCalls →
      ServiceBus.idle (w.receive st.recvCalls) = true) := by
  refine ⟨?_, ?_, ?_, ?_⟩
  · intro hidle
    cases herr : (w.receive st.recvCalls).err with
    | some e =>
      simp only [StorageQueue.idle, herr] at hidle
      simp [StorageQueue.loopBody, herr, hc, hidle, LoopState.recv, LoopState.emit]
    | none =>
      simp only [StorageQueue.idle, herr, decide_eq_true_eq] at hidle
      simp [StorageQueue.loopBody, herr, hc, hidle, LoopState.recv, LoopState.emit]
  · intro hidle
    cases herr : (w.receive st.recvCalls).err with
    | some e =>
      simp only [ServiceBus.idle, herr, decide_eq_true_eq] at hidle
      simp [ServiceBus.loopBody, herr, hc, hidle, LoopState.recv]
    | none =>
      simp only [ServiceBus.idle, herr, decide_eq_true_eq] at hidle
      have hnil : (w.receive st.recvCalls).messages = [] := List.length_eq_zero.mp hidle
      simp [ServiceBus.loopBody, herr, hc, hnil, ServiceBus.completeMessages, LoopState.recv]
  · intro st1 hnext hacks
    rw [sq_loopBody_eq] at hnext
    rcases Pattern.body_next_no_ack StorageQueue.cfg w st st1 hnext hacks with
      ⟨e, he, ht⟩ | ⟨he, hlen⟩
    · simpa [StorageQueue.idle, he, StorageQueue.cfg] using ht
    · simp [StorageQueue.idle, he, hlen]
  · intro st1 hnext hacks
    rw [sb_loopBody_eq] at hnext
    rcases Pattern.body_next_no_ack ServiceBus.cfg w st st1 hnext hacks with
      ⟨e, he, ht⟩ | ⟨he, hlen⟩
    · simpa [ServiceBus.idle, he, ServiceBus.cfg] using ht
    · simp [ServiceBus.idle, he, hlen]

/-- Witness for the amended C9: a timeout for both loops at loop entry. -/
theorem runReceiver_idle_iteration_witness :
    StorageQueue.loopBody sampleTimeoutWorld StorageQueue.entryState =
      Ctl.next ⟨[Event.logStart, Event.receive, Event.sleep], 1, 0⟩ ∧
    ServiceBus.loopBody sampleTimeoutWorld ServiceBus.entryState =
      Ctl.next ⟨[Event.logStart, Event.receive], 1, 0⟩ :=
  ⟨(runReceiver_idle_iteration sampleTimeoutWorld StorageQueue.entryState rfl).1 rfl,
   (runReceiver_idle_iteration sampleTimeoutWorld ServiceBus.entryState rfl).2.1 rfl⟩

section EventHubSupport

variable {Ev : Type}

theorem EventHub.logEvents_eq (events : List Ev) (st : LoopState Ev) :
    EventHub.logEvents events st =
      { trace := st.trace ++ events.map Event.process, recvCalls := st.recvCalls,
        ackCalls := st.ackCalls } := by
  induction events generalizing st with
  | nil => simp [EventHub.logEvents]
  | cons ev rest ih =>
    simp only [EventHub.logEvents, ih, LoopState.emit]
    simp

theorem EventHub.checkpointBatch_next (w : World Ev) (events : List Ev) (st : LoopState Ev) :
    ∃ st1, EventHub.checkpointBatch w events st = Ctl.next st1 ∧
      st1.recvCalls = st.recvCalls := by
  unfold EventHub.checkpointBatch
  by_cases h : events.length = 0
  · exact ⟨st, by simp [h], rfl⟩
  · simp only [dif_neg h, EventHub.logEvents_eq]
    cases w.ack st.ackCalls with
    | none => exact ⟨_, rfl, rfl⟩
    | some e => exact ⟨_, rfl, rfl⟩

theorem EventHub.partitionLoopBody_next (w : World Ev) (st : LoopState Ev) :
    ∃ st1, EventHub.partitionLoopBody w st = Ctl.next st1 ∧
      st1.recvCalls = st.recvCalls + 1 := by
  obtain ⟨st1, h1, h2⟩ := EventHub.checkpointBatch_next w (w.receive st.recvCalls).messages st.recv
  cases herr : (w.receive st.recvCalls).err with
  | none =>
    exact ⟨st1, by simp only [EventHub.partitionLoopBody, herr, h1],
      by simpa [LoopState.recv] using h2⟩
  | some e =>
    cases hc : w.cancelled st.recv.clock with
    | true =>
      exact ⟨st1, by simp only [EventHub.partitionLoopBody, herr, hc, h1],
        by simpa [LoopState.recv] using h2⟩
    | false =>
      exact ⟨st.recv.emit (Event.logError "receive error" e),
        by simp only [EventHub.partitionLoopBody, herr, hc],
        by simp [LoopState.emit, LoopState.recv]⟩

theorem EventHub.forLoop_next (w : World Ev) (fuel : Nat) (st : LoopState Ev) :
    ∃ st1, forLoop (EventHub.partitionLoopBody w) fuel st = Ctl.next st1 ∧
      st1.recvCalls = st.recvCalls + fuel := by
  induction fuel generalizing st with
  | zero => exact ⟨st, rfl, rfl⟩
  | succ fuel ih =>
    obtain ⟨s1, hb, hr⟩ := EventHub.partitionLoopBody_next w st
    obtain ⟨s2, hl, hr2⟩ := ih s1
    refine ⟨s2, ?_, ?_⟩
    · simp only [forLoop, hb]
      exact hl
    · omega

end EventHubSupport

/-- Counterexample to C10 as stated. With the context never cancelled, the
first receive call of the per-partition loop fails with a fatal error, the
checkpoint after the next batch fails too, and after three iterations the loop
is still running: it has logged both errors, made three receive calls and
returned nothing to its caller. -/
theorem partitionLoop_error_counterexample :
    sampleFailingHubWorld.cancelAt = none ∧
    (sampleFailingHubWorld.receive 0).err = some (GoError.other 1) ∧
    EventHub.partitionLoop sampleFailingHubWorld 3 ⟨[], 0, 0⟩ =
      Ctl.next ⟨[Event.receive, Event.logError "receive error" (GoError.other 1),
        Event.receive, Event.process 4, Event.process 5, Event.ack 5,
        Event.logError "checkpoint error" (GoError.other 3),
        Event.receive, Event.logError "receive error" (GoError.other 2)], 3, 1⟩ := by
  decide

/-- C10, amended. The per-partition receive loop started by runProcessor never
returns: for every world, state and fuel it is still running after fuel
iterations, having made one receive call in each. While the context is not
cancelled, an error of ReceiveEvents is logged and the loop goes on to the next
iteration; an error of UpdateCheckpoint is logged after the events of the batch
and the loop goes on as well. No error is propagated to the caller. -/
theorem partitionLoop_logs_and_continues {Ev : Type} (w : World Ev) (st : LoopState Ev) :
    (∀ fuel, ∃ st1, EventHub.partitionLoop w fuel st = Ctl.next st1 ∧
      st1.recvCalls = st.recvCalls + fuel) ∧
    (∀ e, (w.receive st.recvCalls).err = some e → w.cancelled st.recv.clock = false →
      EventHub.partitionLoopBody w st =
        Ctl.next (st.recv.emit (Event.logError "receive error" e))) ∧
    (∀ e lastEvent, (w.receive st.recvCalls).err = none →
      (w.receive st.recvCalls).messages.getLast? = some lastEvent →
      w.ack st.ackCalls = some e →
      EventHub.partitionLoopBody w st =
        Ctl.next ⟨st.trace ++ Event.receive ::
            (w.receive st.recvCalls).messages.map Event.process ++
            [Event.ack lastEvent, Event.logError "checkpoint error" e],
          st.recvCalls + 1, st.ackCalls + 1⟩) := by
  refine ⟨?_, ?_, ?_⟩
  · intro fuel
    obtain ⟨st1, h1, h2⟩ := EventHub.forLoop_next w fuel st
    exact ⟨st1, by simp [EventHub.partitionLoop, h1], h2⟩
  · intro e herr hc
    simp [EventHub.partitionLoopBody, herr, hc]
  · intro e lastEvent herr hlast hack
    have hne : (w.receive st.recvCalls).messages ≠ [] := by
      intro hnil
      rw [hnil] at hlast
      cases hlast
    have hlen : ¬ (w.receive st.recvCalls).messages.length = 0 := by
      simpa using hne
    have hget : (w.receive st.recvCalls).messages.getLast hne = lastEvent := by
      rw [List.getLast?_eq_getLast _ hne] at hlast
      exact Option.some.inj hlast
    simp [EventHub.partitionLoopBody, herr, EventHub.checkpointBatch, hlen, hget,
      EventHub.logEvents_eq, LoopState.recv, LoopState.acked, LoopState.emit, hack]

/-- Witness for the amended C10: the receive error of the first iteration and
the checkpoint error of the second are logged and the loop goes on. -/
theorem partitionLoop_logs_and_continues_witness :
    EventHub.partitionLoopBody sampleFailingHubWorld ⟨[], 0, 0⟩ =
      Ctl.next ⟨[Event.receive, Event.logError "receive error" (GoError.other 1)], 1, 0⟩ ∧
    EventHub.partitionLoopBody sampleFailingHubWorld ⟨[], 1, 0⟩ =
      Ctl.next ⟨[Event.receive, Event.process 4, Event.process 5, Event.ack 5,
        Event.logError "checkpoint error" (GoError.other 3)], 2, 1⟩ :=
  ⟨(partitionLoop_logs_and_continues sampleFailingHubWorld ⟨[], 0, 0⟩).2.1
      (GoError.other 1) rfl rfl,
   (partitionLoop_logs_and_continues sampleFailingHubWorld ⟨[], 1, 0⟩).2.2
      (GoError.other 3) 5 rfl rfl rfl⟩

/-- C11, evaluated on the code. The context is cancelled before the first
iteration of the per-partition loop and every receive call fails at once with
context.Canceled. The loop does not terminate: after any number of iterations
it is still running and has made one receive call per iteration, with nothing
else in between; after three iterations the trace is three receive calls. The
deferred pc.Close is never reached. -/
theorem partitionLoop_spins_after_cancel :
    sampleCancelledHubWorld.cancelled 0 = true ∧
    EventHub.partitionLoop sampleCancelledHubWorld 3 ⟨[], 0, 0⟩ =
      Ctl.next ⟨[Event.receive, Event.receive, Event.receive], 3, 0⟩ ∧
    ∀ fuel, ∃ st1, EventHub.partitionLoop sampleCancelledHubWorld fuel ⟨[], 0, 0⟩ = Ctl.next st1 ∧
      st1.recvCalls = fuel := by
  refine ⟨by decide, by decide, ?_⟩
  intro fuel
  obtain ⟨st1, h1, h2⟩ := EventHub.forLoop_next sampleCancelledHubWorld fuel ⟨[], 0, 0⟩
  exact ⟨st1, by simp [EventHub.partitionLoop, h1], by simpa using h2⟩

/-- C18, evaluated on the code. The first receive call fails with
context.DeadlineExceeded wrapped inside another error, which errors.Is
recognises as a timeout. Storage Queue runReceiver sleeps and goes on polling;
Service Bus runReceiver, which compares the error with the sentinel by ==,
returns the error wrapped as a receive failure. -/
theorem runReceiver_wrapped_timeout_diverges :
    (sampleWrappedTimeoutWorld.receive 0).err =
      some (GoError.wrapped "amqp receive" GoError.deadlineExceeded) ∧
    errors.Is (GoError.wrapped "amqp receive" GoError.deadlineExceeded)
      GoError.deadlineExceeded = true ∧
    StorageQueue.runReceiver sampleWrappedTimeoutWorld 1 =
      Ctl.next ⟨[Event.logStart, Event.receive, Event.sleep], 1, 0⟩ ∧
    ServiceBus.runReceiver sampleWrappedTimeoutWorld none 1 =
      Ctl.ret ⟨[Event.logStart, Event.receive, Event.close], 1, 0⟩
        (some (fmt.Errorf "receive messages"
          (GoError.wrapped "amqp receive" GoError.deadlineExceeded))) := by
  decide

/-! ## The send loops as instances of the common shape -/

section SenderSupport

theorem sb_sendLoopBody_eq (w : SendWorld) (count : Int) (st : SendState) :
    ServiceBus.sendLoopBody w count st = Sender.body ServiceBus.senderCfg w count st := by
  unfold ServiceBus.sendLoopBody Sender.body
  by_cases h : 0 < count ∧ count ≤ (st.sent : Int)
  · simp only [if_pos h]
  · simp only [if_neg h, ServiceBus.senderCfg, Sender.prepEvents, Sender.payload,
      SendState.emit]
    cases w.send st.sent <;> simp

theorem sq_sendLoopBody_eq (w : SendWorld) (count : Int) (st : SendState) :
    StorageQueue.sendLoopBody w count st = Sender.body StorageQueue.senderCfg w count st := by
  unfold StorageQueue.sendLoopBody Sender.body
  by_cases h : 0 < count ∧ count ≤ (st.sent : Int)
  · simp only [if_pos h]
  · simp only [if_neg h, StorageQueue.senderCfg, Sender.prepEvents, Sender.payload,
      SendState.emit]
    cases w.send st.sent <;> simp

theorem eh_sendLoopBody_eq (w : SendWorld) (count : Int) (st : SendState) :
    EventHub.sendLoopBody w count st = Sender.body EventHub.senderCfg w count st := by
  unfold EventHub.sendLoopBody Sender.body
  by_cases h : 0 < count ∧ count ≤ (st.sent : Int)
  · simp only [if_pos h]
  · simp only [if_neg h, EventHub.senderCfg, Sender.prepEvents, Sender.payload,
      SendState.emit]
    cases w.newBatch st.sent with
    | some e1 => rfl
    | none =>
      cases w.addEvent st.sent with
      | some e2 => simp
      | none => cases w.send st.sent <;> simp

theorem Sender.body_done (cfg : SenderCfg) (w : SendWorld) (count : Int) (st : SendState)
    (h : 0 < count ∧ count ≤ (st.sent : Int)) :
    Sender.body cfg w count st = Ctl.ret (st.emit (SendEvent.logDone st.sent)) none := by
  simp only [Sender.body, if_pos h]

theorem Sender.body_next (cfg : SenderCfg) (w : SendWorld) (count : Int) (st : SendState)
    (h : ¬ (0 < count ∧ count ≤ (st.sent : Int))) (hprep : Sender.prepOk cfg w st.sent)
    (hsend : w.send st.sent = none) (hwait : w.waitDone st.sent = false) :
    Sender.body cfg w count st =
      Ctl.next { trace := st.trace ++ Sender.iterEvents cfg w st.sent, sent := st.sent + 1 } := by
  simp only [Sender.body, if_neg h, Sender.iterEvents]
  cases hb : cfg.batched with
  | false => simp [hsend, hwait]
  | true =>
    obtain ⟨h1, h2⟩ := hprep hb
    simp [h1, h2, hsend, hwait]

theorem Sender.body_send_fail (cfg : SenderCfg) (w : SendWorld) (count : Int) (st : SendState)
    (e : GoError)
    (h : ¬ (0 < count ∧ count ≤ (st.sent : Int))) (hprep : Sender.prepOk cfg w st.sent)
    (hsend : w.send st.sent = some e) :
    Sender.body cfg w count st =
      Ctl.ret { trace := st.trace ++ Sender.prepEvents cfg w st.sent ++
                  [SendEvent.send (Sender.payload w st.sent)]
                sent := st.sent }
        (some (fmt.Errorf cfg.sendWrap e)) := by
  simp only [Sender.body, if_neg h]
  cases hb : cfg.batched with
  | false => simp [hsend]
  | true =>
    obtain ⟨h1, h2⟩ := hprep hb
    simp [h1, h2, hsend]

theorem Sender.after_none (cfg : SenderCfg) (w : SendWorld) (st : SendState) :
    Sender.after cfg w st 0 = st := by
  simp [Sender.after]

theorem Sender.run_next (cfg : SenderCfg) (w : SendWorld) (count : Int) (st : SendState)
    (n : Nat)
    (hlim : ∀ i, i < n → ¬ (0 < count ∧ count ≤ ((st.sent + i : Nat) : Int)))
    (hprep : ∀ i, i < n → Sender.prepOk cfg w (st.sent + i))
    (hsend : ∀ i, i < n → w.send (st.sent + i) = none)
    (hwait : ∀ i, i < n → w.waitDone (st.sent + i) = false) :
    forLoop (Sender.body cfg w count) n st = Ctl.next (Sender.after cfg w st n) := by
  induction n with
  | zero => simp [forLoop, Sender.after_none]
  | succ n ih =>
    have hprev := ih (fun i hi => hlim i (by omega)) (fun i hi => hprep i (by omega))
      (fun i hi => hsend i (by omega)) (fun i hi => hwait i (by omega))
    apply forLoop_next_then_next _ n st _ _ hprev
    rw [Sender.body_next cfg w count (Sender.after cfg w st n) (hlim n (by omega))
      (hprep n (by omega)) (hsend n (by omega)) (hwait n (by omega))]
    simp [Sender.after, List.range_succ, Nat.add_assoc]

theorem sentPayloads_append (a b : List SendEvent) :
    sentPayloads (a ++ b) = sentPayloads a ++ sentPayloads b := by
  induction a with
  | nil => rfl
  | cons e rest ih => cases e <;> simp [sentPayloads, ih]

theorem sentPayloads_iterEvents (cfg : SenderCfg) (w : SendWorld) (k : Nat) :
    sentPayloads (Sender.iterEvents cfg w k) = [Sender.payload w k] := by
  unfold Sender.iterEvents Sender.prepEvents
  cases cfg.batched <;> simp [sentPayloads]

theorem sentPayloads_prepEvents (cfg : SenderCfg) (w : SendWorld) (k : Nat) :
    sentPayloads (Sender.prepEvents cfg w k) = [] := by
  unfold Sender.prepEvents
  cases cfg.batched <;> simp [sentPayloads]

theorem sentPayloads_run (cfg : SenderCfg) (w : SendWorld) (base n : Nat) :
    sentPayloads ((List.range n).flatMap (fun i => Sender.iterEvents cfg w (base + i))) =
      (List.range n).map (fun i => Sender.payload w (base + i)) := by
  induction n with
  | zero => simp [sentPayloads]
  | succ n ih =>
    simp only [List.range_succ, List.flatMap_append, List.map_append, sentPayloads_append, ih]
    simp [sentPayloads_iterEvents]

/-- A run of n successful sends from the entry state, after which the count
test of iteration n returns. -/
theorem Sender.run_count (cfg : SenderCfg) (w : SendWorld) (n fuel : Nat) (hn : 0 < n)
    (hprep : ∀ i, Sender.prepOk cfg w i)
    (hsend : ∀ i, w.send i = none) (hwait : ∀ i, w.waitDone i = false)
    (hfuel : n + 1 ≤ fuel) :
    forLoop (Sender.body cfg w (n : Int)) fuel sendEntryState =
      Ctl.ret ((Sender.after cfg w sendEntryState n).emit (SendEvent.logDone n)) none := by
  have hrun := Sender.run_next cfg w (n : Int) sendEntryState n
    (fun i hi => by simp [sendEntryState]; omega)
    (fun i _ => hprep _) (fun i _ => hsend _) (fun i _ => hwait _)
  have hdone := Sender.body_done cfg w (n : Int) (Sender.after cfg w sendEntryState n)
    (by simp [Sender.after, sendEntryState]; omega)
  rw [forLoop_next_then_ret _ n fuel _ _ _ _ hrun hdone hfuel]
  simp [Sender.after, sendEntryState]

/-- With a count that is not positive the loop is still running after any
number of successful iterations. -/
theorem Sender.run_forever (cfg : SenderCfg) (w : SendWorld) (count : Int) (fuel : Nat)
    (hcount : count ≤ 0)
    (hprep : ∀ i, Sender.prepOk cfg w i)
    (hsend : ∀ i, w.send i = none) (hwait : ∀ i, w.waitDone i = false) :
    forLoop (Sender.body cfg w count) fuel sendEntryState =
      Ctl.next (Sender.after cfg w sendEntryState fuel) :=
  Sender.run_next cfg w count sendEntryState fuel
    (fun i _ h => by omega) (fun i _ => hprep _) (fun i _ => hsend _) (fun i _ => hwait _)

/-- A run of k - 1 successful sends from the entry state, after which the send
call of iteration k - 1 fails. -/
theorem Sender.run_send_fail (cfg : SenderCfg) (w : SendWorld) (count : Int) (k fuel : Nat)
    (e : GoError) (hk : 1 ≤ k) (hcount : (k : Int) ≤ count ∨ count ≤ 0)
    (hprep : ∀ i, i < k → Sender.prepOk cfg w i)
    (hsend : ∀ i, i + 1 < k → w.send i = none)
    (hwait : ∀ i, i + 1 < k → w.waitDone i = false)
    (hfail : w.send (k - 1) = some e) (hfuel : k ≤ fuel) :
    forLoop (Sender.body cfg w count) fuel sendEntryState =
      Ctl.ret { trace := (Sender.after cfg w sendEntryState (k - 1)).trace ++
                  Sender.prepEvents cfg w (k - 1) ++ [SendEvent.send (Sender.payload w (k - 1))]
                sent := k - 1 }
        (some (fmt.Errorf cfg.sendWrap e)) := by
  have hlim : ∀ i, i < k → ¬ (0 < count ∧ count ≤ ((i : Nat) : Int)) := by
    intro i hi h
    rcases hcount with hc | hc <;> omega
  have hrun := Sender.run_next cfg w count sendEntryState (k - 1)
    (fun i hi => by simpa [sendEntryState] using hlim i (by omega))
    (fun i hi => by simpa [sendEntryState] using hprep i (by omega))
    (fun i hi => by simpa [sendEntryState] using hsend i (by omega))
    (fun i hi => by simpa [sendEntryState] using hwait i (by omega))
  have hsent : (Sender.after cfg w sendEntryState (k - 1)).sent = k - 1 := by
    simp [Sender.after, sendEntryState]
  have hbody := Sender.body_send_fail cfg w count (Sender.after cfg w sendEntryState (k - 1)) e
    (by rw [hsent]; exact hlim (k - 1) (by omega))
    (by rw [hsent]; exact hprep (k - 1) (by omega))
    (by rw [hsent]; exact hfail)
  rw [hsent] at hbody
  exact forLoop_next_then_ret _ (k - 1) fuel _ _ _ _ hrun hbody (by omega)

theorem Sender.sentPayloads_after (cfg : SenderCfg) (w : SendWorld) (n : Nat) :
    sentPayloads (Sender.after cfg w sendEntryState n).trace =
      (List.range n).map (fun k => ({ counter := k, ts := w.now k } : Payload)) := by
  simp only [Sender.after, sendEntryState, sentPayloads_append, sentPayloads_run]
  simp [sentPayloads, Sender.payload]

end SenderSupport

section SenderClaims

theorem Sender.prepOk_unbatched (cfg : SenderCfg) (w : SendWorld) (k : Nat)
    (h : cfg.batched = false) : Sender.prepOk cfg w k := by
  intro hb
  rw [h] at hb
  cases hb

theorem Sender.body_returned (cfg : SenderCfg) (w : SendWorld) (count : Int) (st : SendState)
    (hcount : count ≤ 0) (hret : (Sender.body cfg w count st).returned = true) :
    (cfg.batched = true ∧ (w.newBatch st.sent ≠ none ∨ w.addEvent st.sent ≠ none)) ∨
    w.send st.sent ≠ none ∨ w.waitDone st.sent = true := by
  by_contra hno
  simp only [not_or, not_and, ne_eq, not_not] at hno
  obtain ⟨hprep, hsend, hwait⟩ := hno
  have hprepOk : Sender.prepOk cfg w st.sent := by
    intro hb
    by_contra hne
    have h1 := hprep hb
    exact hne ⟨h1.1, h1.2⟩
  have hw : w.waitDone st.sent = false := by
    cases h : w.waitDone st.sent with
    | false => rfl
    | true => exact absurd h hwait
  rw [Sender.body_next cfg w count st (fun h => by omega) hprepOk hsend hw] at hret
  simp [Ctl.returned] at hret

end SenderClaims

/-- Counterexample to C13 as stated. In the Event Hub send loop with count 2,
every send call succeeds and no wait is cut short, but the second
NewEventDataBatch call fails: runSender returns that error after a single send
call. -/
theorem runSender_count_limit_counterexample :
    (∀ i, sampleBatchFailWorld.send i = none) ∧
    (∀ i, sampleBatchFailWorld.waitDone i = false) ∧
    EventHub.runSender sampleBatchFailWorld none 2 3 =
      Ctl.ret ⟨[SendEvent.logStart, SendEvent.newBatch, SendEvent.addEvent ⟨0, "t0"⟩,
        SendEvent.send ⟨0, "t0"⟩, SendEvent.logSent 1, SendEvent.wait,
        SendEvent.newBatch, SendEvent.close], 1⟩
        (some (fmt.Errorf "new batch" (GoError.other 4))) :=
  ⟨fun _ => rfl, fun _ => rfl, by decide⟩

/-- C13, amended. Let every send call succeed and no wait be cut short by
cancellation. For every count n above zero the send loops of Service Bus and
Storage Queue return nil, for every fuel above n, after exactly n send calls
whose payloads carry the counters 0 to n - 1 in order; so does the Event Hub
loop when, in addition, every NewEventDataBatch and AddEventData call
succeeds. For a count that is not positive the three loops are, under the same
conditions, still running after any number of iterations, and one pass of a
loop body returns only when a call of the iteration fails or the wait sees the
cancellation. -/
theorem runSender_count_limit (w : SendWorld) (n : Nat) (hn : 0 < n)
    (hsend : ∀ i, w.send i = none) (hwait : ∀ i, w.waitDone i = false) :
    (∃ st, (∀ fuel, n + 1 ≤ fuel → ServiceBus.runSender w none (n : Int) fuel = Ctl.ret st none) ∧
      sentPayloads st.trace = (List.range n).map (fun k => ({ counter := k, ts := w.now k } : Payload)) ∧
      st.sent = n) ∧
    (∃ st, (∀ fuel, n + 1 ≤ fuel → StorageQueue.runSender w (n : Int) fuel = Ctl.ret st none) ∧
      sentPayloads st.trace = (List.range n).map (fun k => ({ counter := k, ts := w.now k } : Payload)) ∧
      st.sent = n) ∧
    ((∀ i, w.newBatch i = none) → (∀ i, w.addEvent i = none) →
      ∃ st, (∀ fuel, n + 1 ≤ fuel → EventHub.runSender w none (n : Int) fuel = Ctl.ret st none) ∧
        sentPayloads st.trace = (List.range n).map (fun k => ({ counter := k, ts := w.now k } : Payload)) ∧
        st.sent = n) ∧
    (∀ count : Int, count ≤ 0 → ∀ fuel,
      (∃ st, ServiceBus.runSender w none count fuel = Ctl.next st ∧ st.sent = fuel) ∧
      (∃ st, StorageQueue.runSender w count fuel = Ctl.next st ∧ st.sent = fuel) ∧
      ((∀ i, w.newBatch i = none) → (∀ i, w.addEvent i = none) →
        ∃ st, EventHub.runSender w none count fuel = Ctl.next st ∧ st.sent = fuel)) ∧
    (∀ (v : SendWorld) (count : Int) (st : SendState), count ≤ 0 →
      ((ServiceBus.sendLoopBody v count st).returned = true →
        v.send st.sent ≠ none ∨ v.waitDone st.sent = true) ∧
      ((StorageQueue.sendLoopBody v count st).returned = true →
        v.send st.sent ≠ none ∨ v.waitDone st.sent = true) ∧
      ((EventHub.sendLoopBody v count st).returned = true →
        v.newBatch st.sent ≠ none ∨ v.addEvent st.sent ≠ none ∨
        v.send st.sent ≠ none ∨ v.waitDone st.sent = true)) := by
  have hsb : ServiceBus.sendLoopBody w = Sender.body ServiceBus.senderCfg w :=
    funext (fun c => funext (sb_sendLoopBody_eq w c))
  have hsq : StorageQueue.sendLoopBody w = Sender.body StorageQueue.senderCfg w :=
    funext (fun c => funext (sq_sendLoopBody_eq w c))
  have heh : EventHub.sendLoopBody w = Sender.body EventHub.senderCfg w :=
    funext (fun c => funext (eh_sendLoopBody_eq w c))
  refine ⟨?_, ?_, ?_, ?_, ?_⟩
  · refine ⟨((Sender.after ServiceBus.senderCfg w sendEntryState n).emit
      (SendEvent.logDone n)).emit SendEvent.close, ?_, ?_, ?_⟩
    · intro fuel hfuel
      have h := Sender.run_count ServiceBus.senderCfg w n fuel hn
        (fun i => Sender.prepOk_unbatched _ w i rfl) hsend hwait hfuel
      simp only [ServiceBus.runSender, hsb]
      rw [show ({ trace := [SendEvent.logStart], sent := 0 } : SendState) = sendEntryState from rfl,
        h]
    · simp only [SendState.emit, sentPayloads_append, Sender.sentPayloads_after]
      simp [sentPayloads]
    · simp [SendState.emit, Sender.after, sendEntryState]
  · refine ⟨(Sender.after StorageQueue.senderCfg w sendEntryState n).emit
      (SendEvent.logDone n), ?_, ?_, ?_⟩
    · intro fuel hfuel
      have h := Sender.run_count StorageQueue.senderCfg w n fuel hn
        (fun i => Sender.prepOk_unbatched _ w i rfl) hsend hwait hfuel
      simp only [StorageQueue.runSender, hsq]
      rw [show ({ trace := [SendEvent.logStart], sent := 0 } : SendState) = sendEntryState from rfl,
        h]
    · simp only [SendState.emit, sentPayloads_append, Sender.sentPayloads_after]
      simp [sentPayloads]
    · simp [SendState.emit, Sender.after, sendEntryState]
  · intro hbatch hadd
    refine ⟨((Sender.after EventHub.senderCfg w sendEntryState n).emit
      (SendEvent.logDone n)).emit SendEvent.close, ?_, ?_, ?_⟩
    · intro fuel hfuel
      have h := Sender.run_count EventHub.senderCfg w n fuel hn
        (fun i _ => ⟨hbatch i, hadd i⟩) hsend hwait hfuel
      simp only [EventHub.runSender, heh]
      rw [show ({ trace := [SendEvent.logStart], sent := 0 } : SendState) = sendEntryState from rfl,
        h]
    · simp only [SendState.emit, sentPayloads_append, Sender.sentPayloads_after]
      simp [sentPayloads]
    · simp [SendState.emit, Sender.after, sendEntryState]
  · intro count hcount fuel
    refine ⟨?_, ?_, ?_⟩
    · have h := Sender.run_forever ServiceBus.senderCfg w count fuel hcount
        (fun i => Sender.prepOk_unbatched _ w i rfl) hsend hwait
      refine ⟨Sender.after ServiceBus.senderCfg w sendEntryState fuel, ?_, ?_⟩
      · simp only [ServiceBus.runSender, hsb]
        rw [show ({ trace := [SendEvent.logStart], sent := 0 } : SendState) = sendEntryState
          from rfl, h]
      · simp [Sender.after, sendEntryState]
    · have h := Sender.run_forever StorageQueue.senderCfg w count fuel hcount
        (fun i => Sender.prepOk_unbatched _ w i rfl) hsend hwait
      refine ⟨Sender.after StorageQueue.senderCfg w sendEntryState fuel, ?_, ?_⟩
      · simp only [StorageQueue.runSender, hsq]
        rw [show ({ trace := [SendEvent.logStart], sent := 0 } : SendState) = sendEntryState
          from rfl, h]
      · simp [Sender.after, sendEntryState]
    · intro hbatch hadd
      have h := Sender.run_forever EventHub.senderCfg w count fuel hcount
        (fun i _ => ⟨hbatch i, hadd i⟩) hsend hwait
      refine ⟨Sender.after EventHub.senderCfg w sendEntryState fuel, ?_, ?_⟩
      · simp only [EventHub.runSender, heh]
        rw [show ({ trace := [SendEvent.logStart], sent := 0 } : SendState) = sendEntryState
          from rfl, h]
      · simp [Sender.after, sendEntryState]
  · intro v count st hcount
    refine ⟨?_, ?_, ?_⟩
    · intro hret
      rw [sb_sendLoopBody_eq] at hret
      rcases Sender.body_returned ServiceBus.senderCfg v count st hcount hret with h | h
      · exact absurd h.1 (by simp [ServiceBus.senderCfg])
      · exact h
    · intro hret
      rw [sq_sendLoopBody_eq] at hret
      rcases Sender.body_returned StorageQueue.senderCfg v count st hcount hret with h | h
      · exact absurd h.1 (by simp [StorageQueue.senderCfg])
      · exact h
    · intro hret
      rw [eh_sendLoopBody_eq] at hret
      rcases Sender.body_returned EventHub.senderCfg v count st hcount hret with h | h
      · rcases h.2 with h2 | h2
        · exact Or.inl h2
        · exact Or.inr (Or.inl h2)
      · exact Or.inr (Or.inr h)

/-- Witness for the amended C13: count 2 in a world where every call
succeeds. -/
theorem runSender_count_limit_witness :
    (∃ st, (∀ fuel, 2 + 1 ≤ fuel →
        ServiceBus.runSender sampleSendWorld none ((2 : Nat) : Int) fuel = Ctl.ret st none) ∧
      sentPayloads st.trace =
        (List.range 2).map (fun k => ({ counter := k, ts := sampleSendWorld.now k } : Payload)) ∧
      st.sent = 2) ∧
    (∃ st, (∀ fuel, 2 + 1 ≤ fuel →
        EventHub.runSender sampleSendWorld none ((2 : Nat) : Int) fuel = Ctl.ret st none) ∧
      sentPayloads st.trace =
        (List.range 2).map (fun k => ({ counter := k, ts := sampleSendWorld.now k } : Payload)) ∧
      st.sent = 2) :=
  ⟨(runSender_count_limit sampleSendWorld 2 (by decide) (fun _ => rfl) (fun _ => rfl)).1,
   (runSender_count_limit sampleSendWorld 2 (by decide) (fun _ => rfl) (fun _ => rfl)).2.2.1
      (fun _ => rfl) (fun _ => rfl)⟩

/-- C14. In each of the three send loops, let k be at least 1 and within the
count when the count is positive. If the first k - 1 send calls succeed, the
waits after them are not cut short by cancellation and the k-th send call
fails, then runSender returns that failure wrapped by fmt.Errorf, for every
fuel from k on, after exactly k send calls and with sent equal to k - 1. For
the Event Hub loop the k-th send call is reached when the NewEventDataBatch and
AddEventData calls of the first k iterations succeed. -/
theorem runSender_send_failure (w : SendWorld) (count : Int) (k : Nat) (e : GoError)
    (hk : 1 ≤ k) (hcount : (k : Int) ≤ count ∨ count ≤ 0)
    (hsend : ∀ i, i + 1 < k → w.send i = none)
    (hwait : ∀ i, i + 1 < k → w.waitDone i = false)
    (hfail : w.send (k - 1) = some e) :
    (∃ st, (∀ fuel, k ≤ fuel → ServiceBus.runSender w none count fuel =
        Ctl.ret st (some (fmt.Errorf "send message" e))) ∧
      (sentPayloads st.trace).length = k ∧ st.sent = k - 1) ∧
    (∃ st, (∀ fuel, k ≤ fuel → StorageQueue.runSender w count fuel =
        Ctl.ret st (some (fmt.Errorf "enqueue message" e))) ∧
      (sentPayloads st.trace).length = k ∧ st.sent = k - 1) ∧
    ((∀ i, i < k → w.newBatch i = none ∧ w.addEvent i = none) →
      ∃ st, (∀ fuel, k ≤ fuel → EventHub.runSender w none count fuel =
          Ctl.ret st (some (fmt.Errorf "send batch" e))) ∧
        (sentPayloads st.trace).length = k ∧ st.sent = k - 1) ∧
    errors.Unwrap (fmt.Errorf "send message" e) = some e ∧
    errors.Unwrap (fmt.Errorf "enqueue message" e) = some e ∧
    errors.Unwrap (fmt.Errorf "send batch" e) = some e := by
  have hsb : ServiceBus.sendLoopBody w = Sender.body ServiceBus.senderCfg w :=
    funext (fun c => funext (sb_sendLoopBody_eq w c))
  have hsq : StorageQueue.sendLoopBody w = Sender.body StorageQueue.senderCfg w :=
    funext (fun c => funext (sq_sendLoopBody_eq w c))
  have heh : EventHub.sendLoopBody w = Sender.body EventHub.senderCfg w :=
    funext (fun c => funext (eh_sendLoopBody_eq w c))
  have hlen : ∀ cfg : SenderCfg, (sentPayloads (Sender.failState cfg w k).trace).length = k := by
    intro cfg
    have h := Sender.sentPayloads_after cfg w (k - 1)
    simp only [Sender.failState, sentPayloads_append, sentPayloads_prepEvents]
    rw [show ({ trace := [SendEvent.logStart], sent := 0 } : SendState) = sendEntryState from rfl,
      h]
    simp [sentPayloads]
    omega
  have hclose : ∀ st : SendState,
      sentPayloads (st.emit SendEvent.close).trace = sentPayloads st.trace := by
    intro st
    simp [SendState.emit, sentPayloads_append, sentPayloads]
  refine ⟨?_, ?_, ?_, rfl, rfl, rfl⟩
  · refine ⟨SendState.emit (Sender.failState ServiceBus.senderCfg w k) SendEvent.close, ?_, ?_, ?_⟩
    · intro fuel hfuel
      have h := Sender.run_send_fail ServiceBus.senderCfg w count k fuel e hk hcount
        (fun i _ => Sender.prepOk_unbatched _ w i rfl) hsend hwait hfail hfuel
      simp only [ServiceBus.runSender, hsb]
      rw [show ({ trace := [SendEvent.logStart], sent := 0 } : SendState) = sendEntryState from rfl,
        h]
      rfl
    · rw [hclose]
      exact hlen ServiceBus.senderCfg
    · rfl
  · refine ⟨(Sender.failState StorageQueue.senderCfg w k), ?_, ?_, ?_⟩
    · intro fuel hfuel
      have h := Sender.run_send_fail StorageQueue.senderCfg w count k fuel e hk hcount
        (fun i _ => Sender.prepOk_unbatched _ w i rfl) hsend hwait hfail hfuel
      simp only [StorageQueue.runSender, hsq]
      rw [show ({ trace := [SendEvent.logStart], sent := 0 } : SendState) = sendEntryState from rfl,
        h]
      rfl
    · exact hlen StorageQueue.senderCfg
    · rfl
  · intro hprep
    refine ⟨SendState.emit (Sender.failState EventHub.senderCfg w k) SendEvent.close, ?_, ?_, ?_⟩
    · intro fuel hfuel
      have h := Sender.run_send_fail EventHub.senderCfg w count k fuel e hk hcount
        (fun i hi _ => hprep i hi) hsend hwait hfail hfuel
      simp only [EventHub.runSender, heh]
      rw [show ({ trace := [SendEvent.logStart], sent := 0 } : SendState) = sendEntryState from rfl,
        h]
      rfl
    · rw [hclose]
      exact hlen EventHub.senderCfg
    · rfl

/-- Witness for C14: the second send call fails, with count 3. -/
theorem runSender_send_failure_witness :
    (∃ st, (∀ fuel, 2 ≤ fuel → ServiceBus.runSender sampleSendFailWorld none 3 fuel =
        Ctl.ret st (some (fmt.Errorf "send message" (GoError.other 5)))) ∧
      (sentPayloads st.trace).length = 2 ∧ st.sent = 2 - 1) ∧
    (∃ st, (∀ fuel, 2 ≤ fuel → EventHub.runSender sampleSendFailWorld none 3 fuel =
        Ctl.ret st (some (fmt.Errorf "send batch" (GoError.other 5)))) ∧
      (sentPayloads st.trace).length = 2 ∧ st.sent = 2 - 1) :=
  ⟨(runSender_send_failure sampleSendFailWorld 3 2 (GoError.other 5) (by decide)
      (Or.inl (by decide))
      (fun i hi => by have h0 : i = 0 := by omega
                      subst h0; rfl)
      (fun i _ => rfl) rfl).1,
   (runSender_send_failure sampleSendFailWorld 3 2 (GoError.other 5) (by decide)
      (Or.inl (by decide))
      (fun i hi => by have h0 : i = 0 := by omega
                      subst h0; rfl)
      (fun i _ => rfl) rfl).2.2.1 (fun _ _ => ⟨rfl, rfl⟩)⟩

/-! ## Blob deletion -/

section BlobSupport

theorem deleteItems_requests (deleteBlob : Nat → Option GoError) (containerName blobName : String)
    (items : List BlobItem) (found : Bool) (calls : List DeleteRequest)
    (h : ∀ r ∈ calls, r = ⟨containerName, blobName, none⟩) :
    ∀ r ∈ (deleteItems deleteBlob containerName blobName items found calls).1.2,
      r = ⟨containerName, blobName, none⟩ := by
  induction items generalizing found calls with
  | nil => simpa [deleteItems] using h
  | cons item rest ih =>
    have hext : ∀ r ∈ calls ++ [(⟨containerName, blobName, none⟩ : DeleteRequest)],
        r = ⟨containerName, blobName, none⟩ := by
      intro r hr
      rcases List.mem_append.mp hr with hr | hr
      · exact h r hr
      · simpa using hr
    unfold deleteItems
    cases item.Name with
    | none => exact ih found calls h
    | some name =>
      by_cases hname : name ≠ blobName
      · simp only [if_pos hname]
        exact ih found calls h
      · simp only [if_neg hname]
        cases item.VersionID with
        | none => exact ih true calls h
        | some version =>
          by_cases hv : version ≠ ""
          · simp only [if_pos hv]
            cases deleteBlob calls.length with
            | some err => exact hext
            | none => exact ih true _ hext
          · simp only [if_neg hv]
            exact ih true calls h

theorem deletePages_requests (deleteBlob : Nat → Option GoError) (containerName blobName : String)
    (pages : List PageResult) (found : Bool) (calls : List DeleteRequest)
    (h : ∀ r ∈ calls, r = ⟨containerName, blobName, none⟩) :
    ∀ r ∈ (deletePages deleteBlob containerName blobName pages found calls).1,
      r = ⟨containerName, blobName, none⟩ := by
  induction pages generalizing found calls with
  | nil =>
    unfold deletePages
    have hext : ∀ r ∈ calls ++ [(⟨containerName, blobName, none⟩ : DeleteRequest)],
        r = ⟨containerName, blobName, none⟩ := by
      intro r hr
      rcases List.mem_append.mp hr with hr | hr
      · exact h r hr
      · simpa using hr
    by_cases hf : found = false
    · simp only [if_pos hf]
      exact h
    · simp only [if_neg hf]
      cases deleteBlob calls.length with
      | some err => exact hext
      | none => exact hext
  | cons page rest ih =>
    unfold deletePages
    cases page.err with
    | some err => exact h
    | none =>
      have hitems := deleteItems_requests deleteBlob containerName blobName page.items found calls h
      cases hr : deleteItems deleteBlob containerName blobName page.items found calls with
      | mk fc r =>
        cases fc with
        | mk found1 calls1 =>
          rw [hr] at hitems
          cases r with
          | some err => exact hitems
          | none => exact ih found1 calls1 hitems

theorem deleteItems_skip (deleteBlob : Nat → Option GoError) (containerName blobName : String)
    (items : List BlobItem) (found : Bool) (calls : List DeleteRequest)
    (h : ∀ item ∈ items, item.Name ≠ some blobName) :
    deleteItems deleteBlob containerName blobName items found calls = ((found, calls), none) := by
  induction items with
  | nil => rfl
  | cons item rest ih =>
    have hrest := ih (fun it hit => h it (List.mem_cons_of_mem _ hit))
    have hitem := h item (List.mem_cons_self _ _)
    unfold deleteItems
    cases hn : item.Name with
    | none => exact hrest
    | some name =>
      have hname : name ≠ blobName := by
        intro heq
        rw [hn, heq] at hitem
        exact hitem rfl
      simp only [if_pos hname]
      exact hrest

theorem deletePages_skip (deleteBlob : Nat → Option GoError) (containerName blobName : String)
    (pages : List PageResult)
    (herr : ∀ page ∈ pages, page.err = none)
    (h : ∀ page ∈ pages, ∀ item ∈ page.items, item.Name ≠ some blobName) :
    deletePages deleteBlob containerName blobName pages false [] = ([], none) := by
  induction pages with
  | nil => simp [deletePages]
  | cons page rest ih =>
    unfold deletePages
    rw [herr page (List.mem_cons_self _ _),
      deleteItems_skip deleteBlob containerName blobName page.items false []
        (h page (List.mem_cons_self _ _))]
    exact ih (fun p hp => herr p (List.mem_cons_of_mem _ hp))
      (fun p hp => h p (List.mem_cons_of_mem _ hp))

theorem deleteItems_filter (deleteBlob : Nat → Option GoError) (containerName blobName : String)
    (items : List BlobItem) (found : Bool) (calls : List DeleteRequest) :
    deleteItems deleteBlob containerName blobName
        (items.filter (fun item => decide (item.Name = some blobName))) found calls =
      deleteItems deleteBlob containerName blobName items found calls := by
  induction items generalizing found calls with
  | nil => rfl
  | cons item rest ih =>
    by_cases hkeep : item.Name = some blobName
    · rw [List.filter_cons_of_pos (by simpa using hkeep)]
      unfold deleteItems
      simp only [hkeep, ne_eq, not_true_eq_false, if_false]
      cases item.VersionID with
      | none => exact ih true calls
      | some version =>
        by_cases hv : version ≠ ""
        · simp only [if_pos hv]
          cases deleteBlob calls.length with
          | some err => rfl
          | none => exact ih true _
        · simp only [if_neg hv]
          exact ih true calls
    · rw [List.filter_cons_of_neg (by simpa using hkeep)]
      rw [ih found calls]
      conv_rhs => unfold deleteItems
      cases hn : item.Name with
      | none => rfl
      | some name =>
        have hname : name ≠ blobName := by
          intro heq
          rw [hn, heq] at hkeep
          exact hkeep rfl
        simp only [if_pos hname]

theorem deletePages_keepNamed (deleteBlob : Nat → Option GoError)
    (containerName blobName : String) (pages : List PageResult) (found : Bool)
    (calls : List DeleteRequest) :
    deletePages deleteBlob containerName blobName (keepNamed blobName pages) found calls =
      deletePages deleteBlob containerName blobName pages found calls := by
  induction pages generalizing found calls with
  | nil => rfl
  | cons page rest ih =>
    show deletePages deleteBlob containerName blobName
      ({ page with items := page.items.filter (fun item => decide (item.Name = some blobName)) } ::
        keepNamed blobName rest) found calls = _
    unfold deletePages
    simp only [deleteItems_filter]
    cases page.err with
    | some err => rfl
    | none =>
      cases hr : deleteItems deleteBlob containerName blobName page.items found calls with
      | mk fc r =>
        cases fc with
        | mk found1 calls1 =>
          cases r with
          | some err => rfl
          | none => exact ih found1 calls1

end BlobSupport

/-- C15, evaluated on the code. For a listing with the versions v1 and v2 of
the blob a.txt, deleteFile issues three delete requests and none of them
addresses a version: each names the container and the blob only. In general
every request that deleteFile issues, for any listing and any results, is the
request for the blob itself with no version. -/
theorem deleteFile_requests_unversioned :
    deleteFile sampleVersionPages (fun _ => none) "data" "a.txt" =
      ([⟨"data", "a.txt", none⟩, ⟨"data", "a.txt", none⟩, ⟨"data", "a.txt", none⟩], none) ∧
    ∀ (pages : List PageResult) (deleteBlob : Nat → Option GoError)
      (containerName blobName : String),
      ∀ r ∈ (deleteFile pages deleteBlob containerName blobName).1,
        r = ⟨containerName, blobName, none⟩ := by
  refine ⟨by decide, ?_⟩
  intro pages deleteBlob containerName blobName
  exact deletePages_requests deleteBlob containerName blobName pages false []
    (fun r hr => by simp at hr)

/-- C16. When no NextPage call fails and no listed entry is named exactly
blobName, deleteFile issues no delete request and returns nil. In every
execution, whatever the calls answer, the entries whose name is not blobName
have no effect: deleteFile behaves on the listing as on the listing without
those entries. -/
theorem deleteFile_ignores_other_names (pages : List PageResult)
    (deleteBlob : Nat → Option GoError) (containerName blobName : String) :
    ((∀ page ∈ pages, page.err = none) →
      (∀ page ∈ pages, ∀ item ∈ page.items, item.Name ≠ some blobName) →
      deleteFile pages deleteBlob containerName blobName = ([], none)) ∧
    deleteFile (keepNamed blobName pages) deleteBlob containerName blobName =
      deleteFile pages deleteBlob containerName blobName :=
  ⟨fun herr h => deletePages_skip deleteBlob containerName blobName pages herr h,
   deletePages_keepNamed deleteBlob containerName blobName pages false []⟩

/-- Witness for C16: a listing with a longer name, an entry without name and
another blob, with every delete call set to fail. -/
theorem deleteFile_ignores_other_names_witness :
    deleteFile sampleOtherPages (fun _ => some GoError.canceled) "data" "a.txt" = ([], none) :=
  (deleteFile_ignores_other_names sampleOtherPages (fun _ => some GoError.canceled)
    "data" "a.txt").1 (by decide) (by decide)

/-! ## The handler and the vault -/

section HandlerSupport

theorem string_length_pos_of_ne_empty (s : String) (h : s ≠ "") : s.length > 0 := by
  have h1 : s.length ≠ 0 := by
    intro h0
    apply h
    exact String.ext (List.length_eq_zero.mp h0)
  omega

end HandlerSupport

/-- C17. For every request whose body can be read, and json.Unmarshal being
any decoder that reports an error on empty input, HelloWorldHandler answers
with status 200, the single header Content-Type application/json, and the JSON
object whose field message greets the name that the specification describes:
the query parameter when not empty, otherwise the string field name of the
decoded body when not empty, otherwise World. -/
theorem HelloWorldHandler_greets (unmarshal : String → Option (String → Option JsonValue))
    (r : Request) (hread : r.readErr = none) (hempty : unmarshal "" = none) :
    HelloWorldHandler unmarshal r =
      { status := 200
        headers := [("Content-Type", "application/json")]
        body := ResponseBody.json
          { Message := "Hello, " ++ specGreetedName unmarshal r ++
              "! Welcome to Azure Functions with Go!" } } := by
  unfold HelloWorldHandler specGreetedName
  simp only [hread]
  by_cases hq : r.queryName = ""
  · by_cases hb : r.body = ""
    · simp [hq, hb, hempty]
    · have hlen : r.body.length > 0 := string_length_pos_of_ne_empty r.body hb
      simp only [hq, hlen, if_true, ne_eq, not_true_eq_false, if_false]
      cases hu : unmarshal r.body with
      | none => simp
      | some data =>
        cases hd : data "name" with
        | none => simp [hd]
        | some v =>
          cases v with
          | str n =>
            by_cases hn : n = ""
            · simp [hd, hn]
            · simp [hd, hn]
          | null => simp [hd]
          | bool b => simp [hd]
          | number k => simp [hd]
          | composite => simp [hd]
  · simp [hq]

/-- Witness for C17: no query parameter and a body whose name is Ada. -/
theorem HelloWorldHandler_greets_witness :
    HelloWorldHandler sampleUnmarshal ⟨"", "ada", none⟩ =
      { status := 200
        headers := [("Content-Type", "application/json")]
        body := ResponseBody.json
          { Message := "Hello, " ++ specGreetedName sampleUnmarshal ⟨"", "ada", none⟩ ++
              "! Welcome to Azure Functions with Go!" } } ∧
    specGreetedName sampleUnmarshal ⟨"", "ada", none⟩ = "Ada" ∧
    specGreetedName sampleUnmarshal ⟨"", "num", none⟩ = "World" ∧
    specGreetedName sampleUnmarshal ⟨"Bob", "ada", none⟩ = "Bob" :=
  ⟨HelloWorldHandler_greets sampleUnmarshal ⟨"", "ada", none⟩ rfl rfl,
   by decide, by decide, by decide⟩

/-- C19. If DeleteSecret fails, deleteSecret makes no purge call and returns
that error. Otherwise it makes at most three PurgeDeletedSecret calls and stops
at the first that succeeds, printing and returning nil; after a failed first
or second attempt it sleeps once and tries again, whatever the error is; when
all three fail it returns the error of the third without sleeping after it. It
returns nil exactly when one of the three attempts succeeds. -/
theorem deleteSecret_purge_attempts (delete : Option GoError) (purge : Nat → Option GoError) :
    (∀ e, delete = some e → deleteSecret delete purge = ([VaultEvent.deleteSecret], some e)) ∧
    (delete = none →
      purgeCount (deleteSecret delete purge).1 ≤ 3 ∧
      (purge 0 = none →
        deleteSecret delete purge =
          ([VaultEvent.deleteSecret, VaultEvent.purge, VaultEvent.print], none)) ∧
      (∀ e0, purge 0 = some e0 → purge 1 = none →
        deleteSecret delete purge =
          ([VaultEvent.deleteSecret, VaultEvent.purge, VaultEvent.sleep, VaultEvent.purge,
            VaultEvent.print], none)) ∧
      (∀ e0 e1, purge 0 = some e0 → purge 1 = some e1 → purge 2 = none →
        deleteSecret delete purge =
          ([VaultEvent.deleteSecret, VaultEvent.purge, VaultEvent.sleep, VaultEvent.purge,
            VaultEvent.sleep, VaultEvent.purge, VaultEvent.print], none)) ∧
      (∀ e0 e1 e2, purge 0 = some e0 → purge 1 = some e1 → purge 2 = some e2 →
        deleteSecret delete purge =
          ([VaultEvent.deleteSecret, VaultEvent.purge, VaultEvent.sleep, VaultEvent.purge,
            VaultEvent.sleep, VaultEvent.purge], some e2)) ∧
      ((deleteSecret delete purge).2 = none ↔
        (purge 0 = none ∨ purge 1 = none ∨ purge 2 = none))) := by
  constructor
  · intro e he
    simp [deleteSecret, he]
  · intro hd
    subst hd
    cases h0 : purge 0 with
    | none => simp [deleteSecret, purgeLoop, h0, purgeCount]
    | some e0 =>
      cases h1 : purge 1 with
      | none => simp [deleteSecret, purgeLoop, h0, h1, purgeCount]
      | some e1 =>
        cases h2 : purge 2 with
        | none => simp [deleteSecret, purgeLoop, h0, h1, h2, purgeCount]
        | some e2 => simp [deleteSecret, purgeLoop, h0, h1, h2, purgeCount]

/-- Witness for C19: DeleteSecret succeeds, the first two purge attempts fail
and the third succeeds. -/
theorem deleteSecret_purge_attempts_witness :
    deleteSecret none (fun i => if i = 2 then none else some (GoError.other i)) =
      ([VaultEvent.deleteSecret, VaultEvent.purge, VaultEvent.sleep, VaultEvent.purge,
        VaultEvent.sleep, VaultEvent.purge, VaultEvent.print], none) :=
  ((deleteSecret_purge_attempts none
      (fun i => if i = 2 then none else some (GoError.other i))).2 rfl).2.2.2.1
    (GoError.other 0) (GoError.other 1) rfl rfl rfl

/-! ## Contexts of the calls -/

section ContextSupport

variable {Msg : Type}

theorem forLoop_mapState {σ τ ρ : Type} (f : σ → τ) (body1 : σ → Ctl σ ρ) (body2 : τ → Ctl τ ρ)
    (h : ∀ s, (body1 s).mapState f = body2 (f s)) (n : Nat) (s : σ) :
    (forLoop body1 n s).mapState f = forLoop body2 n (f s) := by
  induction n generalizing s with
  | zero => rfl
  | succ n ih =>
    simp only [forLoop]
    have hs := h s
    cases hb : body1 s with
    | next s1 =>
      rw [hb] at hs
      simp only [Ctl.mapState] at hs
      rw [← hs]
      exact ih s1
    | ret s1 r =>
      rw [hb] at hs
      simp only [Ctl.mapState] at hs
      rw [← hs]
      rfl

theorem CallEvent.scoped_receive (ctx : Context) :
    CallEvent.scoped ctx (CallEvent.receive (Context.withTimeout ctx 30) : CallEvent Msg) := by
  constructor
  · intro c h
    cases h
    exact ⟨rfl, rfl⟩
  · intro c m h
    cases h

theorem CallEvent.scoped_ack (ctx : Context) (m : Msg) :
    CallEvent.scoped ctx (CallEvent.ack ctx m) := by
  constructor
  · intro c h
    cases h
  · intro c m1 h
    cases h
    exact ⟨rfl, rfl⟩

theorem CallEvent.scoped_other (ctx : Context) (ev : CallEvent Msg)
    (h1 : ∀ c, ev ≠ CallEvent.receive c) (h2 : ∀ c m, ev ≠ CallEvent.ack c m) :
    CallEvent.scoped ctx ev :=
  ⟨fun c h => absurd h (h1 c), fun c m h => absurd h (h2 c m)⟩

theorem scoped_snoc (ctx : Context) (trace : List (CallEvent Msg)) (ev : CallEvent Msg)
    (h : ∀ e ∈ trace, CallEvent.scoped ctx e) (hev : CallEvent.scoped ctx ev) :
    ∀ e ∈ trace ++ [ev], CallEvent.scoped ctx e := by
  intro e he
  rcases List.mem_append.mp he with he | he
  · exact h e he
  · have : e = ev := by simpa using he
    rw [this]
    exact hev

theorem scoped_process (ctx : Context) (m : Msg) :
    CallEvent.scoped ctx (CallEvent.process m) :=
  CallEvent.scoped_other ctx _ (fun c h => by cases h) (fun c m1 h => by cases h)

theorem scoped_sleep (ctx : Context) :
    CallEvent.scoped ctx (CallEvent.sleep : CallEvent Msg) :=
  CallEvent.scoped_other ctx _ (fun c h => by cases h) (fun c m1 h => by cases h)

theorem scoped_close (ctx c0 : Context) :
    CallEvent.scoped ctx (CallEvent.close c0 : CallEvent Msg) :=
  CallEvent.scoped_other ctx _ (fun c h => by cases h) (fun c m1 h => by cases h)

theorem scoped_logStart (ctx : Context) :
    CallEvent.scoped ctx (CallEvent.logStart : CallEvent Msg) :=
  CallEvent.scoped_other ctx _ (fun c h => by cases h) (fun c m1 h => by cases h)

/-! ### Service Bus -/

theorem sb_completeMessagesCalls_erase (ctx : Context) (w : World Msg) (msgs : List Msg)
    (st : CallState Msg) :
    ((ServiceBus.completeMessagesCalls ctx w msgs st).1.erase,
      (ServiceBus.completeMessagesCalls ctx w msgs st).2) =
      ServiceBus.completeMessages w msgs st.erase := by
  induction msgs generalizing st with
  | nil => rfl
  | cons m rest ih =>
    simp only [ServiceBus.completeMessagesCalls, ServiceBus.completeMessages]
    have hack : (st.erase.emit (Event.process m)).ackCalls = st.ackCalls := rfl
    rw [hack]
    cases w.ack st.ackCalls with
    | some e => simp [LoopState.acked, LoopState.emit, CallState.erase, CallEvent.erase]
    | none =>
      simp only []
      rw [ih]
      congr 1
      simp [LoopState.acked, LoopState.emit, CallState.erase, CallEvent.erase]

theorem sb_loopBodyCalls_erase (ctx : Context) (w : World Msg) (st : CallState Msg) :
    (ServiceBus.loopBodyCalls ctx w st).mapState CallState.erase =
      ServiceBus.loopBody w st.erase := by
  have hclock : st.erase.clock = st.trace.length := by
    simp [CallState.erase, LoopState.clock]
  unfold ServiceBus.loopBodyCalls ServiceBus.loopBody
  rw [hclock]
  cases hc : w.cancelled st.trace.length with
  | true => simp [Ctl.mapState]
  | false =>
    simp only [Bool.false_eq_true, if_false]
    have hrecv : (st.erase).recvCalls = st.recvCalls := rfl
    rw [hrecv]
    cases herr : (w.receive st.recvCalls).err with
    | some e =>
      by_cases he : e = GoError.deadlineExceeded
      · simp [he, Ctl.mapState, CallState.erase, LoopState.recv, CallEvent.erase]
      · simp [he, Ctl.mapState, CallState.erase, LoopState.recv, CallEvent.erase]
    | none =>
      simp only []
      have h := sb_completeMessagesCalls_erase ctx w (w.receive st.recvCalls).messages
        { st with trace := st.trace ++ [CallEvent.receive (Context.withTimeout ctx 30)],
                  recvCalls := st.recvCalls + 1 }
      have harg : CallState.erase
          { st with trace := st.trace ++ [CallEvent.receive (Context.withTimeout ctx 30)],
                    recvCalls := st.recvCalls + 1 } = st.erase.recv := by
        simp [CallState.erase, LoopState.recv, CallEvent.erase]
      rw [harg] at h
      rw [← h]
      cases hr : ServiceBus.completeMessagesCalls ctx w (w.receive st.recvCalls).messages
          { st with trace := st.trace ++ [CallEvent.receive (Context.withTimeout ctx 30)],
                    recvCalls := st.recvCalls + 1 } with
      | mk st2 r =>
        cases r <;> simp [Ctl.mapState]

theorem sb_completeMessagesCalls_scoped (ctx : Context) (w : World Msg) (msgs : List Msg)
    (st : CallState Msg) (h : ∀ e ∈ st.trace, CallEvent.scoped ctx e) :
    ∀ e ∈ (ServiceBus.completeMessagesCalls ctx w msgs st).1.trace, CallEvent.scoped ctx e := by
  induction msgs generalizing st with
  | nil => exact h
  | cons m rest ih =>
    have h2 := scoped_snoc ctx _ _ (scoped_snoc ctx _ _ h (scoped_process ctx m))
      (CallEvent.scoped_ack ctx m)
    simp only [ServiceBus.completeMessagesCalls]
    cases w.ack st.ackCalls with
    | some e => exact h2
    | none => exact ih _ h2

theorem sb_loopBodyCalls_scoped (ctx : Context) (w : World Msg) (st : CallState Msg)
    (h : ∀ e ∈ st.trace, CallEvent.scoped ctx e) :
    ∀ e ∈ (ServiceBus.loopBodyCalls ctx w st).state.trace, CallEvent.scoped ctx e := by
  have h1 := scoped_snoc ctx _ _ h (CallEvent.scoped_receive ctx)
  unfold ServiceBus.loopBodyCalls
  cases hc : w.cancelled st.trace.length with
  | true => simpa [Ctl.state] using h
  | false =>
    simp only [Bool.false_eq_true, if_false]
    cases herr : (w.receive st.recvCalls).err with
    | some e =>
      by_cases he : e = GoError.deadlineExceeded
      · simp only [he, if_true, Ctl.state]
        exact h1
      · simp only [he, if_false, Ctl.state]
        exact h1
    | none =>
      simp only []
      have h2 := sb_completeMessagesCalls_scoped ctx w (w.receive st.recvCalls).messages
        { st with trace := st.trace ++ [CallEvent.receive (Context.withTimeout ctx 30)],
                  recvCalls := st.recvCalls + 1 } h1
      cases hr : ServiceBus.completeMessagesCalls ctx w (w.receive st.recvCalls).messages
          { st with trace := st.trace ++ [CallEvent.receive (Context.withTimeout ctx 30)],
                    recvCalls := st.recvCalls + 1 } with
      | mk st2 r =>
        rw [hr] at h2
        cases r <;> simpa [Ctl.state] using h2

end ContextSupport

section ContextSupportQueue

variable {Msg : Type}

/-! ### Storage Queue -/

theorem sq_deleteMessagesCalls_erase (ctx : Context) (w : World Msg) (msgs : List Msg)
    (st : CallState Msg) :
    ((StorageQueue.deleteMessagesCalls ctx w msgs st).1.erase,
      (StorageQueue.deleteMessagesCalls ctx w msgs st).2) =
      StorageQueue.deleteMessages w msgs st.erase := by
  induction msgs generalizing st with
  | nil => rfl
  | cons m rest ih =>
    simp only [StorageQueue.deleteMessagesCalls, StorageQueue.deleteMessages]
    have hack : (st.erase.emit (Event.process m)).ackCalls = st.ackCalls := rfl
    rw [hack]
    cases w.ack st.ackCalls with
    | some e => simp [LoopState.acked, LoopState.emit, CallState.erase, CallEvent.erase]
    | none =>
      simp only []
      rw [ih]
      congr 1
      simp [LoopState.acked, LoopState.emit, CallState.erase, CallEvent.erase]

theorem sq_loopBodyCalls_erase (ctx : Context) (w : World Msg) (st : CallState Msg) :
    (StorageQueue.loopBodyCalls ctx w st).mapState CallState.erase =
      StorageQueue.loopBody w st.erase := by
  have hclock : st.erase.clock = st.trace.length := by
    simp [CallState.erase, LoopState.clock]
  unfold StorageQueue.loopBodyCalls StorageQueue.loopBody
  rw [hclock]
  cases hc : w.cancelled st.trace.length with
  | true => simp [Ctl.mapState]
  | false =>
    simp only [Bool.false_eq_true, if_false]
    have hrecv : (st.erase).recvCalls = st.recvCalls := rfl
    rw [hrecv]
    cases herr : (w.receive st.recvCalls).err with
    | some e =>
      cases he : errors.Is e GoError.deadlineExceeded <;>
        simp [he, Ctl.mapState, CallState.erase, LoopState.recv, LoopState.emit, CallEvent.erase]
    | none =>
      simp only []
      by_cases hlen : (w.receive st.recvCalls).messages.length = 0
      · simp [hlen, Ctl.mapState, CallState.erase, LoopState.recv, LoopState.emit,
          CallEvent.erase]
      · simp only [hlen, if_false]
        have h := sq_deleteMessagesCalls_erase ctx w (w.receive st.recvCalls).messages
          { st with trace := st.trace ++ [CallEvent.receive (Context.withTimeout ctx 30)],
                    recvCalls := st.recvCalls + 1 }
        have harg : CallState.erase
            { st with trace := st.trace ++ [CallEvent.receive (Context.withTimeout ctx 30)],
                      recvCalls := st.recvCalls + 1 } = st.erase.recv := by
          simp [CallState.erase, LoopState.recv, CallEvent.erase]
        rw [harg] at h
        rw [← h]
        cases hr : StorageQueue.deleteMessagesCalls ctx w (w.receive st.recvCalls).messages
            { st with trace := st.trace ++ [CallEvent.receive (Context.withTimeout ctx 30)],
                      recvCalls := st.recvCalls + 1 } with
        | mk st2 r =>
          cases r <;> simp [Ctl.mapState]

theorem sq_deleteMessagesCalls_scoped (ctx : Context) (w : World Msg) (msgs : List Msg)
    (st : CallState Msg) (h : ∀ e ∈ st.trace, CallEvent.scoped ctx e) :
    ∀ e ∈ (StorageQueue.deleteMessagesCalls ctx w msgs st).1.trace, CallEvent.scoped ctx e := by
  induction msgs generalizing st with
  | nil => exact h
  | cons m rest ih =>
    have h2 := scoped_snoc ctx _ _ (scoped_snoc ctx _ _ h (scoped_process ctx m))
      (CallEvent.scoped_ack ctx m)
    simp only [StorageQueue.deleteMessagesCalls]
    cases w.ack st.ackCalls with
    | some e => exact h2
    | none => exact ih _ h2

theorem sq_loopBodyCalls_scoped (ctx : Context) (w : World Msg) (st : CallState Msg)
    (h : ∀ e ∈ st.trace, CallEvent.scoped ctx e) :
    ∀ e ∈ (StorageQueue.loopBodyCalls ctx w st).state.trace, CallEvent.scoped ctx e := by
  have h1 := scoped_snoc ctx _ _ h (CallEvent.scoped_receive ctx)
  have h1s := scoped_snoc ctx _ _ h1 (scoped_sleep ctx)
  unfold StorageQueue.loopBodyCalls
  cases hc : w.cancelled st.trace.length with
  | true => simpa [Ctl.state] using h
  | false =>
    simp only [Bool.false_eq_true, if_false]
    cases herr : (w.receive st.recvCalls).err with
    | some e =>
      cases he : errors.Is e GoError.deadlineExceeded with
      | true =>
        simp only [he, if_true, Ctl.state]
        exact h1s
      | false =>
        simp only [he, Bool.false_eq_true, if_false, Ctl.state]
        exact h1
    | none =>
      simp only []
      by_cases hlen : (w.receive st.recvCalls).messages.length = 0
      · simp only [hlen, if_true, Ctl.state]
        exact h1s
      · simp only [hlen, if_false]
        have h2 := sq_deleteMessagesCalls_scoped ctx w (w.receive st.recvCalls).messages
          { st with trace := st.trace ++ [CallEvent.receive (Context.withTimeout ctx 30)],
                    recvCalls := st.recvCalls + 1 } h1
        cases hr : StorageQueue.deleteMessagesCalls ctx w (w.receive st.recvCalls).messages
            { st with trace := st.trace ++ [CallEvent.receive (Context.withTimeout ctx 30)],
                      recvCalls := st.recvCalls + 1 } with
        | mk st2 r =>
          rw [hr] at h2
          cases r <;> simpa [Ctl.state] using h2

/-! ### The two functions -/

theorem sb_runReceiverCalls_scoped (ctx : Context) (w : World Msg)
    (newReceiver : Option GoError) (fuel : Nat) :
    ∀ e ∈ (ServiceBus.runReceiverCalls ctx w newReceiver fuel).state.trace,
      CallEvent.scoped ctx e := by
  cases newReceiver with
  | some err =>
    intro e he
    simp [ServiceBus.runReceiverCalls, Ctl.state] at he
  | none =>
    have hinv := forLoop_invariant (ServiceBus.loopBodyCalls ctx w)
      (fun s : CallState Msg => ∀ e ∈ s.trace, CallEvent.scoped ctx e)
      (fun s hs => sb_loopBodyCalls_scoped ctx w s hs) fuel
      { trace := [CallEvent.logStart], recvCalls := 0, ackCalls := 0 }
      (fun e he => by
        have : e = CallEvent.logStart := by simpa using he
        rw [this]
        exact scoped_logStart ctx)
    simp only [ServiceBus.runReceiverCalls]
    cases hr : forLoop (ServiceBus.loopBodyCalls ctx w) fuel
        { trace := [CallEvent.logStart], recvCalls := 0, ackCalls := 0 } with
    | next s =>
      rw [hr] at hinv
      simpa [Ctl.state] using hinv
    | ret s r =>
      rw [hr] at hinv
      simp only [Ctl.state] at hinv ⊢
      exact scoped_snoc ctx _ _ hinv (scoped_close ctx ctx)

theorem sq_runReceiverCalls_scoped (ctx : Context) (w : World Msg) (fuel : Nat) :
    ∀ e ∈ (StorageQueue.runReceiverCalls ctx w fuel).state.trace, CallEvent.scoped ctx e :=
  forLoop_invariant (StorageQueue.loopBodyCalls ctx w)
    (fun s : CallState Msg => ∀ e ∈ s.trace, CallEvent.scoped ctx e)
    (fun s hs => sq_loopBodyCalls_scoped ctx w s hs) fuel
    { trace := [CallEvent.logStart], recvCalls := 0, ackCalls := 0 }
    (fun e he => by
      have : e = CallEvent.logStart := by simpa using he
      rw [this]
      exact scoped_logStart ctx)

theorem sb_runReceiverCalls_erase (ctx : Context) (w : World Msg)
    (newReceiver : Option GoError) (fuel : Nat) :
    (ServiceBus.runReceiverCalls ctx w newReceiver fuel).mapState CallState.erase =
      ServiceBus.runReceiver w newReceiver fuel := by
  cases newReceiver with
  | some err => rfl
  | none =>
    have h := forLoop_mapState CallState.erase (ServiceBus.loopBodyCalls ctx w)
      (ServiceBus.loopBody w) (sb_loopBodyCalls_erase ctx w) fuel
      { trace := [CallEvent.logStart], recvCalls := 0, ackCalls := 0 }
    have hentry : CallState.erase
        ({ trace := [CallEvent.logStart], recvCalls := 0, ackCalls := 0 } : CallState Msg) =
        ServiceBus.entryState := rfl
    rw [hentry] at h
    simp only [ServiceBus.runReceiverCalls, ServiceBus.runReceiver]
    rw [← h]
    cases forLoop (ServiceBus.loopBodyCalls ctx w) fuel
        { trace := [CallEvent.logStart], recvCalls := 0, ackCalls := 0 } with
    | next s => rfl
    | ret s r => simp [Ctl.mapState, CallState.erase, LoopState.emit, CallEvent.erase]

theorem sq_runReceiverCalls_erase (ctx : Context) (w : World Msg) (fuel : Nat) :
    (StorageQueue.runReceiverCalls ctx w fuel).mapState CallState.erase =
      StorageQueue.runReceiver w fuel :=
  forLoop_mapState CallState.erase (StorageQueue.loopBodyCalls ctx w)
    (StorageQueue.loopBody w) (sq_loopBodyCalls_erase ctx w) fuel
    { trace := [CallEvent.logStart], recvCalls := 0, ackCalls := 0 }

end ContextSupportQueue

/-- Counterexample to C12 as stated. Both receivers are run from main, under
the context made by context.WithCancel on context.Background(), on a batch of
three whose second acknowledgement fails. The traces show each call with the
context it was issued under: the receive call under the 30 second child, the
two acknowledge calls under the context of main itself, which carries no
deadline. -/
theorem runReceiver_ack_context_counterexample :
    ServiceBus.runReceiverCalls mainContext sampleAckFailWorld none 1 =
      Ctl.ret ⟨[CallEvent.logStart, CallEvent.receive (Context.withTimeout mainContext 30),
        CallEvent.process 1, CallEvent.ack mainContext 1, CallEvent.process 2,
        CallEvent.ack mainContext 2, CallEvent.close mainContext], 1, 2⟩
        (some (fmt.Errorf "complete message" (GoError.other 9))) ∧
    StorageQueue.runReceiverCalls mainContext sampleAckFailWorld 1 =
      Ctl.ret ⟨[CallEvent.logStart, CallEvent.receive (Context.withTimeout mainContext 30),
        CallEvent.process 1, CallEvent.ack mainContext 1, CallEvent.process 2,
        CallEvent.ack mainContext 2], 1, 2⟩
        (some (fmt.Errorf "delete message" (GoError.other 9))) ∧
    mainContext.hasDeadline = false := by
  decide

/-- C12, amended. Let Service Bus runReceiver or Storage Queue runReceiver be
called with the context ctx. In every execution, for every world and fuel,
each receive call in the trace was issued under the child of ctx made by
context.WithTimeout with 30 seconds, which carries a deadline, and each
acknowledge call was issued under ctx itself, which carries a deadline only
when the caller gave it one; the context that main passes carries none. The
traces with contexts are those of runReceiver: without the contexts the two
executions are the same. -/
theorem runReceiver_call_contexts {Msg : Type} (ctx : Context) (w : World Msg) (fuel : Nat) :
    (∀ newReceiver,
      ∀ ev ∈ (ServiceBus.runReceiverCalls ctx w newReceiver fuel).state.trace,
        (∀ c, ev = CallEvent.receive c → c = Context.withTimeout ctx 30 ∧ c.hasDeadline = true) ∧
        (∀ c m, ev = CallEvent.ack c m → c = ctx ∧ c.hasDeadline = ctx.hasDeadline)) ∧
    (∀ ev ∈ (StorageQueue.runReceiverCalls ctx w fuel).state.trace,
        (∀ c, ev = CallEvent.receive c → c = Context.withTimeout ctx 30 ∧ c.hasDeadline = true) ∧
        (∀ c m, ev = CallEvent.ack c m → c = ctx ∧ c.hasDeadline = ctx.hasDeadline)) ∧
    (∀ newReceiver,
      (ServiceBus.runReceiverCalls ctx w newReceiver fuel).mapState CallState.erase =
        ServiceBus.runReceiver w newReceiver fuel) ∧
    ((StorageQueue.runReceiverCalls ctx w fuel).mapState CallState.erase =
      StorageQueue.runReceiver w fuel) ∧
    mainContext.hasDeadline = false :=
  ⟨fun newReceiver => sb_runReceiverCalls_scoped ctx w newReceiver fuel,
   sq_runReceiverCalls_scoped ctx w fuel,
   fun newReceiver => sb_runReceiverCalls_erase ctx w newReceiver fuel,
   sq_runReceiverCalls_erase ctx w fuel, rfl⟩

/-- Witness for the amended C12 on the run of both receivers from main on a
batch of three: the acknowledge call for message 1 is in the trace and its
context is the context of main, without deadline; the receive call is in the
trace and its context carries the 30 second deadline. -/
theorem runReceiver_call_contexts_witness :
    (CallEvent.ack mainContext 1 ∈
        (ServiceBus.runReceiverCalls mainContext sampleAckFailWorld none 1).state.trace ∧
      mainContext.hasDeadline = false) ∧
    (CallEvent.ack mainContext 1 ∈
        (StorageQueue.runReceiverCalls mainContext sampleAckFailWorld 1).state.trace ∧
      mainContext.hasDeadline = false) ∧
    (CallEvent.receive (Context.withTimeout mainContext 30) ∈
        (ServiceBus.runReceiverCalls mainContext sampleAckFailWorld none 1).state.trace ∧
      (Context.withTimeout mainContext 30).hasDeadline = true) :=
  ⟨⟨by decide,
    ((((runReceiver_call_contexts mainContext sampleAckFailWorld 1).1 none
      (CallEvent.ack mainContext 1) (by decide)).2 mainContext 1 rfl).2).trans
      (runReceiver_call_contexts mainContext sampleAckFailWorld 1).2.2.2.2⟩,
   ⟨by decide,
    ((((runReceiver_call_contexts mainContext sampleAckFailWorld 1).2.1
      (CallEvent.ack mainContext 1) (by decide)).2 mainContext 1 rfl).2).trans
      (runReceiver_call_contexts mainContext sampleAckFailWorld 1).2.2.2.2⟩,
   ⟨by decide,
    (((runReceiver_call_contexts mainContext sampleAckFailWorld 1).1 none
      (CallEvent.receive (Context.withTimeout mainContext 30)) (by decide)).1
      (Context.withTimeout mainContext 30) rfl).2⟩⟩
